import Mathlib

/-!
# Tiled zoomable image viewer (`tzivi-images.js`, `tzivi.js`): image source, tiles, zoom

A shallow embedding of `AbstractTziSource`, `TziSource`, `APITziSource`, of `TileManager`,
of `TziLayer.calcVisible`, `TziLayer.paint`, `TziLayer.reset` and `TziLayer.snapTo`, of
`Viewport.setRatio` with the methods it calls, `Viewport.onLayerResize` and
`Viewport.resetConstraints`, and of the ids of `Layer`.

Conventions of the embedding:

* JavaScript numbers are exact: ratios and pixel offsets are rationals (`ℚ`),
  counts and indices are integers (`Int`).  Rounding of IEEE doubles is not modelled, and
  neither are the non-finite values: a division by zero, `Infinity` or `NaN` in
  JavaScript, is the `0` of `ℚ` here.
* A variable that may hold `undefined` (or `null`) is an `Option`; `none` is `undefined`.
* A function that can throw returns `Except Err _`; a handler that can throw after it has
  already written to the private variables returns the written state together with
  the error.
* The `img` children of a pane are a list in document order, the associative array
  `activeImages` is a function from tile ids to `Option`; the `%` of `TileManager.update`
  by a zero tile size, `NaN` in JavaScript, is `none`.
* The regions that `dom.getRegion` measures are arguments; `dom.setXY` moves a region and
  keeps its size.
* Calls to the logger (`$debug`, `$info`, `$warn`, `$error`) do not touch the state and are
  left out.
-/

namespace Tzivi

/-! ## Data model -/

/-- What the modelled code can throw. -/
inductive Err where
  /-- Thrown by `checkReady`: "TziSource is not yet ready". -/
  | notReady
  /-- Thrown by `getTileUrl`: "The requested zoom level (z) does not exist". -/
  | zoomLevel
  /-- Thrown by `getTileUrl`: "The specified tile (c, r) does not exist at this zoom level". -/
  | tileRange
  /-- A property read on `undefined`. -/
  | typeError
  /-- A read of an identifier that is declared nowhere. -/
  | referenceError
  deriving DecidableEq, Repr

/-- One entry of `m_layers`: a fixed zoom level of the image pyramid. -/
structure FixedLayer where
  ratio : ℚ
  w : Int
  h : Int
  nRows : Int
  nCols : Int
  deriving DecidableEq

/-- The private object `m_currentLayer`. -/
structure CurrentLayer where
  ix : Int := 0
  ratio : ℚ := 0
  adjust : ℚ := 1
  w : Int := 0
  h : Int := 0
  nRows : Int := 0
  nCols : Int := 0
  deriving DecidableEq

/-- The extension object `ext` handed to `AbstractTziSource`, with the variables it closes over:
`TziSource(m_uri)` keeps `m_tileExtension`, `APITziSource(m_api, m_id)` keeps nothing. -/
inductive Ext where
  | tzi (m_uri : String) (m_tileExtension : Option String)
  | api (m_api : String) (m_id : String)
  deriving DecidableEq

/-- The `thumb` member of a parsed descriptor. -/
structure ThumbJson where
  url : Option String
  w : Option Int
  h : Option Int
  deriving DecidableEq

/-- The members of the descriptor object that `configure` reads; a member that is
absent reads as `undefined`. -/
structure Json where
  name : Option String
  width : Option Int
  height : Option Int
  tw : Option Int
  th : Option Int
  layers : Option (List FixedLayer)
  thumb : Option ThumbJson
  ext : Option String
  deriving DecidableEq

/-- The outcome of `lang.JSON.parse(o.responseText)`: an object, or an exception. -/
inductive Response where
  | parsed (json : Json)
  | unparsable (text : String)
  deriving DecidableEq

/-- Events fired through the source's event provider. -/
inductive Notice where
  | ready
  | configFailed (msg : String)
  deriving DecidableEq

/-- The private variables of one `AbstractTziSource` instance, the events it has fired
(oldest first) and the number of descriptor requests that are still in flight. -/
structure Source where
  ext : Ext
  m_ready : Bool := false
  m_name : Option String := some ""
  m_layers : Option (List FixedLayer) := some []
  m_width : Option Int := some 0
  m_height : Option Int := some 0
  m_tileWidth : Option Int := some 0
  m_tileHeight : Option Int := some 0
  m_thumbURL : Option String := none
  m_thumbWidth : Option Int := none
  m_thumbHeight : Option Int := none
  m_currentLayer : CurrentLayer := {}
  fired : List Notice := []
  pending : Nat := 0
  deriving DecidableEq

/-- A freshly constructed source. -/
def Source.init (ext : Ext) : Source := { ext := ext }

/-! ## JavaScript primitives -/

/-- Array read `a[i]`: `undefined` outside `0 .. a.length - 1`. -/
def jsIndex {α : Type} (a : List α) (i : Int) : Option α :=
  if i < 0 then none else a.get? i.toNat

/-- The function `Math.round`: the integer nearest to `x`, halves going up. -/
def jsRound (x : ℚ) : Int := ⌊x + 1 / 2⌋

/-- A number compared with `>` against a function object (`z > that.getMaxZoomLevel`, the
method itself, not its result): the function converts to `NaN`, so the comparison is
false whatever the number. -/
def gtFunctionObject (_z : Int) : Bool := false

/-- The value of an identifier that no enclosing scope declares (`mLayers` in `setLevel`,
`layers` in `findClosestLevel`): reading it throws a reference error. -/
def undeclared (α : Type) : Except Err α := .error .referenceError

/-- String concatenation with a value that may be `undefined`. -/
def jsStr (o : Option String) : String := o.getD "undefined"

/-! ## `AbstractTziSource` -/

/-- The loop of `findClosestLevel`, run over the levels from index `i` on;
the accumulator is `(closest, mindiff)`. -/
def closestScan (ratio : ℚ) : List FixedLayer → Nat → Int × ℚ → Int × ℚ
  | [], _, acc => acc
  | layer :: rest, i, acc =>
    let diff := |ratio - layer.ratio|
    if diff < acc.2 then closestScan ratio rest (i + 1) ((i : Int), diff)
    else closestScan ratio rest (i + 1) acc

/-- The private function `findClosestLevel(ratio)`. -/
def findClosestLevel (s : Source) (ratio : ℚ) : Except Err Int :=
  match s.m_layers with
  | none => .error .typeError
  | some layers =>
    match jsIndex layers s.m_currentLayer.ix with
    | none => .error .typeError
    | some cur =>
      let closest := (closestScan ratio layers 0 (s.m_currentLayer.ix, |ratio - cur.ratio|)).1
      -- check to make sure nothing really strange happened
      if closest < 0 ∨ closest ≥ layers.length then
        if closest < 0 then .ok 0
        else
          -- "else if (closest >= layers.length)": only "m_layers" is declared
          match undeclared (List FixedLayer) with
          | .error e => .error e
          | .ok layers' =>
            .ok (if closest ≥ layers'.length then (layers.length : Int) - 1 else closest)
      else .ok closest

/-- The private function `checkReady()`. -/
def checkReady (s : Source) : Except Err Unit :=
  if s.m_ready then .ok () else .error .notReady

/-- The method `setLevel(level)`.  All its throws come before its first write, so a throw
leaves the source as it was. -/
def setLevel (s : Source) (level : Int) : Except Err (Int × Source) :=
  match checkReady s with
  | .error e => .error e
  | .ok () =>
    match s.m_layers with
    | none => .error .typeError
    | some layers =>
      let clamped : Except Err Int :=
        if level < 0 ∨ level ≥ layers.length then
          -- after the warning
          let level := if level < 0 then 0 else level
          -- "if (level >= mLayers.length) level = mLayers.length - 1": only "m_layers"
          -- is declared
          match undeclared (List FixedLayer) with
          | .error e => .error e
          | .ok mLayers =>
            .ok (if level ≥ mLayers.length then (mLayers.length : Int) - 1 else level)
        else .ok level
      match clamped with
      | .error e => .error e
      | .ok level =>
        match jsIndex layers level with
        | none => .error .typeError
        | some layer =>
          .ok (level, { s with m_currentLayer :=
            { ix := level, ratio := layer.ratio, adjust := 1, w := layer.w, h := layer.h,
              nCols := layer.nCols, nRows := layer.nRows } })

/-- The method `setRatio(ratio)`; `none` is a call without a usable argument
(`lang.isValue(ratio)` false), which re-applies the current ratio. -/
def setRatio (s : Source) (ratio : Option ℚ) : Except Err (ℚ × Source) :=
  match checkReady s with
  | .error e => .error e
  | .ok () =>
    let ratio := ratio.getD s.m_currentLayer.ratio
    match findClosestLevel s ratio with
    | .error e => .error e
    | .ok level =>
      match s.m_layers.bind (fun layers => jsIndex layers level) with
      | none => .error .typeError
      | some layer =>
        let adjust := ratio / layer.ratio
        .ok (ratio, { s with m_currentLayer :=
          { ix := level, ratio := ratio, adjust := adjust,
            w := jsRound (layer.w * adjust), h := jsRound (layer.h * adjust),
            nCols := layer.nCols, nRows := layer.nRows } })

/-- The method `ext.getTileUrl(r, c, z)` of the two built-in sources. -/
def Ext.getTileUrl : Ext → Int → Int → Int → String
  | .tzi m_uri m_tileExtension, r, c, z =>
    m_uri ++ "/" ++ toString z ++ "/" ++ toString c ++ "-" ++ toString r ++ "." ++
      jsStr m_tileExtension
  | .api m_api m_id, r, c, z =>
    m_api ++ "?id=" ++ m_id ++ "&l=" ++ toString z ++ "&r=" ++ toString r ++ "&c=" ++ toString c

/-- The method `ext.getConfigUrl()` of the two built-in sources. -/
def Ext.getConfigUrl : Ext → String
  | .tzi m_uri _ => m_uri ++ "/info.json"
  | .api m_api m_id => m_api ++ "?id=" ++ m_id ++ "&info"

/-- The method `ext.processJSON(json)` of the two built-in sources. -/
def Ext.processJSON : Ext → Json → Ext
  | .tzi m_uri _, json => .tzi m_uri json.ext
  | .api m_api m_id, _ => .api m_api m_id

/-- The method `getTileUrl(r, c, z)`; `z = none` is a call without a numeric zoom level,
which takes the current level. -/
def getTileUrl (s : Source) (r c : Int) (z : Option Int) : Except Err String :=
  match checkReady s with
  | .error e => .error e
  | .ok () =>
    let z := z.getD s.m_currentLayer.ix
    if z < 0 ∨ gtFunctionObject z then .error .zoomLevel
    else
      match s.m_layers.bind (fun layers => jsIndex layers z) with
      | none => .error .typeError
      | some layer =>
        if r ≥ layer.nRows ∨ c ≥ layer.nCols ∨ r < 0 ∨ c < 0 then .error .tileRange
        else .ok (s.ext.getTileUrl r c z)

/-- The method `isReady()`. -/
def isReady (s : Source) : Bool := s.m_ready

/-- The method `getAbsWidth()`. -/
def getAbsWidth (s : Source) : Except Err (Option Int) :=
  match checkReady s with
  | .error e => .error e
  | .ok () => .ok s.m_width

/-- The method `getAbsHeight()`. -/
def getAbsHeight (s : Source) : Except Err (Option Int) :=
  match checkReady s with
  | .error e => .error e
  | .ok () => .ok s.m_height

/-- The method `getWidth()`. -/
def getWidth (s : Source) : Except Err Int :=
  match checkReady s with
  | .error e => .error e
  | .ok () => .ok s.m_currentLayer.w

/-- The method `getHeight()`. -/
def getHeight (s : Source) : Except Err Int :=
  match checkReady s with
  | .error e => .error e
  | .ok () => .ok s.m_currentLayer.h

/-- The method `getTileWidth()`: `m_tileWidth * m_currentLayer.adjust`; `none` is the `NaN`
that the product gives when `m_tileWidth` is `undefined`. -/
def getTileWidth (s : Source) : Except Err (Option ℚ) :=
  match checkReady s with
  | .error e => .error e
  | .ok () => .ok (s.m_tileWidth.map fun t => (t : ℚ) * s.m_currentLayer.adjust)

/-- The method `getTileHeight()`: `m_tileHeight * m_currentLayer.adjust`; `none` is `NaN`. -/
def getTileHeight (s : Source) : Except Err (Option ℚ) :=
  match checkReady s with
  | .error e => .error e
  | .ok () => .ok (s.m_tileHeight.map fun t => (t : ℚ) * s.m_currentLayer.adjust)

/-- The method `getNumberOfRows()`. -/
def getNumberOfRows (s : Source) : Except Err Int :=
  match checkReady s with
  | .error e => .error e
  | .ok () => .ok s.m_currentLayer.nRows

/-- The method `getNumberOfCols()`. -/
def getNumberOfCols (s : Source) : Except Err Int :=
  match checkReady s with
  | .error e => .error e
  | .ok () => .ok s.m_currentLayer.nCols

/-- The method `getRatio()`. -/
def getRatio (s : Source) : Except Err ℚ :=
  match checkReady s with
  | .error e => .error e
  | .ok () => .ok s.m_currentLayer.ratio

/-- The method `getZoomLevel()`. -/
def getZoomLevel (s : Source) : Except Err Int :=
  match checkReady s with
  | .error e => .error e
  | .ok () => .ok s.m_currentLayer.ix

/-- The method `getMaxZoomLevel()`: `m_layers.length - 1`. -/
def getMaxZoomLevel (s : Source) : Except Err Int :=
  match checkReady s with
  | .error e => .error e
  | .ok () =>
    match s.m_layers with
    | none => .error .typeError
    | some layers => .ok ((layers.length : Int) - 1)

/-- What a property read gives on `json` when the parse threw: `json` is then still the
response text, a string, and a string has none of the members `configure` reads. -/
def Json.ofText (_text : String) : Json :=
  { name := none, width := none, height := none, tw := none, th := none,
    layers := none, thumb := none, ext := none }

/-- The call `provider.fireEvent(READY_EVENT, that)`; the event was created with
`fireOnce`, so it is delivered at most once. -/
def fireReady (s : Source) : Source :=
  if Notice.ready ∈ s.fired then s else { s with fired := s.fired ++ [Notice.ready] }

/-- The call `provider.fireEvent(CONFIG_FAILED_EVENT, [that, msg])`. -/
def fireConfigFailed (s : Source) (msg : String) : Source :=
  { s with fired := s.fired ++ [Notice.configFailed msg] }

/-- The method `configure()`: nothing when already configured, else one more descriptor
request is in flight. -/
def configure (s : Source) : Source :=
  if s.m_ready then s else { s with pending := s.pending + 1 }

/-- The `success` callback of `configure`.  The `catch` block fires the failure event and
falls through to the assignments; the state returned is the one at the moment the
callback ends or throws. -/
def configureSuccess (s : Source) (o : Response) : Source × Option Err :=
  let (json, s) :=
    match o with
    | .parsed json => (json, s)
    | .unparsable text => (Json.ofText text, fireConfigFailed s "Failed to parse JSON object")
  -- assign properties
  let s := { s with m_name := json.name, m_width := json.width, m_height := json.height,
                    m_tileWidth := json.tw, m_tileHeight := json.th, m_layers := json.layers }
  let s :=
    match json.thumb with
    | some thumb => { s with m_thumbURL := thumb.url, m_thumbWidth := thumb.w,
                             m_thumbHeight := thumb.h }
    | none => s
  let s := { s with ext := s.ext.processJSON json }
  -- initialize to largest zoom level
  let s := { s with m_ready := true }
  match s.m_layers with
  | none => (s, some .typeError)
  | some layers =>
    match setLevel s ((layers.length : Int) - 1) with
    | .error e => (s, some e)
    | .ok (_, s) => (fireReady s, none)

/-- The `failure` callback of `configure`. -/
def configureFailure (s : Source) (messageText : String) : Source :=
  fireConfigFailed { s with m_ready := false }
    ("Could not retrieve configuration information from: " ++ s.ext.getConfigUrl ++
      ". Server responded: " ++ messageText)

/-- What can happen to a source during configuration: a call of `configure()`, and the
arrival of the answer to a request in flight. -/
inductive Event where
  | configure
  | fetchSuccess (o : Response)
  | fetchFailure (messageText : String)

/-- One event; an answer can only arrive for a request that is in flight. -/
def step (s : Source) : Event → Source
  | .configure => configure s
  | .fetchSuccess o =>
    if s.pending = 0 then s else (configureSuccess { s with pending := s.pending - 1 } o).1
  | .fetchFailure messageText =>
    if s.pending = 0 then s else configureFailure { s with pending := s.pending - 1 } messageText

/-- A sequence of events, oldest first. -/
def run (s : Source) (events : List Event) : Source := events.foldl step s

/-! ## `TziLayer.calcVisible` -/

/-- A region as `dom.getRegion` returns it. -/
structure Region where
  top : ℚ
  left : ℚ
  bottom : ℚ
  right : ℚ
  deriving DecidableEq

/-- A member `rows` or `cols` of `m_visibleArea`. -/
structure Span where
  start : Int := -1
  end_ : Int := -1
  deriving DecidableEq

/-- The private object `m_visibleArea`; `changed` is absent (falsy) until the first
`calcVisible`. -/
structure VisibleArea where
  rows : Span := {}
  cols : Span := {}
  changed : Bool := false
  deriving DecidableEq

/-- The private function `calcVisible(force)`.  `frame` and `pane` are the results of
`dom.getRegion` (`none` is `false`: the element is not measurable); `th`, `tw`, `nRows`,
`nCols` are what `getTileHeight()`, `getTileWidth()`, `getNumberOfRows()` and
`getNumberOfCols()` of the source return; the result is the new `m_visibleArea`. -/
def calcVisible (frame pane : Option Region) (th tw : ℚ) (nRows nCols : Int)
    (m_visibleArea : VisibleArea) (force : Bool) : VisibleArea :=
  match frame, pane with
  | some region, some paneR =>
    let hOffset := region.left - paneR.left
    let vOffset := region.top - paneR.top
    -- calculate starting position
    let startCol := ⌊hOffset / th⌋
    let startRow := ⌊vOffset / tw⌋
    let startCol := if startCol < 0 then 0 else startCol
    let startRow := if startRow < 0 then 0 else startRow
    let changed := startCol ≠ m_visibleArea.cols.start ∨ startRow ≠ m_visibleArea.rows.start
    if changed ∨ force = true then
      let ctCols := ⌈(region.right - region.left) / tw⌉
      let ctRows := ⌈(region.bottom - region.top) / th⌉
      -- find the last row and column
      let lastRow := startRow + ctRows
      let lastRow := if lastRow ≥ nRows then nRows - 1 else lastRow
      let lastCol := startCol + ctCols
      let lastCol := if lastCol ≥ nCols then nCols - 1 else lastCol
      { changed := true, rows := { start := startRow, end_ := lastRow },
        cols := { start := startCol, end_ := lastCol } }
    else { m_visibleArea with changed := false }
  | _, _ => { m_visibleArea with changed := false }

/-! ## `TileManager` -/

/-- The parts of a tile id, the string `id + "__" + ix + ":" + r + "-" + c`. -/
structure TileId where
  layer : String
  ix : Int
  r : Int
  c : Int
  deriving DecidableEq

/-- An `img` element made by `addTile`.  A number is an `Option Int`; `none` is `NaN`. -/
structure Tile where
  id : TileId
  src : String
  top : Option Int
  left : Option Int
  width : Option Int
  height : Option Int
  deriving DecidableEq

/-- The operator `%` on integers: the remainder has the sign of the dividend, and is `NaN`
for a zero divisor. -/
def jsMod (a b : Int) : Option Int := if b = 0 then none else some (Int.tmod a b)

/-- The private variables of a `TileManager`; `id` is `m_layer.getId()`.  `activeImages`
maps a tile id to its `img`, `none` standing for an entry that is absent or `null`. -/
structure TileManager where
  id : String
  ix : Int := -1
  ratio : ℚ := 0
  tw : Option Int := some 0
  th : Option Int := some 0
  ew : Option Int := some 0
  eh : Option Int := some 0
  rCol : Int := 0
  bRow : Int := 0
  activeImages : TileId → Option Tile := fun _ => none

/-- The id `addTile(r, c)` builds. -/
def TileManager.tileId (tm : TileManager) (r c : Int) : TileId :=
  { layer := tm.id, ix := tm.ix, r := r, c := c }

/-- The method `update()`. -/
def TileManager.update (tm : TileManager) (s : Source) : Except Err TileManager :=
  match getRatio s with
  | .error e => .error e
  | .ok ratio =>
    if tm.ratio = ratio then .ok tm
    else
      match getZoomLevel s, getTileHeight s, getTileWidth s, getNumberOfCols s,
        getNumberOfRows s, getWidth s, getHeight s with
      | .ok ix, .ok tileHeight, .ok tileWidth, .ok nCols, .ok nRows, .ok w, .ok h =>
        let th := tileHeight.map jsRound
        let tw := tileWidth.map jsRound
        .ok { tm with ix := ix, ratio := ratio, th := th, tw := tw, rCol := nCols - 1,
                      bRow := nRows - 1, ew := tw.bind (jsMod w), eh := th.bind (jsMod h) }
      | _, _, _, _, _, _, _ => .error .notReady

/-- The `img` element that `addTile(r, c)` creates when the tile is not active: its url,
id, position and size. -/
def TileManager.newTile (tm : TileManager) (s : Source) (r c : Int) : Except Err Tile :=
  match getTileUrl s r c none with
  | .error e => .error e
  | .ok src =>
    -- adjust size for edge tiles
    let width : Except Err (Option Int) :=
      if tm.rCol = 0 then (getWidth s).map some
      else .ok (if c = tm.rCol then tm.ew else tm.tw)
    let height : Except Err (Option Int) :=
      if tm.bRow = 0 then (getHeight s).map some
      else .ok (if r = tm.bRow then tm.eh else tm.th)
    match width, height with
    | .ok width, .ok height =>
      .ok { id := tm.tileId r c, src := src, top := tm.th.map (fun th => r * th),
            left := tm.tw.map (fun tw => c * tw), width := width, height := height }
    | .error e, _ => .error e
    | _, .error e => .error e

/-- The method `addTile(r, c)`; `pane` is the list of `img` children of `m_pane`.  When it
throws, nothing has been registered or appended. -/
def TileManager.addTile (tm : TileManager) (pane : List Tile) (s : Source) (r c : Int) :
    Except Err (TileId × TileManager × List Tile) :=
  let tileId := tm.tileId r c
  match tm.activeImages tileId with
  | some _ => .ok (tileId, tm, pane)
  | none =>
    match tm.newTile s r c with
    | .error e => .error e
    | .ok img =>
      .ok (tileId,
        { tm with activeImages := Function.update tm.activeImages img.id (some img) },
        pane ++ [img])

/-- The method `removeTile(img)`. -/
def TileManager.removeTile (tm : TileManager) (pane : List Tile) (img : Tile) :
    TileManager × List Tile :=
  ({ tm with activeImages := Function.update tm.activeImages img.id none }, pane.erase img)

/-! ## `TziLayer.paint`, `TziLayer.reset` -/

/-- The style `display` of the layer's pane. -/
inductive Display where
  | unset
  | block
  | hidden
  deriving DecidableEq

/-- The private variables of a `TziLayer` and what it shows: the source, the tile
manager, the `img` children of its pane in document order, the `display` style of
the pane and the visible area. -/
structure TziLayer where
  m_tziSource : Source
  m_tileManager : TileManager
  paneImgs : List Tile := []
  display : Display := .unset
  m_visibleArea : VisibleArea := {}

/-- A new `TziLayer` over a source; `id` is the id of its `Layer`. -/
def TziLayer.init (id : String) (m_tziSource : Source) : TziLayer :=
  { m_tziSource := m_tziSource, m_tileManager := { id := id } }

/-- The integers `a, a + 1, ..., b`, the values of a loop `for (i = a; i <= b; i++)`. -/
def intRange (a b : Int) : List Int :=
  (List.range (b + 1 - a).toNat).map fun (k : Nat) => a + (k : Int)

/-- The cells of the first loop of `paint`, in the order of the calls of `addTile`. -/
def visibleCells (va : VisibleArea) : List (Int × Int) :=
  (intRange va.rows.start va.rows.end_).flatMap fun r =>
    (intRange va.cols.start va.cols.end_).map fun c => (r, c)

/-- The cells of the second loop of `paint` ("add buffered tiles"), in the order of the
calls of `addTile`; `nRows` and `nCols` are the loop's variables, the number of rows
and of columns less one. -/
def bufferCells (va : VisibleArea) (nRows nCols : Int) : List (Int × Int) :=
  let top := if va.rows.start > 0 then va.rows.start - 1 else 0
  let bottom := if va.rows.end_ < nRows then va.rows.end_ + 1 else nRows
  let left := if va.cols.start > 0 then va.cols.start - 1 else 0
  let right := if va.cols.end_ < nCols then va.cols.end_ + 1 else nCols
  (intRange top bottom).flatMap fun r =>
    if r = top ∨ r = bottom then (intRange left right).map fun c => (r, c)
    else [(r, left), (r, right)]

/-- The calls `addTile(r, c)` of a loop over `cells`, each followed by
`visibleTiles[tileId] = true`; it stops at the first call that throws. -/
def addTiles (s : Source) :
    List (Int × Int) → TileManager → List Tile → List TileId →
      (TileManager × List Tile × List TileId) × Option Err
  | [], tm, pane, visibleTiles => ((tm, pane, visibleTiles), none)
  | (r, c) :: rest, tm, pane, visibleTiles =>
    match tm.addTile pane s r c with
    | .error e => ((tm, pane, visibleTiles), some e)
    | .ok (tileId, tm, pane) => addTiles s rest tm pane (tileId :: visibleTiles)

/-- The ids that a loop of `addTile` calls over `cells` marks in `visibleTiles`. -/
def cellIds (tm : TileManager) (cells : List (Int × Int)) : List TileId :=
  cells.map fun cell => tm.tileId cell.1 cell.2

/-- The loop "remove non-visible tiles" of `paint` over `allTiles`, the `img` children of
the pane when the loop starts. -/
def removeHidden (visibleTiles : List TileId) (allTiles : List Tile)
    (tm : TileManager) (pane : List Tile) : TileManager × List Tile :=
  allTiles.foldl
    (fun st img => if img.id ∈ visibleTiles then st else st.1.removeTile st.2 img)
    (tm, pane)

/-- The part of `paint` that follows the test of `m_visibleArea.changed`: hide the pane,
add the visible and the buffered tiles, remove the others, show the pane.  A throw of
`addTile` ends it there. -/
def TziLayer.paintTiles (L : TziLayer) : TziLayer × Option Err :=
  let s := L.m_tziSource
  -- hide while we're adding tiles
  let L := { L with display := Display.hidden }
  -- add all the visible tiles
  match addTiles s (visibleCells L.m_visibleArea) L.m_tileManager L.paneImgs [] with
  | ((tm, pane, _), some e) => ({ L with m_tileManager := tm, paneImgs := pane }, some e)
  | ((tm, pane, visibleTiles), none) =>
    -- add buffered tiles
    match getNumberOfRows s, getNumberOfCols s with
    | .ok nRows, .ok nCols =>
      match addTiles s (bufferCells L.m_visibleArea (nRows - 1) (nCols - 1)) tm pane
          visibleTiles with
      | ((tm, pane, _), some e) => ({ L with m_tileManager := tm, paneImgs := pane }, some e)
      | ((tm, pane, visibleTiles), none) =>
        -- remove non-visible tiles
        let st := removeHidden visibleTiles pane tm pane
        -- display the layer
        ({ L with m_tileManager := st.1, paneImgs := st.2, display := Display.block }, none)
    | .error e, _ => ({ L with m_tileManager := tm, paneImgs := pane }, some e)
    | _, .error e => ({ L with m_tileManager := tm, paneImgs := pane }, some e)

/-- The method `paint()` of a `TziLayer`.  `frame` and `pane` are the regions
`calcVisible` measures, `th` and `tw` what `getTileHeight()` and `getTileWidth()` return
there. -/
def TziLayer.paint (L : TziLayer) (frame pane : Option Region) (th tw : ℚ) :
    TziLayer × Option Err :=
  if isReady L.m_tziSource = false then (L, none)
  else
    let L := { L with display := Display.block }
    match getNumberOfRows L.m_tziSource, getNumberOfCols L.m_tziSource with
    | .ok nRows, .ok nCols =>
      let area := calcVisible frame pane th tw nRows nCols L.m_visibleArea false
      let L := { L with m_visibleArea := area }
      -- exit if row/column position didn't change
      if L.m_visibleArea.changed = false then (L, none)
      else L.paintTiles
    | .error e, _ => (L, some e)
    | _, .error e => (L, some e)

/-- The method `reset()` of a `TziLayer`; `ratio` is `m_viewport.getRatio()`. -/
def TziLayer.reset (L : TziLayer) (ratio : ℚ) : TziLayer × Option Err :=
  if isReady L.m_tziSource = false then (L, none)
  else
    match setRatio L.m_tziSource (some ratio) with
    | .error e => (L, some e)
    | .ok (_, s) =>
      let L := { L with m_tziSource := s }
      -- update tile properties
      match L.m_tileManager.update s with
      | .error e => (L, some e)
      | .ok tm =>
        -- remove tiles
        let st := L.paneImgs.foldl (fun st img => st.1.removeTile st.2 img) (tm, L.paneImgs)
        -- reset starting position
        ({ L with m_tileManager := st.1, paneImgs := st.2, m_visibleArea := {} }, none)

/-! ## Sequences of `setRatio` and `setLevel` calls -/

/-- A call of one of the two methods that write `m_currentLayer`. -/
inductive Call where
  | setRatio (ratio : Option ℚ)
  | setLevel (level : Int)

/-- The source after a call; a call that throws leaves it as it was. -/
def applyCall (s : Source) : Call → Source
  | .setRatio ratio =>
    match setRatio s ratio with
    | .ok (_, s') => s'
    | .error _ => s
  | .setLevel level =>
    match setLevel s level with
    | .ok (_, s') => s'
    | .error _ => s

/-- The source after a sequence of calls, oldest first. -/
def applyCalls (s : Source) (calls : List Call) : Source := calls.foldl applyCall s

/-! ## `Viewport` -/

/-- The members of the configuration object `cfg` of a `Viewport` that its zoom reads,
with the defaults of `init`. -/
structure ViewportCfg where
  width : ℚ := 600
  height : ℚ := 400
  maxRatio : ℚ := 1
  minRatio : ℚ := 1 / 1000
  ratio : ℚ := 1

/-- The private object `m_dim`. -/
structure Dimensions where
  width : Int := 0
  height : Int := 0

/-- Events fired through the viewport's event provider; the position that comes with a
pan is left out. -/
inductive ViewportNotice where
  | zoom (ratio : ℚ)
  | pan
  | resize (width height : ℚ)
  deriving DecidableEq

/-- The configuration and dimensions of a `Viewport` and the events it has fired (oldest
first).  The frame, the pane and the layers are elements of the page and are not
part of this state. -/
structure Viewport where
  cfg : ViewportCfg := {}
  m_dim : Dimensions := {}
  fired : List ViewportNotice := []

/-- The method `getRatio()` of a `Viewport`. -/
def Viewport.getRatio (vp : Viewport) : ℚ := vp.cfg.ratio

/-- The method `setCenter(iAbsX, iAbsY)`, as far as the viewport's state goes: unless a
coordinate is negative it moves the pane and fires the pan event. -/
def Viewport.setCenter (vp : Viewport) (iAbsX iAbsY : ℚ) : Viewport :=
  if iAbsX < 0 ∨ iAbsY < 0 then vp
  else { vp with fired := vp.fired ++ [ViewportNotice.pan] }

/-- The private function `resetPane(absX, absY)`; `none` is an argument that is not a
number.  It resizes the pane, resets the drag constraints and centers. -/
def Viewport.resetPane (vp : Viewport) (absX absY : Option ℚ) : Viewport :=
  vp.setCenter (absX.getD 0) (absY.getD 0)

/-- The method `setRatio(value)` of a `Viewport`; `value = none` is a call without a usable
argument.  `center` is what `getCenter()` returns: `none` for `false` (the viewport is
not visible), else the two coordinates, each a number or `none` for the
out-of-bounds marker.  `hideLayers` and `showLayers` act on the layers only. -/
def Viewport.setRatio (vp : Viewport) (value : Option ℚ)
    (center : Option (Option ℚ × Option ℚ)) : ℚ × Viewport :=
  -- adjust supplied ratio as needed
  let value := value.getD vp.cfg.ratio
  let value :=
    if value > vp.cfg.maxRatio then vp.cfg.maxRatio
    else if value < vp.cfg.minRatio then vp.cfg.minRatio
    else value
  -- update the zoom ratio and content pane dimensions
  let cfg := { vp.cfg with ratio := value }
  let vp := { vp with cfg := cfg,
                      m_dim := { width := jsRound (cfg.width * cfg.ratio),
                                 height := jsRound (cfg.height * cfg.ratio) } }
  let iAbsX : Option ℚ := match center with
    | none => some 0
    | some c => c.1
  let iAbsY : Option ℚ := match center with
    | none => some 0
    | some c => c.2
  -- reset to center
  let vp := vp.resetPane iAbsX iAbsY
  let vp := { vp with fired := vp.fired ++ [ViewportNotice.zoom vp.cfg.ratio] }
  (vp.cfg.ratio, vp)

/-- Every active entry of `activeImages` is an `img` child of the pane under its own id;
`addTile` and `removeTile` keep it so, and it holds of a new layer. -/
def Synced (tm : TileManager) (pane : List Tile) : Prop :=
  ∀ (id : TileId) (img : Tile), tm.activeImages id = some img → img ∈ pane ∧ img.id = id

/-- The source is ready, its current level is a level of the list and `m_currentLayer`
carries the grid of that level, as `setLevel` and `setRatio` leave it. -/
def Source.GridCurrent (s : Source) : Prop :=
  s.m_ready = true ∧ ∃ (layers : List FixedLayer) (layer : FixedLayer),
    s.m_layers = some layers ∧ jsIndex layers s.m_currentLayer.ix = some layer ∧
    layer.nRows = s.m_currentLayer.nRows ∧ layer.nCols = s.m_currentLayer.nCols

/-! ## `Viewport.onLayerResize`, `Viewport.resetConstraints` -/

/-- The comparison `a > b` of two values that may be `undefined` or `NaN` (`none`): false as
soon as one of them is. -/
def jsGt (a b : Option ℚ) : Bool :=
  match a, b with
  | some x, some y => decide (x > y)
  | _, _ => false

/-- The quotient `a / b` of two values that may be `undefined` or `NaN`. -/
def jsDiv (a b : Option ℚ) : Option ℚ :=
  match a, b with
  | some x, some y => some (x / y)
  | _, _ => none

/-- The product `a * b` of two values that may be `undefined` or `NaN`. -/
def jsMul (a b : Option ℚ) : Option ℚ :=
  match a, b with
  | some x, some y => some (x * y)
  | _, _ => none

/-- The private function `onLayerResize(layer)` of a `Viewport`; `w` and `h` are what
`layer.getWidth()` and `layer.getHeight()` return (`none` is `undefined`), `center` what
`getCenter()` returns inside `setRatio`. -/
def Viewport.onLayerResize (vp : Viewport) (w h : Option ℚ)
    (center : Option (Option ℚ × Option ℚ)) : Viewport :=
  let wider := jsGt w (some vp.cfg.width)
  let cfg := if wider then { vp.cfg with width := w.getD vp.cfg.width } else vp.cfg
  let taller := jsGt h (some cfg.height)
  let cfg := if taller then { cfg with height := h.getD cfg.height } else cfg
  let changed := wider || taller
  let vp := { vp with cfg := cfg }
  if changed then
    let vp := (vp.setRatio none center).2
    { vp with fired := vp.fired ++ [ViewportNotice.resize vp.cfg.width vp.cfg.height] }
  else vp

/-- The four arguments that `resetConstraints` hands to `setXConstraint` and
`setYConstraint` of the drag-and-drop object of the pane. -/
structure Constraints where
  mvLeft : ℚ
  mvRight : ℚ
  mvUp : ℚ
  mvDown : ℚ
  deriving DecidableEq

/-- The region of an element after `dom.setXY(el, [left, top])`: moved, of the same size. -/
def Region.setXY (r : Region) (left top : ℚ) : Region :=
  { top := top, left := left, bottom := top + (r.bottom - r.top),
    right := left + (r.right - r.left) }

/-- The method `resetConstraints()`; `paneR` and `region` are the regions of the pane and of
the frame when it is called, both measurable.  It returns the region of the pane
when it ends and the constraints it sets. -/
def Viewport.resetConstraints (vp : Viewport) (paneR region : Region) : Region × Constraints :=
  -- adjust in case the pane has shrunk out of bounds
  let adjLeft := if region.right > paneR.right then region.right - vp.m_dim.width else paneR.left
  let adjTop := if region.bottom > paneR.bottom then region.bottom - vp.m_dim.height
    else paneR.top
  -- make sure we are as wide and/or tall as the viewport
  let adjLeft := if adjLeft > region.left then region.left else adjLeft
  let adjTop := if adjTop > region.top then region.top else adjTop
  -- set the position of the pane, if needed
  let paneR := if paneR.left ≠ adjLeft ∨ paneR.top ≠ adjTop then paneR.setXY adjLeft adjTop
    else paneR
  -- calculate the maximum amount of movement allowed
  (paneR, { mvLeft := max 0 (paneR.right - region.right),
            mvRight := max 0 (region.left - paneR.left),
            mvDown := max 0 (region.top - paneR.top),
            mvUp := max 0 (paneR.bottom - region.bottom) })

/-- The horizontal offsets `d` of a drag that `setXConstraint(mvLeft, mvRight)` allows: at
most `mvLeft` pixels to the left and `mvRight` to the right. -/
def Constraints.allowsX (k : Constraints) (d : ℚ) : Bool :=
  decide (-k.mvLeft ≤ d ∧ d ≤ k.mvRight)

/-- The vertical offsets `d` of a drag that `setYConstraint(mvUp, mvDown)` allows: at most
`mvUp` pixels up and `mvDown` down. -/
def Constraints.allowsY (k : Constraints) (d : ℚ) : Bool :=
  decide (-k.mvUp ≤ d ∧ d ≤ k.mvDown)

/-! ## `Layer` -/

/-- The variables of `tzivi.js` that all `Layer` objects of a page share: the counter
`g_LayerId` of the file, and `m_id`, which the constructor assigns without a
declaration (`m_id = "tzilayer_" + g_LayerId++`), so that it is one global variable;
`none` while no layer has been constructed. -/
structure Page where
  g_LayerId : Int := 1
  m_id : Option String := none
  deriving DecidableEq

/-- The private variables of one `Layer` object; its pane and viewport are elements of
the page and left out. -/
structure Layer where
  m_name : String := "unknown"
  deriving DecidableEq

/-- The constructor `Layer(ext)`, for a valid extension: the page after it and the new
object. -/
def Layer.init (page : Page) : Page × Layer :=
  ({ g_LayerId := page.g_LayerId + 1, m_id := some ("tzilayer_" ++ toString page.g_LayerId) }, {})

/-- The method `getId()` of a `Layer`: it reads `m_id`, the variable of the page. -/
def Layer.getId (_that : Layer) (page : Page) : Except Err String :=
  match page.m_id with
  | some id => .ok id
  | none => .error .referenceError

/-- The method `setName(n)` of a `Layer`. -/
def Layer.setName (that : Layer) (n : String) : Layer := { that with m_name := n }

/-- The method `getName()` of a `Layer`. -/
def Layer.getName (that : Layer) : String := that.m_name

/-! ## `TziLayer.snapTo`, sequences of `reset` and `paint` -/

/-- The method `snapTo()` of a `TziLayer`: the argument of its call
`m_viewport.setRatio(ratio)`, a number or `none` for `NaN`; the outer `none` is the
return without a call when the viewport is not visible.  `reg` is what
`m_viewport.getRegion()` returns, `none` for `false` (not visible). -/
def TziLayer.snapTo (L : TziLayer) (reg : Option Region) : Except Err (Option (Option ℚ)) :=
  match reg with
  | none => .ok none
  | some reg =>
    -- resize so that the entire image is visible
    match getAbsWidth L.m_tziSource, getAbsHeight L.m_tziSource with
    | .ok max_w, .ok max_h =>
      let max_w : Option ℚ := max_w.map fun (n : Int) => (n : ℚ)
      let max_h : Option ℚ := max_h.map fun (n : Int) => (n : ℚ)
      let vp_w : Option ℚ := some (reg.right - reg.left)
      let vp_h : Option ℚ := some (reg.bottom - reg.top)
      let ratio :=
        if jsGt max_w max_h then
          -- if horizontal
          let ratio := jsDiv vp_w max_w
          if jsGt (jsMul ratio max_h) vp_h then jsDiv vp_h max_h else ratio
        else
          let ratio := jsDiv vp_h max_h
          if jsGt (jsMul ratio max_w) vp_w then jsDiv vp_w max_w else ratio
      -- update the viewport's zoom ratio
      .ok (some ratio)
    | .error e, _ => .error e
    | _, .error e => .error e

/-- A call of one of the two methods of a `TziLayer` that its `Layer` and the viewport
drive; the arguments of `reset` and `paint` are those of `TziLayer.reset` and
`TziLayer.paint`. -/
inductive LayerCall where
  | reset (ratio : ℚ)
  | paint (frame pane : Option Region) (th tw : ℚ)

/-- The layer after a call; what a call that throws had written stays. -/
def TziLayer.call (L : TziLayer) : LayerCall → TziLayer
  | .reset ratio => (L.reset ratio).1
  | .paint frame pane th tw => (L.paint frame pane th tw).1

/-- A sequence of calls on one layer, oldest first. -/
def TziLayer.calls (L : TziLayer) (cs : List LayerCall) : TziLayer :=
  cs.foldl TziLayer.call L

/-- The geometry that the tile manager of a layer has cached is the one `update()` computes
from the source of the layer as it is now. -/
def TziLayer.GeometryCurrent (L : TziLayer) : Prop :=
  L.m_tileManager.ix = L.m_tziSource.m_currentLayer.ix ∧
  L.m_tileManager.ratio = L.m_tziSource.m_currentLayer.ratio ∧
  L.m_tileManager.tw = (L.m_tziSource.m_tileWidth.map fun t =>
    (t : ℚ) * L.m_tziSource.m_currentLayer.adjust).map jsRound ∧
  L.m_tileManager.th = (L.m_tziSource.m_tileHeight.map fun t =>
    (t : ℚ) * L.m_tziSource.m_currentLayer.adjust).map jsRound ∧
  L.m_tileManager.rCol = L.m_tziSource.m_currentLayer.nCols - 1 ∧
  L.m_tileManager.bRow = L.m_tziSource.m_currentLayer.nRows - 1 ∧
  L.m_tileManager.ew = L.m_tileManager.tw.bind (jsMod L.m_tziSource.m_currentLayer.w) ∧
  L.m_tileManager.eh = L.m_tileManager.th.bind (jsMod L.m_tziSource.m_currentLayer.h)

/-! ## Sample data -/

/-- The three-level pyramid of a 1000 x 800 image cut into 256 x 256 tiles, with ratios
`1.0`, `0.5`, `0.25`. -/
def pyramidLayers : List FixedLayer :=
  [{ ratio := 1, w := 1000, h := 800, nRows := 4, nCols := 4 },
   { ratio := 1 / 2, w := 500, h := 400, nRows := 2, nCols := 2 },
   { ratio := 1 / 4, w := 250, h := 200, nRows := 1, nCols := 1 }]

/-- A descriptor with the levels `pyramidLayers`. -/
def pyramidJson : Json :=
  { name := some "img", width := some 1000, height := some 800, tw := some 256, th := some 256,
    layers := some pyramidLayers, thumb := none, ext := some "jpeg" }

/-- A new source after `configure()` and the arrival of `pyramidJson`. -/
def pyramidSource : Source :=
  run (Source.init (.tzi "http://host/img" none)) [.configure, .fetchSuccess (.parsed pyramidJson)]

/-- The two levels `1.0` and `0.5` of the same image. -/
def twoLevelLayers : List FixedLayer :=
  [{ ratio := 1, w := 1000, h := 800, nRows := 4, nCols := 4 },
   { ratio := 1 / 2, w := 500, h := 400, nRows := 2, nCols := 2 }]

/-- A descriptor with the levels `twoLevelLayers`. -/
def twoLevelJson : Json :=
  { name := some "img", width := some 1000, height := some 800, tw := some 256, th := some 256,
    layers := some twoLevelLayers, thumb := none, ext := some "jpeg" }

/-- A new source after `configure()` and the arrival of `twoLevelJson`. -/
def twoLevelSource : Source :=
  run (Source.init (.tzi "http://host/img" none)) [.configure, .fetchSuccess (.parsed twoLevelJson)]

/-- A new source after `configure()` and the arrival of an answer that is not JSON. -/
def unparsedSource : Source :=
  run (Source.init (.tzi "http://host/img" none)) [.configure, .fetchSuccess (.unparsable "<html>")]

/-- A new source after `configure()`, a failed fetch, a second `configure()` and the
arrival of `twoLevelJson`. -/
def retriedSource : Source :=
  run (Source.init (.tzi "http://host/img" none))
    [.configure, .fetchFailure "Not Found", .configure, .fetchSuccess (.parsed twoLevelJson)]

/-- A viewport frame of 500 x 400 pixels whose corner lies 300 pixels right of and 130
pixels below the corner of the pane. -/
def offsetFrame : Region := { top := 130, left := 300, bottom := 530, right := 800 }

/-- The pane of a 2048 x 1024 image, cut into 8 x 8 tiles of 256 x 128 pixels. -/
def widePane : Region := { top := 0, left := 0, bottom := 1024, right := 2048 }

/-- The source `pyramidSource` after `setRatio(1.0)`: level 0, a 4 x 4 grid. -/
def fullSizeSource : Source := applyCall pyramidSource (.setRatio (some 1))

/-- A new layer over `pyramidSource` after `reset()` under a viewport at ratio `1.0`. -/
def fullSizeLayer : TziLayer := (TziLayer.reset (TziLayer.init "tzilayer_1" pyramidSource) 1).1

/-- A viewport frame of 500 x 400 pixels. -/
def cornerFrame : Region := { top := 0, left := 0, bottom := 400, right := 500 }

/-- A viewport frame of 900 x 700 pixels with the same corner as `cornerFrame`. -/
def grownFrame : Region := { top := 0, left := 0, bottom := 700, right := 900 }

/-- The pane of the 1000 x 800 image, its corner at the corner of the frame. -/
def cornerPane : Region := { top := 0, left := 0, bottom := 800, right := 1000 }

/-- The visible area `calcVisible` stores for `cornerFrame` over `cornerPane` with
256 x 256 tiles in a 4 x 4 grid. -/
def cornerArea : VisibleArea :=
  { rows := { start := 0, end_ := 2 }, cols := { start := 0, end_ := 2 }, changed := true }

/-- A descriptor of a 1024 x 256 image in one level, cut into 4 x 4 tiles 256 wide and
64 high. -/
def stripJson : Json :=
  { name := some "strip", width := some 1024, height := some 256, tw := some 256, th := some 64,
    layers := some [{ ratio := 1, w := 1024, h := 256, nRows := 4, nCols := 4 }],
    thumb := none, ext := some "png" }

/-- A new source after `configure()` and the arrival of `stripJson`. -/
def stripSource : Source :=
  run (Source.init (.api "http://host/api" "strip")) [.configure, .fetchSuccess (.parsed stripJson)]

/-- A new layer over `stripSource` after `reset()` under a viewport at ratio `1.0`. -/
def stripLayer : TziLayer := (TziLayer.reset (TziLayer.init "tzilayer_2" stripSource) 1).1

/-- The pane of the strip image, panned 600 pixels to the left of the frame's corner. -/
def stripPane : Region := { top := 0, left := -600, bottom := 256, right := 424 }

/-- A viewport frame of 300 x 100 pixels, inside `stripPane`. -/
def stripFrame : Region := { top := 0, left := 0, bottom := 100, right := 300 }

/-- The tile manager of layer `tzilayer_1` after `update()` on `fullSizeSource`, with no
active tile. -/
def fullSizeManager : TileManager :=
  { id := "tzilayer_1", ix := 0, ratio := 1, tw := some 256, th := some 256,
    ew := some 232, eh := some 32, rCol := 3, bRow := 3 }

/-- The layer `fullSizeLayer` inside `paint`, once `calcVisible` has stored `cornerArea`. -/
def cornerPainting : TziLayer :=
  { fullSizeLayer with display := Display.block, m_visibleArea := cornerArea }

/-- The tile manager of layer `tzilayer_2` after `update()` on `stripSource`, with no
active tile. -/
def stripManager : TileManager :=
  { id := "tzilayer_2", ix := 0, ratio := 1, tw := some 256, th := some 64,
    ew := some 0, eh := some 0, rCol := 3, bRow := 3 }

/-- The visible area `calcVisible` stores for `stripFrame` over `stripPane` with tiles 256
wide and 64 high in a 4 x 4 grid. -/
def stripArea : VisibleArea :=
  { rows := { start := 0, end_ := 2 }, cols := { start := 9, end_ := 3 }, changed := true }

/-- The layer `stripLayer` inside `paint`, once `calcVisible` has stored `stripArea`. -/
def stripPainting : TziLayer :=
  { stripLayer with display := Display.block, m_visibleArea := stripArea }

/-- A viewport frame of 500 x 400 pixels that lies 300 pixels beyond the right edge of
`cornerPane`. -/
def farFrame : Region := { top := 0, left := 1300, bottom := 400, right := 1800 }

/-- The visible area `calcVisible` stores for `farFrame` over `cornerPane` with 256 x 256
tiles in a 4 x 4 grid. -/
def farArea : VisibleArea :=
  { rows := { start := 0, end_ := 2 }, cols := { start := 5, end_ := 3 }, changed := true }

/-- The layer `fullSizeLayer` inside `paint`, once `calcVisible` has stored `farArea`. -/
def farPainting : TziLayer :=
  { fullSizeLayer with display := Display.block, m_visibleArea := farArea }

/-- A viewport zoomed out to ratio `0.5`: its pane measures 300 x 200. -/
def halfViewport : Viewport :=
  { cfg := { ratio := 1 / 2 }, m_dim := { width := 300, height := 200 } }

/-- The frame of a viewport of 600 x 400 pixels. -/
def wideFrame : Region := { top := 0, left := 0, bottom := 400, right := 600 }

/-- The pane of `halfViewport`, at the corner of `wideFrame`. -/
def smallPane : Region := { top := 0, left := 0, bottom := 200, right := 300 }

/-- The pane of a viewport at ratio `1.0` over the 1000 x 800 image, dragged 100 pixels
left and 50 pixels up. -/
def draggedPane : Region := { top := -50, left := -100, bottom := 750, right := 900 }

/-- A viewport at ratio `1.0` whose content measures 1000 x 800. -/
def imageViewport : Viewport :=
  { cfg := { width := 1000, height := 800 }, m_dim := { width := 1000, height := 800 } }

/-! ## Closest level -/

/-- The loop of `findClosestLevel` either keeps its accumulator, and then no level it
passed over is strictly closer, or ends on the first level it passed over that is
closest, and that level is strictly closer than the accumulator was. -/
theorem closestScan_spec (ratio : ℚ) (rest : List FixedLayer) :
    ∀ (k : Nat) (acc : Int × ℚ),
      (closestScan ratio rest k acc = acc ∧ ∀ l ∈ rest, acc.2 ≤ |ratio - l.ratio|) ∨
      (∃ (i : Nat) (l : FixedLayer), rest.get? i = some l ∧
        closestScan ratio rest k acc = (((k + i : Nat) : Int), |ratio - l.ratio|) ∧
        |ratio - l.ratio| < acc.2 ∧
        (∀ (j : Nat) (l' : FixedLayer), j < i → rest.get? j = some l' →
          |ratio - l.ratio| < |ratio - l'.ratio|) ∧
        ∀ l' ∈ rest, |ratio - l.ratio| ≤ |ratio - l'.ratio|) := by
  induction rest with
  | nil => intro k acc; left; simp [closestScan]
  | cons layer rest ih =>
    intro k acc
    by_cases hlt : |ratio - layer.ratio| < acc.2
    · have hstep : closestScan ratio (layer :: rest) k acc
          = closestScan ratio rest (k + 1) ((k : Int), |ratio - layer.ratio|) := by
        simp [closestScan, hlt]
      rcases ih (k + 1) ((k : Int), |ratio - layer.ratio|) with ⟨heq, hall⟩ | ⟨i, l, hi, heq, hlt2, hfirst, hall⟩
      · right
        refine ⟨0, layer, rfl, ?_, hlt, ?_, ?_⟩
        · rw [hstep, heq]; simp
        · intro j l' hj; exact absurd hj (Nat.not_lt_zero j)
        · intro l' hl'
          rcases List.mem_cons.mp hl' with rfl | hmem
          · exact le_refl _
          · exact hall l' hmem
      · right
        refine ⟨i + 1, l, by simpa using hi, ?_, lt_trans hlt2 hlt, ?_, ?_⟩
        · rw [hstep, heq]
          have : k + 1 + i = k + (i + 1) := by omega
          rw [this]
        · intro j l' hj hget
          cases j with
          | zero =>
            have : l' = layer := by simpa using hget.symm
            rw [this]; exact hlt2
          | succ j => exact hfirst j l' (by omega) (by simpa using hget)
        · intro l' hl'
          rcases List.mem_cons.mp hl' with rfl | hmem
          · exact le_of_lt hlt2
          · exact hall l' hmem
    · have hstep : closestScan ratio (layer :: rest) k acc
          = closestScan ratio rest (k + 1) acc := by
        simp [closestScan, hlt]
      have hge : acc.2 ≤ |ratio - layer.ratio| := not_lt.mp hlt
      rcases ih (k + 1) acc with ⟨heq, hall⟩ | ⟨i, l, hi, heq, hlt2, hfirst, hall⟩
      · left
        refine ⟨by rw [hstep, heq], ?_⟩
        intro l' hl'
        rcases List.mem_cons.mp hl' with rfl | hmem
        · exact hge
        · exact hall l' hmem
      · right
        refine ⟨i + 1, l, by simpa using hi, ?_, hlt2, ?_, ?_⟩
        · rw [hstep, heq]
          have : k + 1 + i = k + (i + 1) := by omega
          rw [this]
        · intro j l' hj hget
          cases j with
          | zero =>
            have : l' = layer := by simpa using hget.symm
            rw [this]; exact lt_of_lt_of_le hlt2 hge
          | succ j => exact hfirst j l' (by omega) (by simpa using hget)
        · intro l' hl'
          rcases List.mem_cons.mp hl' with rfl | hmem
          · exact le_trans (le_of_lt hlt2) hge
          · exact hall l' hmem

theorem jsIndex_eq_some {α : Type} {a : List α} {i : Int} {x : α} (h : jsIndex a i = some x) :
    0 ≤ i ∧ i < a.length ∧ a.get? i.toNat = some x := by
  unfold jsIndex at h
  split at h
  · exact absurd h (by simp)
  · rename_i hneg
    have h0 : 0 ≤ i := not_lt.mp hneg
    refine ⟨h0, ?_, h⟩
    have hlt : i.toNat < a.length := by
      rcases List.get?_eq_some.mp h with ⟨hlt, _⟩
      exact hlt
    omega

theorem jsIndex_natCast {α : Type} (a : List α) (i : Nat) : jsIndex a (i : Int) = a.get? i := by
  simp [jsIndex]

theorem jsIndex_isSome {α : Type} {a : List α} {i : Int} (h0 : 0 ≤ i) (h1 : i < a.length) :
    ∃ x, jsIndex a i = some x := by
  have hlt : i.toNat < a.length := by omega
  refine ⟨a.get ⟨i.toNat, hlt⟩, ?_⟩
  unfold jsIndex
  rw [if_neg (not_lt.mpr h0)]
  exact List.get?_eq_get hlt

theorem mem_of_jsIndex {α : Type} {a : List α} {i : Int} {x : α} (h : jsIndex a i = some x) :
    x ∈ a := by
  have h3 := (jsIndex_eq_some h).2.2
  exact List.get?_mem h3

/-- What `findClosestLevel` returns when the current level is an entry of the level list:
the current level when no level is strictly closer to `ratio`, and else the first
of the closest levels. -/
theorem findClosestLevel_spec (s : Source) (layers : List FixedLayer) (cur : FixedLayer)
    (ratio : ℚ) (hl : s.m_layers = some layers)
    (hc : jsIndex layers s.m_currentLayer.ix = some cur) :
    (findClosestLevel s ratio = .ok s.m_currentLayer.ix ∧
        ∀ l ∈ layers, |ratio - cur.ratio| ≤ |ratio - l.ratio|) ∨
    (∃ (i : Nat) (l : FixedLayer), layers.get? i = some l ∧
        findClosestLevel s ratio = .ok (i : Int) ∧
        |ratio - l.ratio| < |ratio - cur.ratio| ∧
        (∀ (j : Nat) (l' : FixedLayer), j < i → layers.get? j = some l' →
          |ratio - l.ratio| < |ratio - l'.ratio|) ∧
        ∀ l' ∈ layers, |ratio - l.ratio| ≤ |ratio - l'.ratio|) := by
  obtain ⟨h0, h1, _⟩ := jsIndex_eq_some hc
  rcases closestScan_spec ratio layers 0 (s.m_currentLayer.ix, |ratio - cur.ratio|) with
    ⟨heq, hall⟩ | ⟨i, l, hi, heq, hlt, hfirst, hall⟩
  · left
    refine ⟨?_, hall⟩
    simp only [findClosestLevel, hl, hc, heq]
    rw [if_neg]
    intro hbad
    rcases hbad with hbad | hbad
    · exact absurd hbad (not_lt.mpr h0)
    · exact absurd h1 (not_lt.mpr hbad)
  · right
    refine ⟨i, l, hi, ?_, hlt, hfirst, hall⟩
    have hilt : i < layers.length := (List.get?_eq_some.mp hi).1
    simp only [findClosestLevel, hl, hc, heq, Nat.zero_add]
    rw [if_neg]
    intro hbad
    rcases hbad with hbad | hbad
    · exact absurd hbad (by simp)
    · have : ((layers.length : Nat) : Int) ≤ (i : Int) := hbad
      omega

/-- On a source whose current level is a level of the list, `findClosestLevel` returns an
index of the list at which the distance to `ratio` is least. -/
theorem findClosestLevel_minimizes_aux (s : Source) (layers : List FixedLayer) (r : ℚ)
    (hl : s.m_layers = some layers)
    (h0 : 0 ≤ s.m_currentLayer.ix) (h1 : s.m_currentLayer.ix < layers.length) :
    ∃ (i : Int) (li : FixedLayer), findClosestLevel s r = .ok i ∧ jsIndex layers i = some li ∧
      ∀ l ∈ layers, |r - li.ratio| ≤ |r - l.ratio| := by
  obtain ⟨cur, hc⟩ := jsIndex_isSome h0 h1
  rcases findClosestLevel_spec s layers cur r hl hc with
    ⟨hres, hall⟩ | ⟨i, l, hi, hres, _, _, hall⟩
  · exact ⟨s.m_currentLayer.ix, cur, hres, hc, hall⟩
  · exact ⟨(i : Int), l, hres, by rw [jsIndex_natCast]; exact hi, hall⟩

/-- What `setRatio` does once `findClosestLevel` has returned a level of the list. -/
theorem setRatio_of_findClosestLevel (s : Source) (layers : List FixedLayer) (r : ℚ)
    (i : Int) (l : FixedLayer) (hr : s.m_ready = true) (hl : s.m_layers = some layers)
    (hf : findClosestLevel s r = .ok i) (hi : jsIndex layers i = some l) :
    setRatio s (some r) = .ok (r, { s with m_currentLayer :=
      { ix := i, ratio := r, adjust := r / l.ratio, w := jsRound (l.w * (r / l.ratio)),
        h := jsRound (l.h * (r / l.ratio)), nCols := l.nCols, nRows := l.nRows } }) := by
  simp [setRatio, checkReady, hr, hf, hl, hi]

/-- The state of `twoLevelSource`: ready, with the last level, index 1, current. -/
theorem twoLevelSource_eq :
    twoLevelSource =
      { ext := .tzi "http://host/img" (some "jpeg"), m_ready := true,
        m_name := some "img", m_layers := some twoLevelLayers, m_width := some 1000,
        m_height := some 800, m_tileWidth := some 256, m_tileHeight := some 256,
        m_currentLayer := { ix := 1, ratio := 1 / 2, adjust := 1, w := 500, h := 400,
                            nRows := 2, nCols := 2 },
        fired := [Notice.ready], pending := 0 } := by
  simp [twoLevelSource, run, step, configure, configureSuccess, Source.init, setLevel,
    checkReady, twoLevelJson, twoLevelLayers, jsIndex, fireReady, Ext.processJSON]

/-- The state of `pyramidSource`: ready, with the last level, index 2, current. -/
theorem pyramidSource_eq :
    pyramidSource =
      { ext := .tzi "http://host/img" (some "jpeg"), m_ready := true,
        m_name := some "img", m_layers := some pyramidLayers, m_width := some 1000,
        m_height := some 800, m_tileWidth := some 256, m_tileHeight := some 256,
        m_currentLayer := { ix := 2, ratio := 1 / 4, adjust := 1, w := 250, h := 200,
                            nRows := 1, nCols := 1 },
        fired := [Notice.ready], pending := 0 } := by
  simp [pyramidSource, run, step, configure, configureSuccess, Source.init, setLevel,
    checkReady, pyramidJson, pyramidLayers, jsIndex, fireReady, Ext.processJSON]

/-- C1. When the current level index is an index of the (hence non-empty) level list,
`findClosestLevel(r)` returns an index `i` of the list with
`|r - levels[i].ratio| ≤ |r - levels[j].ratio|` for every index `j`. -/
theorem findClosestLevel_minimizes (s : Source) (layers : List FixedLayer) (r : ℚ)
    (hl : s.m_layers = some layers)
    (h0 : 0 ≤ s.m_currentLayer.ix) (h1 : s.m_currentLayer.ix < layers.length) :
    ∃ (i : Int) (li : FixedLayer), findClosestLevel s r = .ok i ∧ jsIndex layers i = some li ∧
      ∀ (j : Int) (lj : FixedLayer), jsIndex layers j = some lj →
        |r - li.ratio| ≤ |r - lj.ratio| := by
  obtain ⟨i, li, hf, hi, hall⟩ := findClosestLevel_minimizes_aux s layers r hl h0 h1
  exact ⟨i, li, hf, hi, fun j lj hj => hall lj (mem_of_jsIndex hj)⟩

/-- C1, on the pyramid with ratios `1.0, 0.5, 0.25`: for `r = 0.05` the level returned is
index 2. -/
theorem findClosestLevel_minimizes_witness :
    findClosestLevel pyramidSource (1 / 20) = .ok 2 ∧
    ∃ (i : Int) (li : FixedLayer), findClosestLevel pyramidSource (1 / 20) = .ok i ∧
      jsIndex pyramidLayers i = some li ∧
      ∀ (j : Int) (lj : FixedLayer), jsIndex pyramidLayers j = some lj →
        |(1 / 20 : ℚ) - li.ratio| ≤ |(1 / 20 : ℚ) - lj.ratio| :=
  ⟨by
    have hc : jsIndex pyramidLayers 2
        = some { ratio := 1 / 4, w := 250, h := 200, nRows := 1, nCols := 1 } := rfl
    rw [pyramidSource_eq]
    simp only [findClosestLevel, hc]
    norm_num [closestScan, pyramidLayers, abs_div, abs_neg],
   findClosestLevel_minimizes pyramidSource pyramidLayers (1 / 20) (by rw [pyramidSource_eq])
    (by rw [pyramidSource_eq]; decide) (by rw [pyramidSource_eq]; decide)⟩

/-- C2, as stated, fails: right after configuration with the levels `1.0` and `0.5` the
current level is index 1; the ratio `0.75` is equally close to both levels, index 0 is
the lowest of the closest levels, and `findClosestLevel` returns index 1. -/
theorem findClosestLevel_tie_not_lowest :
    twoLevelSource.m_ready = true ∧ twoLevelSource.m_currentLayer.ix = 1 ∧
    (∃ l0 : FixedLayer, jsIndex twoLevelLayers 0 = some l0 ∧
      ∀ (j : Int) (lj : FixedLayer), jsIndex twoLevelLayers j = some lj →
        |(3 / 4 : ℚ) - l0.ratio| ≤ |(3 / 4 : ℚ) - lj.ratio|) ∧
    findClosestLevel twoLevelSource (3 / 4) = .ok 1 ∧
    ∃ s' : Source, setRatio twoLevelSource (some (3 / 4)) = .ok (3 / 4, s') ∧
      s'.m_currentLayer.ix = 1 := by
  have hs := twoLevelSource_eq
  have hf : findClosestLevel twoLevelSource (3 / 4) = .ok 1 := by
    rw [hs]
    norm_num [findClosestLevel, closestScan, twoLevelLayers, jsIndex, abs_div, abs_neg]
  refine ⟨by rw [hs], by rw [hs], ?_, hf, ?_⟩
  · refine ⟨{ ratio := 1, w := 1000, h := 800, nRows := 4, nCols := 4 }, ?_, ?_⟩
    · simp [twoLevelLayers, jsIndex]
    · intro j lj hj
      have hmem := mem_of_jsIndex hj
      simp only [twoLevelLayers, List.mem_cons, List.mem_singleton,
        List.not_mem_nil, or_false] at hmem
      rcases hmem with rfl | rfl <;> norm_num [abs_div, abs_neg]
  · have hi : jsIndex twoLevelLayers 1
        = some { ratio := 1 / 2, w := 500, h := 400, nRows := 2, nCols := 2 } := by
      simp [twoLevelLayers, jsIndex]
    exact ⟨_, setRatio_of_findClosestLevel twoLevelSource twoLevelLayers (3 / 4) 1 _
      (by rw [hs]) (by rw [hs]) hf hi, rfl⟩

/-- C2, amended. `findClosestLevel(r)` returns one of the levels closest to `r`: the level
that was current before the call when that level is one of the closest, and the lowest
index among the closest levels otherwise; `setRatio(r)` makes that level current. -/
theorem findClosestLevel_tie_break (s : Source) (layers : List FixedLayer) (r : ℚ)
    (hr : s.m_ready = true) (hl : s.m_layers = some layers)
    (h0 : 0 ≤ s.m_currentLayer.ix) (h1 : s.m_currentLayer.ix < layers.length) :
    ∃ (i : Int) (li cur : FixedLayer) (s' : Source),
      findClosestLevel s r = .ok i ∧ jsIndex layers i = some li ∧
      jsIndex layers s.m_currentLayer.ix = some cur ∧
      (∀ l ∈ layers, |r - li.ratio| ≤ |r - l.ratio|) ∧
      ((∀ l ∈ layers, |r - cur.ratio| ≤ |r - l.ratio|) → i = s.m_currentLayer.ix) ∧
      (¬ (∀ l ∈ layers, |r - cur.ratio| ≤ |r - l.ratio|) →
        ∀ (j : Int) (lj : FixedLayer), jsIndex layers j = some lj →
          (∀ l ∈ layers, |r - lj.ratio| ≤ |r - l.ratio|) → i ≤ j) ∧
      setRatio s (some r) = .ok (r, s') ∧ s'.m_currentLayer.ix = i := by
  obtain ⟨cur, hc⟩ := jsIndex_isSome h0 h1
  rcases findClosestLevel_spec s layers cur r hl hc with
    ⟨hres, hall⟩ | ⟨i, l, hi, hres, hlt, hfirst, hall⟩
  · refine ⟨s.m_currentLayer.ix, cur, cur, _, hres, hc, hc, hall, fun _ => rfl,
      fun hnot => absurd hall hnot,
      setRatio_of_findClosestLevel s layers r _ cur hr hl hres hc, rfl⟩
  · have hi' : jsIndex layers (i : Int) = some l := by rw [jsIndex_natCast]; exact hi
    refine ⟨(i : Int), l, cur, _, hres, hi', hc, hall, ?_, ?_,
      setRatio_of_findClosestLevel s layers r _ l hr hl hres hi', rfl⟩
    · intro hcur
      exact absurd (hcur l (mem_of_jsIndex hi')) (not_le.mpr hlt)
    · intro _ j lj hj hmin
      obtain ⟨hj0, _, hjget⟩ := jsIndex_eq_some hj
      by_contra hlt'
      have hjlt : j.toNat < i := by omega
      have hstrict := hfirst j.toNat lj hjlt hjget
      exact absurd (hmin l (mem_of_jsIndex hi')) (not_le.mpr hstrict)

/-- C2, amended, on the two-level source, current level 1, and `r = 0.75`. -/
theorem findClosestLevel_tie_break_witness :
    ∃ (i : Int) (li cur : FixedLayer) (s' : Source),
      findClosestLevel twoLevelSource (3 / 4) = .ok i ∧ jsIndex twoLevelLayers i = some li ∧
      jsIndex twoLevelLayers twoLevelSource.m_currentLayer.ix = some cur ∧
      (∀ l ∈ twoLevelLayers, |(3 / 4 : ℚ) - li.ratio| ≤ |(3 / 4 : ℚ) - l.ratio|) ∧
      ((∀ l ∈ twoLevelLayers, |(3 / 4 : ℚ) - cur.ratio| ≤ |(3 / 4 : ℚ) - l.ratio|) →
        i = twoLevelSource.m_currentLayer.ix) ∧
      (¬ (∀ l ∈ twoLevelLayers, |(3 / 4 : ℚ) - cur.ratio| ≤ |(3 / 4 : ℚ) - l.ratio|) →
        ∀ (j : Int) (lj : FixedLayer), jsIndex twoLevelLayers j = some lj →
          (∀ l ∈ twoLevelLayers, |(3 / 4 : ℚ) - lj.ratio| ≤ |(3 / 4 : ℚ) - l.ratio|) → i ≤ j) ∧
      setRatio twoLevelSource (some (3 / 4)) = .ok (3 / 4, s') ∧ s'.m_currentLayer.ix = i :=
  findClosestLevel_tie_break twoLevelSource twoLevelLayers (3 / 4)
    (by rw [twoLevelSource_eq]) (by rw [twoLevelSource_eq])
    (by rw [twoLevelSource_eq]; decide) (by rw [twoLevelSource_eq]; decide)

/-- C3. On a ready source whose current level is a level of the list, `setRatio(r)` returns
exactly `r`, records `r` as the current ratio, makes `findClosestLevel(r)` the current
level index and sets `adjust = r / levels[that index].ratio`; nothing but
`m_currentLayer` is written. -/
theorem setRatio_returns_input (s : Source) (layers : List FixedLayer) (r : ℚ)
    (hr : s.m_ready = true) (hl : s.m_layers = some layers)
    (h0 : 0 ≤ s.m_currentLayer.ix) (h1 : s.m_currentLayer.ix < layers.length) :
    ∃ (i : Int) (li : FixedLayer) (s' : Source),
      findClosestLevel s r = .ok i ∧ jsIndex layers i = some li ∧
      setRatio s (some r) = .ok (r, s') ∧
      s'.m_currentLayer.ratio = r ∧ getRatio s' = .ok r ∧
      s'.m_currentLayer.ix = i ∧ getZoomLevel s' = .ok i ∧
      s'.m_currentLayer.adjust = r / li.ratio ∧
      s' = { s with m_currentLayer := s'.m_currentLayer } := by
  obtain ⟨i, li, hf, hi, _⟩ := findClosestLevel_minimizes_aux s layers r hl h0 h1
  refine ⟨i, li, _, hf, hi, setRatio_of_findClosestLevel s layers r i li hr hl hf hi,
    rfl, ?_, rfl, ?_, rfl, rfl⟩
  · simp [getRatio, checkReady, hr]
  · simp [getZoomLevel, checkReady, hr]

/-- C3 on the pyramid with ratios `1.0, 0.5, 0.25`: `setRatio(0.05)` returns `0.05`. -/
theorem setRatio_returns_input_witness :
    ∃ (i : Int) (li : FixedLayer) (s' : Source),
      findClosestLevel pyramidSource (1 / 20) = .ok i ∧ jsIndex pyramidLayers i = some li ∧
      setRatio pyramidSource (some (1 / 20)) = .ok (1 / 20, s') ∧
      s'.m_currentLayer.ratio = 1 / 20 ∧ getRatio s' = .ok (1 / 20) ∧
      s'.m_currentLayer.ix = i ∧ getZoomLevel s' = .ok i ∧
      s'.m_currentLayer.adjust = 1 / 20 / li.ratio ∧
      s' = { pyramidSource with m_currentLayer := s'.m_currentLayer } :=
  setRatio_returns_input pyramidSource pyramidLayers (1 / 20)
    (by rw [pyramidSource_eq]) (by rw [pyramidSource_eq])
    (by rw [pyramidSource_eq]; decide) (by rw [pyramidSource_eq]; decide)

/-! ## `setLevel`, `getTileUrl` -/

/-- With a level of the list, `setLevel` returns it, makes it current and sets
`adjust = 1`. -/
theorem setLevel_in_range (s : Source) (layers : List FixedLayer) (level : Int)
    (layer : FixedLayer) (hr : s.m_ready = true) (hl : s.m_layers = some layers)
    (hi : jsIndex layers level = some layer) :
    setLevel s level = .ok (level, { s with m_currentLayer :=
      { ix := level, ratio := layer.ratio, adjust := 1, w := layer.w, h := layer.h,
        nCols := layer.nCols, nRows := layer.nRows } }) := by
  obtain ⟨h0, h1, _⟩ := jsIndex_eq_some hi
  have hnot : ¬ (level < 0 ∨ level ≥ (layers.length : Int)) := by
    intro h
    rcases h with h | h
    · exact absurd h (not_lt.mpr h0)
    · exact absurd h1 (not_lt.mpr h)
  simp only [setLevel, checkReady, hr, hl, if_true]
  rw [if_neg hnot]
  simp only [hi]

/-- With a level outside the list, `setLevel` on a ready source throws the reference
error of `mLayers` and writes nothing. -/
theorem setLevel_out_of_range (s : Source) (layers : List FixedLayer) (level : Int)
    (hr : s.m_ready = true) (hl : s.m_layers = some layers)
    (h : level < 0 ∨ (layers.length : Int) ≤ level) :
    setLevel s level = .error .referenceError := by
  simp only [setLevel, checkReady, hr, hl, if_true]
  rw [if_pos h]
  rfl

/-- C4, failing inputs: on the ready three-level source `setLevel(-1)` and `setLevel(3)`
throw a reference error, where the claim has them return the clamped levels 0 and 2. -/
theorem setLevel_out_of_range_throws :
    isReady pyramidSource = true ∧
    setLevel pyramidSource (-1) = .error .referenceError ∧
    setLevel pyramidSource 3 = .error .referenceError :=
  ⟨by rw [pyramidSource_eq]; rfl,
    setLevel_out_of_range pyramidSource pyramidLayers (-1) (by rw [pyramidSource_eq])
      (by rw [pyramidSource_eq]) (by decide),
    setLevel_out_of_range pyramidSource pyramidLayers 3 (by rw [pyramidSource_eq])
      (by rw [pyramidSource_eq]) (by decide)⟩

/-- On a ready source `getTileUrl(r, c, z)` returns a URL exactly for a level `z` of the
list and a tile `(r, c)` of that level's grid, and the URL is the extension's. -/
theorem getTileUrl_ok_iff (s : Source) (layers : List FixedLayer) (r c z : Int) (u : String)
    (hr : s.m_ready = true) (hl : s.m_layers = some layers) :
    getTileUrl s r c (some z) = .ok u ↔
      (∃ layer : FixedLayer, jsIndex layers z = some layer ∧
        0 ≤ r ∧ r < layer.nRows ∧ 0 ≤ c ∧ c < layer.nCols) ∧ u = s.ext.getTileUrl r c z := by
  simp only [getTileUrl, checkReady, hr, hl, if_true, Option.getD_some, gtFunctionObject,
    Option.some_bind, Bool.false_eq_true, or_false]
  by_cases hz : z < 0
  · rw [if_pos hz]
    constructor
    · intro h; exact absurd h (by simp)
    · rintro ⟨⟨layer, hi, _⟩, _⟩
      exact absurd hz (not_lt.mpr (jsIndex_eq_some hi).1)
  · rw [if_neg hz]
    cases hi : jsIndex layers z with
    | none => simp
    | some layer =>
      by_cases hrc : r ≥ layer.nRows ∨ c ≥ layer.nCols ∨ r < 0 ∨ c < 0
      · simp only [if_pos hrc]
        constructor
        · intro h; exact absurd h (by simp)
        · rintro ⟨⟨layer', hi', h1, h2, h3, h4⟩, _⟩
          have : layer' = layer := by simpa using hi'.symm
          subst this
          omega
      · simp only [if_neg hrc, Except.ok.injEq, Option.some.injEq]
        constructor
        · intro h
          exact ⟨⟨layer, rfl, by omega, by omega, by omega, by omega⟩, h.symm⟩
        · rintro ⟨_, h⟩; exact h.symm

/-- On a ready source `getTileUrl` throws the zoom-level error for a negative level and
the tile error for a tile outside the grid of a level of the list. -/
theorem getTileUrl_checked_errors (s : Source) (layers : List FixedLayer) (r c z : Int)
    (hr : s.m_ready = true) (hl : s.m_layers = some layers) :
    (z < 0 → getTileUrl s r c (some z) = .error .zoomLevel) ∧
    (∀ layer : FixedLayer, jsIndex layers z = some layer →
      (r < 0 ∨ layer.nRows ≤ r ∨ c < 0 ∨ layer.nCols ≤ c) →
      getTileUrl s r c (some z) = .error .tileRange) := by
  simp only [getTileUrl, checkReady, hr, hl, if_true, Option.getD_some, gtFunctionObject,
    Option.some_bind, Bool.false_eq_true, or_false]
  refine ⟨fun hz => by rw [if_pos hz], ?_⟩
  intro layer hi hrc
  rw [if_neg (not_lt.mpr (jsIndex_eq_some hi).1)]
  simp only [hi]
  rw [if_pos]
  omega

/-- A level at or beyond the end of the list passes the level test of `getTileUrl`, and the
read of `m_layers[z].nRows` throws a type error. -/
theorem getTileUrl_level_too_large (s : Source) (layers : List FixedLayer) (r c z : Int)
    (hr : s.m_ready = true) (hl : s.m_layers = some layers) (hz : (layers.length : Int) ≤ z) :
    getTileUrl s r c (some z) = .error .typeError := by
  have hnone : jsIndex layers z = none := by
    cases hi : jsIndex layers z with
    | none => rfl
    | some layer => exact absurd (jsIndex_eq_some hi).2.1 (not_lt.mpr hz)
  have h0 : ¬ z < 0 := by
    have : (0 : Int) ≤ (layers.length : Int) := Int.natCast_nonneg _
    omega
  simp only [getTileUrl, checkReady, hr, hl, if_true, Option.getD_some, gtFunctionObject,
    Option.some_bind, Bool.false_eq_true, or_false, hnone]
  rw [if_neg h0]

/-- C5, failing input: the ready three-level source has the levels 0, 1, 2;
`getTileUrl(0, 0, 3)` throws a type error, not the error of a zoom level that does not
exist, which only a negative level gets. -/
theorem getTileUrl_bad_level_type_error :
    isReady pyramidSource = true ∧
    getMaxZoomLevel pyramidSource = .ok 2 ∧
    getTileUrl pyramidSource 0 0 (some 3) = .error .typeError ∧
    getTileUrl pyramidSource 0 0 (some (-1)) = .error .zoomLevel :=
  ⟨by rw [pyramidSource_eq]; rfl, by rw [pyramidSource_eq]; rfl,
    getTileUrl_level_too_large pyramidSource pyramidLayers 0 0 3 (by rw [pyramidSource_eq])
      (by rw [pyramidSource_eq]) (by decide),
    (getTileUrl_checked_errors pyramidSource pyramidLayers 0 0 (-1) (by rw [pyramidSource_eq])
      (by rw [pyramidSource_eq])).1 (by decide)⟩

/-! ## Configuration -/

/-- The `success` callback on a descriptor with a non-empty level list: every member is
assigned, the source is ready, the last level is current, the ready event is fired and
nothing is thrown. -/
theorem configureSuccess_parsed (s : Source) (json : Json) (layers : List FixedLayer)
    (last : FixedLayer) (hl : json.layers = some layers)
    (hlast : jsIndex layers ((layers.length : Int) - 1) = some last) :
    configureSuccess s (.parsed json) =
      (fireReady { s with
        m_name := json.name, m_width := json.width, m_height := json.height,
        m_tileWidth := json.tw, m_tileHeight := json.th, m_layers := some layers,
        m_thumbURL := (json.thumb.elim s.m_thumbURL fun t => t.url),
        m_thumbWidth := (json.thumb.elim s.m_thumbWidth fun t => t.w),
        m_thumbHeight := (json.thumb.elim s.m_thumbHeight fun t => t.h),
        ext := s.ext.processJSON json, m_ready := true,
        m_currentLayer :=
          { ix := (layers.length : Int) - 1, ratio := last.ratio, adjust := 1, w := last.w,
            h := last.h, nCols := last.nCols, nRows := last.nRows } }, none) := by
  obtain ⟨name, width, height, tw, th, jl, thumb, ext⟩ := json
  simp only at hl
  subst hl
  cases thumb with
  | none =>
    simp only [configureSuccess, Option.elim]
    rw [setLevel_in_range _ layers _ last rfl rfl hlast]
  | some t =>
    simp only [configureSuccess, Option.elim]
    rw [setLevel_in_range _ layers _ last rfl rfl hlast]

theorem fireReady_fields (s : Source) :
    (fireReady s).m_ready = s.m_ready ∧ (fireReady s).m_layers = s.m_layers ∧
    (fireReady s).m_currentLayer = s.m_currentLayer ∧ (fireReady s).pending = s.pending ∧
    (fireReady s).ext = s.ext := by
  unfold fireReady
  split <;> simp

/-- The last entry of a non-empty list is at index `length - 1`. -/
theorem jsIndex_last {α : Type} (a : List α) (h : a ≠ []) :
    ∃ x, jsIndex a ((a.length : Int) - 1) = some x := by
  have hpos : 0 < a.length := List.length_pos.mpr h
  exact jsIndex_isSome (by omega) (by omega)

/-- C6, failing input: a new source, `configure()`, and an answer that does not parse.
The callback fires the failure event and then goes on: it sets `m_ready`, overwrites
the name, the dimensions, the tile size and the level list with `undefined`, and
throws a type error; afterwards `isReady()` is true and `getAbsWidth()` returns
`undefined`. -/
theorem configureSuccess_unparsable_applies :
    (Source.init (.tzi "http://host/img" none)).m_ready = false ∧
    unparsedSource.fired = [Notice.configFailed "Failed to parse JSON object"] ∧
    isReady unparsedSource = true ∧
    unparsedSource.m_name = none ∧ unparsedSource.m_width = none ∧
    unparsedSource.m_height = none ∧ unparsedSource.m_tileWidth = none ∧
    unparsedSource.m_tileHeight = none ∧ unparsedSource.m_layers = none ∧
    (configureSuccess (configure (Source.init (.tzi "http://host/img" none)))
      (.unparsable "<html>")).2 = some Err.typeError ∧
    getAbsWidth unparsedSource = .ok none := by
  simp [unparsedSource, run, step, configure, configureSuccess, Source.init, Json.ofText,
    fireConfigFailed, isReady, getAbsWidth, checkReady, Ext.processJSON]

/-- C7. While `isReady()` is false, `setRatio`, `setLevel`, `getTileUrl` and the eleven
accessors all throw the not-ready error; a throw has no successor state, so the
source is as it was. -/
theorem notReady_fails (s : Source) (ratio : Option ℚ) (level r c : Int) (z : Option Int)
    (h : isReady s = false) :
    setRatio s ratio = .error .notReady ∧ setLevel s level = .error .notReady ∧
    getTileUrl s r c z = .error .notReady ∧
    getAbsWidth s = .error .notReady ∧ getAbsHeight s = .error .notReady ∧
    getWidth s = .error .notReady ∧ getHeight s = .error .notReady ∧
    getTileWidth s = .error .notReady ∧ getTileHeight s = .error .notReady ∧
    getNumberOfRows s = .error .notReady ∧ getNumberOfCols s = .error .notReady ∧
    getRatio s = .error .notReady ∧ getZoomLevel s = .error .notReady ∧
    getMaxZoomLevel s = .error .notReady := by
  have h' : s.m_ready = false := h
  simp [setRatio, setLevel, getTileUrl, getAbsWidth, getAbsHeight, getWidth, getHeight,
    getTileWidth, getTileHeight, getNumberOfRows, getNumberOfCols, getRatio, getZoomLevel,
    getMaxZoomLevel, checkReady, h']

/-- C7 on a new source on which `configure()` has been called and no answer has arrived. -/
theorem notReady_fails_witness :
    isReady (configure (Source.init (.api "http://host/api" "img7"))) = false ∧
    setRatio (configure (Source.init (.api "http://host/api" "img7"))) (some 1)
      = .error .notReady ∧
    getAbsWidth (configure (Source.init (.api "http://host/api" "img7"))) = .error .notReady :=
  have h := notReady_fails (configure (Source.init (.api "http://host/api" "img7")))
    (some 1) 0 0 0 none rfl
  ⟨rfl, h.1, h.2.2.2.1⟩

theorem configure_not_ready (s : Source) (h : s.m_ready = false) :
    (configure s).m_ready = false := by
  simp [configure, h]

theorem step_not_ready (s : Source) (e : Event) (h : s.m_ready = false)
    (he : e = .configure ∨ ∃ m, e = .fetchFailure m) : (step s e).m_ready = false := by
  rcases he with rfl | ⟨m, rfl⟩
  · exact configure_not_ready s h
  · simp only [step]
    split
    · exact h
    · rfl

theorem run_not_ready (events : List Event) :
    ∀ s : Source, s.m_ready = false →
      (∀ e ∈ events, e = .configure ∨ ∃ m, e = .fetchFailure m) →
      (run s events).m_ready = false := by
  induction events with
  | nil => intro s h _; exact h
  | cons e rest ih =>
    intro s h hev
    have h1 := step_not_ready s e h (hev e (List.mem_cons_self e rest))
    exact ih (step s e) h1 (fun e' he' => hev e' (List.mem_cons_of_mem e he'))

theorem step_fetchFailure_not_ready (s : Source) (msg : String) (hp : 0 < s.pending) :
    (step s (.fetchFailure msg)).m_ready = false := by
  simp only [step]
  rw [if_neg (by omega)]
  rfl

/-- C8, as stated, fails: after `configure()` and a failed fetch the source is not ready
and has fired the failure event; a second `configure()` whose fetch succeeds makes
`isReady()` true on the same instance. -/
theorem failed_fetch_not_terminal :
    isReady (run (Source.init (.tzi "http://host/img" none))
      [.configure, .fetchFailure "Not Found"]) = false ∧
    (run (Source.init (.tzi "http://host/img" none))
      [.configure, .fetchFailure "Not Found"]).fired.length = 1 ∧
    isReady retriedSource = true := by
  simp [retriedSource, run, step, configure, configureSuccess, configureFailure, Source.init,
    fireConfigFailed, isReady, setLevel, checkReady, twoLevelJson, twoLevelLayers, jsIndex,
    fireReady, Ext.processJSON]

/-- C8, amended. Once a descriptor fetch for a source has failed, `isReady()` is false and
stays false through every later sequence of `configure()` calls and failed fetches;
the failure is not terminal: a later `configure()` whose fetch brings a descriptor
with at least one level makes `isReady()` true. -/
theorem failed_fetch_not_ready_until_success (s : Source) (msg : String) (events : List Event)
    (hp : 0 < s.pending)
    (hev : ∀ e ∈ events, e = .configure ∨ ∃ m, e = .fetchFailure m) :
    isReady (step s (.fetchFailure msg)) = false ∧
    isReady (run (step s (.fetchFailure msg)) events) = false ∧
    ∀ (json : Json) (layers : List FixedLayer), json.layers = some layers → layers ≠ [] →
      isReady (run (run (step s (.fetchFailure msg)) events)
        [.configure, .fetchSuccess (.parsed json)]) = true := by
  have h1 := step_fetchFailure_not_ready s msg hp
  have h2 := run_not_ready events _ h1 hev
  refine ⟨h1, h2, ?_⟩
  intro json layers hl hne
  obtain ⟨last, hlast⟩ := jsIndex_last layers hne
  generalize run (step s (.fetchFailure msg)) events = t at h2
  simp only [run, List.foldl, step, configure, h2]
  simp only [Bool.false_eq_true, if_false, Nat.add_one_ne_zero]
  rw [configureSuccess_parsed _ json layers last hl hlast]
  simp only [isReady]
  rw [(fireReady_fields _).1]

/-- C8, amended, on a new source with one request in flight. -/
theorem failed_fetch_not_ready_until_success_witness :
    isReady (step (configure (Source.init (.tzi "http://host/img" none)))
      (.fetchFailure "Not Found")) = false ∧
    isReady (run (step (configure (Source.init (.tzi "http://host/img" none)))
      (.fetchFailure "Not Found")) [.configure, .fetchFailure "Not Found", .configure]) = false ∧
    ∀ (json : Json) (layers : List FixedLayer), json.layers = some layers → layers ≠ [] →
      isReady (run (run (step (configure (Source.init (.tzi "http://host/img" none)))
        (.fetchFailure "Not Found")) [.configure, .fetchFailure "Not Found", .configure])
        [.configure, .fetchSuccess (.parsed json)]) = true :=
  failed_fetch_not_ready_until_success (configure (Source.init (.tzi "http://host/img" none)))
    "Not Found" [.configure, .fetchFailure "Not Found", .configure] (by decide)
    (by
      intro e he
      simp only [List.mem_cons, List.mem_singleton, List.not_mem_nil, or_false] at he
      rcases he with rfl | rfl | rfl
      · exact Or.inl rfl
      · exact Or.inr ⟨_, rfl⟩
      · exact Or.inl rfl)

/-- C9. The `success` callback on a descriptor with `n ≥ 1` levels ends without a throw and
leaves the source ready, with the levels of the descriptor, current level index
`n - 1`, current ratio `levels[n-1].ratio`, `adjust = 1` and the width, height, rows and
columns of `levels[n-1]`. -/
theorem configureSuccess_last_level (s : Source) (json : Json) (layers : List FixedLayer)
    (hl : json.layers = some layers) (hn : 1 ≤ layers.length) :
    ∃ (last : FixedLayer) (s' : Source),
      jsIndex layers ((layers.length : Int) - 1) = some last ∧
      configureSuccess s (.parsed json) = (s', none) ∧
      isReady s' = true ∧ s'.m_layers = some layers ∧
      getZoomLevel s' = .ok ((layers.length : Int) - 1) ∧
      getRatio s' = .ok last.ratio ∧ s'.m_currentLayer.adjust = 1 ∧
      getWidth s' = .ok last.w ∧ getHeight s' = .ok last.h ∧
      getNumberOfRows s' = .ok last.nRows ∧ getNumberOfCols s' = .ok last.nCols := by
  have hne : layers ≠ [] := by
    intro h
    rw [h] at hn
    exact absurd hn (by decide)
  obtain ⟨last, hlast⟩ := jsIndex_last layers hne
  refine ⟨last, _, hlast, configureSuccess_parsed s json layers last hl hlast, ?_⟩
  obtain ⟨hr, hlay, hcur, _, _⟩ := fireReady_fields ({ s with
        m_name := json.name, m_width := json.width, m_height := json.height,
        m_tileWidth := json.tw, m_tileHeight := json.th, m_layers := some layers,
        m_thumbURL := (json.thumb.elim s.m_thumbURL fun t => t.url),
        m_thumbWidth := (json.thumb.elim s.m_thumbWidth fun t => t.w),
        m_thumbHeight := (json.thumb.elim s.m_thumbHeight fun t => t.h),
        ext := s.ext.processJSON json, m_ready := true,
        m_currentLayer :=
          { ix := (layers.length : Int) - 1, ratio := last.ratio, adjust := 1, w := last.w,
            h := last.h, nCols := last.nCols, nRows := last.nRows } })
  simp only [isReady, getZoomLevel, getRatio, getWidth, getHeight, getNumberOfRows,
    getNumberOfCols, checkReady, hr, hlay, hcur, if_true, and_self]

/-- C9 on the descriptor with the levels `1.0` and `0.5`, arriving at a new source. -/
theorem configureSuccess_last_level_witness :
    ∃ (last : FixedLayer) (s' : Source),
      jsIndex twoLevelLayers ((twoLevelLayers.length : Int) - 1) = some last ∧
      configureSuccess (configure (Source.init (.tzi "http://host/img" none)))
        (.parsed twoLevelJson) = (s', none) ∧
      isReady s' = true ∧ s'.m_layers = some twoLevelLayers ∧
      getZoomLevel s' = .ok ((twoLevelLayers.length : Int) - 1) ∧
      getRatio s' = .ok last.ratio ∧ s'.m_currentLayer.adjust = 1 ∧
      getWidth s' = .ok last.w ∧ getHeight s' = .ok last.h ∧
      getNumberOfRows s' = .ok last.nRows ∧ getNumberOfCols s' = .ok last.nCols :=
  configureSuccess_last_level (configure (Source.init (.tzi "http://host/img" none)))
    twoLevelJson twoLevelLayers rfl (by decide)

/-! ## Visible tiles -/

/-- What `calcVisible` computes from measurable regions: the start column is the
horizontal offset divided by the tile height `th`, the start row the vertical offset
divided by the tile width `tw`, both floored and not below 0; they are stored, with
`changed` set, when one of them differs from the stored start or `force` is set. -/
theorem calcVisible_start (region paneR : Region) (th tw : ℚ) (nRows nCols : Int)
    (va : VisibleArea) (force : Bool)
    (h : max 0 ⌊(region.left - paneR.left) / th⌋ ≠ va.cols.start ∨
         max 0 ⌊(region.top - paneR.top) / tw⌋ ≠ va.rows.start ∨ force = true) :
    (calcVisible (some region) (some paneR) th tw nRows nCols va force).changed = true ∧
    (calcVisible (some region) (some paneR) th tw nRows nCols va force).cols.start
      = max 0 ⌊(region.left - paneR.left) / th⌋ ∧
    (calcVisible (some region) (some paneR) th tw nRows nCols va force).rows.start
      = max 0 ⌊(region.top - paneR.top) / tw⌋ := by
  have hmax : ∀ x : Int, (if x < 0 then 0 else x) = max 0 x := by
    intro x
    split
    · rw [max_eq_left (by omega)]
    · rw [max_eq_right (by omega)]
  simp only [calcVisible, hmax]
  rw [if_pos (by
    rcases h with h | h | h
    · exact Or.inl (Or.inl h)
    · exact Or.inl (Or.inr h)
    · exact Or.inr h)]
  exact ⟨rfl, rfl, rfl⟩

/-- C10, failing input: tiles 256 wide and 128 high, the frame 300 pixels right of and 130
pixels below the pane's corner.  `calcVisible` stores start column 2 and start row 0;
the claim's `max(0, floor(300 / 256))` and `max(0, floor(130 / 128))` are 1 and 1. -/
theorem calcVisible_start_swapped :
    (calcVisible (some offsetFrame) (some widePane) 128 256 8 8 {} false).changed = true ∧
    (calcVisible (some offsetFrame) (some widePane) 128 256 8 8 {} false).cols.start = 2 ∧
    max 0 ⌊(offsetFrame.left - widePane.left) / (256 : ℚ)⌋ = 1 ∧
    (calcVisible (some offsetFrame) (some widePane) 128 256 8 8 {} false).rows.start = 0 ∧
    max 0 ⌊(offsetFrame.top - widePane.top) / (128 : ℚ)⌋ = 1 := by
  have f1 : ⌊(offsetFrame.left - widePane.left) / (128 : ℚ)⌋ = 2 := by
    rw [Int.floor_eq_iff]; norm_num [offsetFrame, widePane]
  have f2 : ⌊(offsetFrame.top - widePane.top) / (256 : ℚ)⌋ = 0 := by
    rw [Int.floor_eq_iff]; norm_num [offsetFrame, widePane]
  have f3 : ⌊(offsetFrame.left - widePane.left) / (256 : ℚ)⌋ = 1 := by
    rw [Int.floor_eq_iff]; norm_num [offsetFrame, widePane]
  have f4 : ⌊(offsetFrame.top - widePane.top) / (128 : ℚ)⌋ = 1 := by
    rw [Int.floor_eq_iff]; norm_num [offsetFrame, widePane]
  have h := calcVisible_start offsetFrame widePane 128 256 8 8 {} false
    (Or.inl (by rw [f1]; decide))
  rw [f1, f2] at h
  rw [f3, f4]
  exact ⟨h.1, h.2.1, by decide, h.2.2, by decide⟩

/-! ## Visible range: end of the range, unchanged range -/

/-- The clipping `if (last >= n) last = n - 1` is the minimum with `n - 1`. -/
theorem clip_eq_min (last n : Int) : (if last ≥ n then n - 1 else last) = min (n - 1) last := by
  split
  · rw [min_eq_left (by omega)]
  · rw [min_eq_right (by omega)]

/-- The start test of `calcVisible` written with `max`. -/
theorem clampStart_eq_max (x : Int) : (if x < 0 then 0 else x) = max 0 x := by
  split
  · rw [max_eq_left (by omega)]
  · rw [max_eq_right (by omega)]

/-- What `calcVisible` returns when it recomputes. -/
theorem calcVisible_recomputed (region paneR : Region) (th tw : ℚ) (nRows nCols : Int)
    (va : VisibleArea) (force : Bool)
    (h : max 0 ⌊(region.left - paneR.left) / th⌋ ≠ va.cols.start ∨
         max 0 ⌊(region.top - paneR.top) / tw⌋ ≠ va.rows.start ∨ force = true) :
    calcVisible (some region) (some paneR) th tw nRows nCols va force =
      { changed := true,
        rows := { start := max 0 ⌊(region.top - paneR.top) / tw⌋,
                  end_ := min (nRows - 1) (max 0 ⌊(region.top - paneR.top) / tw⌋ +
                    ⌈(region.bottom - region.top) / th⌉) },
        cols := { start := max 0 ⌊(region.left - paneR.left) / th⌋,
                  end_ := min (nCols - 1) (max 0 ⌊(region.left - paneR.left) / th⌋ +
                    ⌈(region.right - region.left) / tw⌉) } } := by
  simp only [calcVisible, clampStart_eq_max, clip_eq_min]
  rw [if_pos (by
    rcases h with h | h | h
    · exact Or.inl (Or.inl h)
    · exact Or.inl (Or.inr h)
    · exact Or.inr h)]

/-- What `calcVisible` returns when it does not recompute: the stored area with `changed`
cleared. -/
theorem calcVisible_kept (frame pane : Option Region) (th tw : ℚ) (nRows nCols : Int)
    (va : VisibleArea) (force : Bool)
    (h : frame = none ∨ pane = none ∨
      ∃ region paneR, frame = some region ∧ pane = some paneR ∧
        max 0 ⌊(region.left - paneR.left) / th⌋ = va.cols.start ∧
        max 0 ⌊(region.top - paneR.top) / tw⌋ = va.rows.start ∧ force = false) :
    calcVisible frame pane th tw nRows nCols va force = { va with changed := false } := by
  rcases h with rfl | rfl | ⟨region, paneR, rfl, rfl, hc, hr, hf⟩
  · cases pane <;> rfl
  · cases frame <;> rfl
  · simp only [calcVisible, clampStart_eq_max]
    rw [if_neg]
    rintro (⟨h | h⟩ | h)
    · exact h hc
    · exact h hr
    · rw [hf] at h
      exact absurd h (by decide)

/-- The visible area for the 500 x 400 frame at the corner of the 1000 x 800 pane with
256 x 256 tiles in a 4 x 4 grid: rows 0..2, columns 0..2. -/
theorem calcVisible_corner :
    calcVisible (some cornerFrame) (some cornerPane) 256 256 4 4 {} false = cornerArea := by
  have f0 : ⌊(cornerFrame.left - cornerPane.left) / (256 : ℚ)⌋ = 0 := by
    rw [Int.floor_eq_iff]; norm_num [cornerFrame, cornerPane]
  have f1 : ⌊(cornerFrame.top - cornerPane.top) / (256 : ℚ)⌋ = 0 := by
    rw [Int.floor_eq_iff]; norm_num [cornerFrame, cornerPane]
  have c0 : ⌈(cornerFrame.right - cornerFrame.left) / (256 : ℚ)⌉ = 2 := by
    rw [Int.ceil_eq_iff]; norm_num [cornerFrame]
  have c1 : ⌈(cornerFrame.bottom - cornerFrame.top) / (256 : ℚ)⌉ = 2 := by
    rw [Int.ceil_eq_iff]; norm_num [cornerFrame]
  rw [calcVisible_recomputed _ _ _ _ _ _ _ _ (Or.inl (by rw [f0]; decide)), f0, f1, c0, c1]
  rfl

/-- C11. Whenever `calcVisible` recomputes (a start differs from the stored one, or
`force` is set), it sets `changed` and stores
`cols.end = min(numCols - 1, cols.start + ceil(frameWidth / tileW))` and
`rows.end = min(numRows - 1, rows.start + ceil(frameHeight / tileH))`. -/
theorem calcVisible_end (region paneR : Region) (th tw : ℚ) (nRows nCols : Int)
    (va : VisibleArea) (force : Bool)
    (h : max 0 ⌊(region.left - paneR.left) / th⌋ ≠ va.cols.start ∨
         max 0 ⌊(region.top - paneR.top) / tw⌋ ≠ va.rows.start ∨ force = true) :
    (calcVisible (some region) (some paneR) th tw nRows nCols va force).changed = true ∧
    (calcVisible (some region) (some paneR) th tw nRows nCols va force).cols.end_ =
      min (nCols - 1)
        ((calcVisible (some region) (some paneR) th tw nRows nCols va force).cols.start +
          ⌈(region.right - region.left) / tw⌉) ∧
    (calcVisible (some region) (some paneR) th tw nRows nCols va force).rows.end_ =
      min (nRows - 1)
        ((calcVisible (some region) (some paneR) th tw nRows nCols va force).rows.start +
          ⌈(region.bottom - region.top) / th⌉) := by
  rw [calcVisible_recomputed region paneR th tw nRows nCols va force h]
  exact ⟨rfl, rfl, rfl⟩

/-- C11 on the 500 x 400 frame at offset (0, 0) over a 4 x 4 grid of 256 x 256 tiles,
forced: the range stored is rows 0..2 and columns 0..2. -/
theorem calcVisible_end_witness :
    calcVisible (some cornerFrame) (some cornerPane) 256 256 4 4 {} true = cornerArea ∧
    (calcVisible (some cornerFrame) (some cornerPane) 256 256 4 4 {} true).changed = true ∧
    (calcVisible (some cornerFrame) (some cornerPane) 256 256 4 4 {} true).cols.end_ =
      min (4 - 1)
        ((calcVisible (some cornerFrame) (some cornerPane) 256 256 4 4 {} true).cols.start +
          ⌈(cornerFrame.right - cornerFrame.left) / (256 : ℚ)⌉) ∧
    (calcVisible (some cornerFrame) (some cornerPane) 256 256 4 4 {} true).rows.end_ =
      min (4 - 1)
        ((calcVisible (some cornerFrame) (some cornerPane) 256 256 4 4 {} true).rows.start +
          ⌈(cornerFrame.bottom - cornerFrame.top) / (256 : ℚ)⌉) :=
  ⟨by
    have h := calcVisible_corner
    have f1 : ⌊(cornerFrame.top - cornerPane.top) / (256 : ℚ)⌋ = 0 := by
      rw [Int.floor_eq_iff]; norm_num [cornerFrame, cornerPane]
    have hmoved : max 0 ⌊(cornerFrame.top - cornerPane.top) / (256 : ℚ)⌋
        ≠ ({} : VisibleArea).rows.start := by
      rw [f1]; decide
    rw [calcVisible_recomputed _ _ _ _ _ _ _ _ (Or.inr (Or.inr rfl))]
    rw [calcVisible_recomputed _ _ _ _ _ _ _ false (Or.inr (Or.inl hmoved))] at h
    exact h,
   calcVisible_end cornerFrame cornerPane 256 256 4 4 {} true (Or.inr (Or.inr rfl))⟩

/-- C12. `calcVisible` returns the stored area with `changed = false`, its `rows.start`,
`rows.end`, `cols.start` and `cols.end` as they were, when (a) the frame or the pane
cannot be measured, or (b) the start row and start column it computes equal the
stored ones and `force` is not set, whatever the size of the frame. -/
theorem calcVisible_unchanged (frame pane : Option Region) (th tw : ℚ) (nRows nCols : Int)
    (va : VisibleArea) (force : Bool)
    (h : frame = none ∨ pane = none ∨
      ∃ region paneR, frame = some region ∧ pane = some paneR ∧
        max 0 ⌊(region.left - paneR.left) / th⌋ = va.cols.start ∧
        max 0 ⌊(region.top - paneR.top) / tw⌋ = va.rows.start ∧ force = false) :
    (calcVisible frame pane th tw nRows nCols va force).changed = false ∧
    (calcVisible frame pane th tw nRows nCols va force).rows = va.rows ∧
    (calcVisible frame pane th tw nRows nCols va force).cols = va.cols := by
  rw [calcVisible_kept frame pane th tw nRows nCols va force h]
  exact ⟨rfl, rfl, rfl⟩

/-- C12 on the area stored for the 500 x 400 frame, after the frame has grown to
900 x 700 with its corner in place: rows 0..2 and columns 0..2 stay, although a
recomputation would end at row and column 3. -/
theorem calcVisible_unchanged_witness :
    (calcVisible (some grownFrame) (some cornerPane) 256 256 4 4 cornerArea false).changed
      = false ∧
    (calcVisible (some grownFrame) (some cornerPane) 256 256 4 4 cornerArea false).rows
      = cornerArea.rows ∧
    (calcVisible (some grownFrame) (some cornerPane) 256 256 4 4 cornerArea false).cols
      = cornerArea.cols ∧
    (calcVisible (some grownFrame) (some cornerPane) 256 256 4 4 cornerArea true).rows.end_ = 3 :=
  have f0 : ⌊(grownFrame.left - cornerPane.left) / (256 : ℚ)⌋ = 0 := by
    rw [Int.floor_eq_iff]; norm_num [grownFrame, cornerPane]
  have f1 : ⌊(grownFrame.top - cornerPane.top) / (256 : ℚ)⌋ = 0 := by
    rw [Int.floor_eq_iff]; norm_num [grownFrame, cornerPane]
  have c1 : ⌈(grownFrame.bottom - grownFrame.top) / (256 : ℚ)⌉ = 3 := by
    rw [Int.ceil_eq_iff]; norm_num [grownFrame]
  have h := calcVisible_unchanged (some grownFrame) (some cornerPane) 256 256 4 4 cornerArea
    false (Or.inr (Or.inr ⟨grownFrame, cornerPane, rfl, rfl, by rw [f0]; rfl, by rw [f1]; rfl,
      rfl⟩))
  ⟨h.1, h.2.1, h.2.2, by
    rw [calcVisible_recomputed _ _ _ _ _ _ _ _ (Or.inr (Or.inr rfl)), f1, c1]
    decide⟩

/-! ## Sequences of `setLevel` and `setRatio` -/

/-- Rounding an integer gives the integer. -/
theorem jsRound_intCast (n : Int) : jsRound (n : ℚ) = n := by
  unfold jsRound
  rw [Int.floor_eq_iff]
  constructor
  · linarith
  · linarith

/-- What `setRatio` does, with or without an argument, once `findClosestLevel` has
returned a level of the list. -/
theorem setRatio_eq (s : Source) (layers : List FixedLayer) (ratio : Option ℚ)
    (i : Int) (l : FixedLayer) (hr : s.m_ready = true) (hl : s.m_layers = some layers)
    (hf : findClosestLevel s (ratio.getD s.m_currentLayer.ratio) = .ok i)
    (hi : jsIndex layers i = some l) :
    setRatio s ratio = .ok (ratio.getD s.m_currentLayer.ratio, { s with m_currentLayer :=
      { ix := i, ratio := ratio.getD s.m_currentLayer.ratio,
        adjust := ratio.getD s.m_currentLayer.ratio / l.ratio,
        w := jsRound (l.w * (ratio.getD s.m_currentLayer.ratio / l.ratio)),
        h := jsRound (l.h * (ratio.getD s.m_currentLayer.ratio / l.ratio)),
        nCols := l.nCols, nRows := l.nRows } }) := by
  simp [setRatio, checkReady, hr, hf, hl, hi]

/-- When the ratio asked for is the ratio of the current level, `findClosestLevel` keeps
the current level. -/
theorem findClosestLevel_of_current_ratio (s : Source) (layers : List FixedLayer)
    (cur : FixedLayer) (hl : s.m_layers = some layers)
    (hc : jsIndex layers s.m_currentLayer.ix = some cur) :
    findClosestLevel s cur.ratio = .ok s.m_currentLayer.ix := by
  rcases findClosestLevel_spec s layers cur cur.ratio hl hc with
    ⟨hres, _⟩ | ⟨i, l, _, _, hlt, _, _⟩
  · exact hres
  · rw [sub_self, abs_zero] at hlt
    exact absurd hlt (not_lt.mpr (abs_nonneg _))

/-- A call of `setRatio` or `setLevel` on a ready source whose current level is a level of
the list leaves such a source, with the same list. -/
theorem applyCall_index (s : Source) (layers : List FixedLayer) (c : Call)
    (hr : s.m_ready = true) (hl : s.m_layers = some layers)
    (h0 : 0 ≤ s.m_currentLayer.ix) (h1 : s.m_currentLayer.ix < layers.length) :
    (applyCall s c).m_ready = true ∧ (applyCall s c).m_layers = some layers ∧
    0 ≤ (applyCall s c).m_currentLayer.ix ∧
    (applyCall s c).m_currentLayer.ix < layers.length := by
  cases c with
  | setRatio ratio =>
    obtain ⟨i, li, hf, hi, _⟩ :=
      findClosestLevel_minimizes_aux s layers (ratio.getD s.m_currentLayer.ratio) hl h0 h1
    obtain ⟨hi0, hi1, _⟩ := jsIndex_eq_some hi
    simp only [applyCall, setRatio_eq s layers ratio i li hr hl hf hi]
    exact ⟨hr, hl, hi0, hi1⟩
  | setLevel level =>
    by_cases hin : level < 0 ∨ (layers.length : Int) ≤ level
    · simp only [applyCall, setLevel_out_of_range s layers level hr hl hin]
      exact ⟨hr, hl, h0, h1⟩
    · have hlev0 : 0 ≤ level := by omega
      have hlev1 : level < layers.length := by omega
      obtain ⟨l, hi⟩ := jsIndex_isSome hlev0 hlev1
      simp only [applyCall, setLevel_in_range s layers level l hr hl hi]
      exact ⟨hr, hl, hlev0, hlev1⟩

/-- With positive level ratios, a call of `setLevel`, or of `setRatio` with a positive
ratio or with none, keeps the current ratio and `adjust` positive. -/
theorem applyCall_positive (s : Source) (layers : List FixedLayer) (c : Call)
    (hr : s.m_ready = true) (hl : s.m_layers = some layers)
    (hpos : ∀ l ∈ layers, 0 < l.ratio)
    (h0 : 0 ≤ s.m_currentLayer.ix) (h1 : s.m_currentLayer.ix < layers.length)
    (hratio : 0 < s.m_currentLayer.ratio) (hadj : 0 < s.m_currentLayer.adjust)
    (hc : ∀ r, c = .setRatio (some r) → 0 < r) :
    0 < (applyCall s c).m_currentLayer.ratio ∧ 0 < (applyCall s c).m_currentLayer.adjust := by
  cases c with
  | setRatio ratio =>
    obtain ⟨i, li, hf, hi, _⟩ :=
      findClosestLevel_minimizes_aux s layers (ratio.getD s.m_currentLayer.ratio) hl h0 h1
    have hli : 0 < li.ratio := hpos li (mem_of_jsIndex hi)
    have hrpos : 0 < ratio.getD s.m_currentLayer.ratio := by
      cases ratio with
      | none => exact hratio
      | some r => exact hc r rfl
    simp only [applyCall, setRatio_eq s layers ratio i li hr hl hf hi]
    exact ⟨hrpos, div_pos hrpos hli⟩
  | setLevel level =>
    by_cases hin : level < 0 ∨ (layers.length : Int) ≤ level
    · simp only [applyCall, setLevel_out_of_range s layers level hr hl hin]
      exact ⟨hratio, hadj⟩
    · have hlev0 : 0 ≤ level := by omega
      have hlev1 : level < layers.length := by omega
      obtain ⟨l, hi⟩ := jsIndex_isSome hlev0 hlev1
      simp only [applyCall, setLevel_in_range s layers level l hr hl hi]
      exact ⟨hpos l (mem_of_jsIndex hi), one_pos⟩

/-- C18. On a ready source, for a level `i` of the list with a ratio other than 0,
`setLevel(i)` followed by `setRatio(levels[i].ratio)` leaves the current level index
`i`, `adjust = 1` and the current width and height of level `i`. -/
theorem setLevel_then_setRatio (s : Source) (layers : List FixedLayer) (i : Int)
    (li : FixedLayer) (hr : s.m_ready = true) (hl : s.m_layers = some layers)
    (hi : jsIndex layers i = some li) (hne : li.ratio ≠ 0) :
    ∃ s1 s2 : Source, setLevel s i = .ok (i, s1) ∧
      setRatio s1 (some li.ratio) = .ok (li.ratio, s2) ∧
      s2.m_currentLayer.ix = i ∧ s2.m_currentLayer.adjust = 1 ∧
      s2.m_currentLayer.w = li.w ∧ s2.m_currentLayer.h = li.h ∧
      getWidth s2 = .ok li.w ∧ getHeight s2 = .ok li.h := by
  have h1 := setLevel_in_range s layers i li hr hl hi
  have hf := findClosestLevel_of_current_ratio
    ({ s with m_currentLayer :=
      { ix := i, ratio := li.ratio, adjust := 1, w := li.w, h := li.h,
        nCols := li.nCols, nRows := li.nRows } }) layers li hl hi
  have h2 := setRatio_of_findClosestLevel
    ({ s with m_currentLayer :=
      { ix := i, ratio := li.ratio, adjust := 1, w := li.w, h := li.h,
        nCols := li.nCols, nRows := li.nRows } }) layers li.ratio i li hr hl hf hi
  have hw : jsRound ((li.w : ℚ) * (li.ratio / li.ratio)) = li.w := by
    rw [div_self hne, mul_one, jsRound_intCast]
  have hh : jsRound ((li.h : ℚ) * (li.ratio / li.ratio)) = li.h := by
    rw [div_self hne, mul_one, jsRound_intCast]
  refine ⟨_, _, h1, h2, rfl, div_self hne, hw, hh, ?_, ?_⟩
  · simp only [getWidth, checkReady, hr, if_true, hw]
  · simp only [getHeight, checkReady, hr, if_true, hh]

/-- C18 on the three-level pyramid: `setLevel(1)` and then `setRatio(0.5)`. -/
theorem setLevel_then_setRatio_witness :
    ∃ s1 s2 : Source, setLevel pyramidSource 1 = .ok (1, s1) ∧
      setRatio s1 (some (1 / 2)) = .ok (1 / 2, s2) ∧
      s2.m_currentLayer.ix = 1 ∧ s2.m_currentLayer.adjust = 1 ∧
      s2.m_currentLayer.w = 500 ∧ s2.m_currentLayer.h = 400 ∧
      getWidth s2 = .ok 500 ∧ getHeight s2 = .ok 400 :=
  setLevel_then_setRatio pyramidSource pyramidLayers 1
    { ratio := 1 / 2, w := 500, h := 400, nRows := 2, nCols := 2 }
    (by rw [pyramidSource_eq]) (by rw [pyramidSource_eq]) rfl (by norm_num)

/-- C19, as stated, fails: right after configuration with the levels `1.0` and `0.5`,
both positive, `setRatio(0)` is accepted and leaves `adjust = 0`. -/
theorem setRatio_zero_adjust :
    isReady twoLevelSource = true ∧ (∀ l ∈ twoLevelLayers, 0 < l.ratio) ∧
    twoLevelSource.m_layers = some twoLevelLayers ∧
    (applyCalls twoLevelSource [.setRatio (some 0)]).m_currentLayer.adjust = 0 ∧
    ¬ 0 < (applyCalls twoLevelSource [.setRatio (some 0)]).m_currentLayer.adjust := by
  have hi : jsIndex twoLevelLayers 1
      = some { ratio := 1 / 2, w := 500, h := 400, nRows := 2, nCols := 2 } := rfl
  have hf : findClosestLevel twoLevelSource 0 = .ok 1 := by
    rw [twoLevelSource_eq]
    simp only [findClosestLevel, hi]
    norm_num [closestScan, twoLevelLayers, abs_div, abs_neg]
  have hadj : (applyCalls twoLevelSource [.setRatio (some 0)]).m_currentLayer.adjust = 0 := by
    simp only [applyCalls, List.foldl, applyCall]
    rw [setRatio_of_findClosestLevel twoLevelSource twoLevelLayers 0 1 _
      (by rw [twoLevelSource_eq]) (by rw [twoLevelSource_eq]) hf hi]
    simp
  refine ⟨by rw [twoLevelSource_eq]; rfl, ?_, by rw [twoLevelSource_eq], hadj, ?_⟩
  · intro l hl
    simp only [twoLevelLayers, List.mem_cons, List.mem_singleton, List.not_mem_nil,
      or_false] at hl
    rcases hl with rfl | rfl <;> norm_num
  · rw [hadj]
    exact lt_irrefl 0

/-- C19, amended. On a ready source whose current level is a level of the list, after any
sequence of `setRatio` and `setLevel` calls the source is ready with the same list and
`0 ≤ levelIndex < len(levels)`; when moreover the level ratios, the current ratio and
`adjust` are positive at the start and every ratio passed to `setRatio` is positive,
`adjust > 0` holds after the sequence as well. -/
theorem applyCalls_invariant (calls : List Call) :
    ∀ (s : Source) (layers : List FixedLayer), s.m_ready = true → s.m_layers = some layers →
      0 ≤ s.m_currentLayer.ix → s.m_currentLayer.ix < layers.length →
      ((applyCalls s calls).m_ready = true ∧ (applyCalls s calls).m_layers = some layers ∧
        0 ≤ (applyCalls s calls).m_currentLayer.ix ∧
        (applyCalls s calls).m_currentLayer.ix < layers.length) ∧
      ((∀ l ∈ layers, 0 < l.ratio) → 0 < s.m_currentLayer.ratio →
        0 < s.m_currentLayer.adjust → (∀ r, Call.setRatio (some r) ∈ calls → 0 < r) →
        0 < (applyCalls s calls).m_currentLayer.ratio ∧
        0 < (applyCalls s calls).m_currentLayer.adjust) := by
  induction calls with
  | nil =>
    intro s layers hr hl h0 h1
    exact ⟨⟨hr, hl, h0, h1⟩, fun _ hratio hadj _ => ⟨hratio, hadj⟩⟩
  | cons c rest ih =>
    intro s layers hr hl h0 h1
    obtain ⟨hr', hl', h0', h1'⟩ := applyCall_index s layers c hr hl h0 h1
    have hstep := ih (applyCall s c) layers hr' hl' h0' h1'
    refine ⟨hstep.1, ?_⟩
    intro hpos hratio hadj hcalls
    obtain ⟨hratio', hadj'⟩ := applyCall_positive s layers c hr hl hpos h0 h1 hratio hadj
      (fun r hc => hcalls r (by rw [hc]; exact List.mem_cons_self _ _))
    exact hstep.2 hpos hratio' hadj'
      (fun r hmem => hcalls r (List.mem_cons_of_mem _ hmem))

/-- C19, amended, on the two-level source: `setRatio(0.75)`, `setLevel(5)` (which throws),
`setLevel(0)`, `setRatio()`. -/
theorem applyCalls_invariant_witness :
    ((applyCalls twoLevelSource
        [.setRatio (some (3 / 4)), .setLevel 5, .setLevel 0, .setRatio none]).m_ready = true ∧
      (applyCalls twoLevelSource
        [.setRatio (some (3 / 4)), .setLevel 5, .setLevel 0, .setRatio none]).m_layers
        = some twoLevelLayers ∧
      0 ≤ (applyCalls twoLevelSource
        [.setRatio (some (3 / 4)), .setLevel 5, .setLevel 0, .setRatio none]).m_currentLayer.ix ∧
      (applyCalls twoLevelSource
        [.setRatio (some (3 / 4)), .setLevel 5, .setLevel 0, .setRatio none]).m_currentLayer.ix
        < twoLevelLayers.length) ∧
    0 < (applyCalls twoLevelSource
      [.setRatio (some (3 / 4)), .setLevel 5, .setLevel 0, .setRatio none]).m_currentLayer.adjust :=
  have h := applyCalls_invariant
    [.setRatio (some (3 / 4)), .setLevel 5, .setLevel 0, .setRatio none]
    twoLevelSource twoLevelLayers (by rw [twoLevelSource_eq]) (by rw [twoLevelSource_eq])
    (by rw [twoLevelSource_eq]; decide) (by rw [twoLevelSource_eq]; decide)
  ⟨h.1, (h.2
    (by
      intro l hl
      simp only [twoLevelLayers, List.mem_cons, List.mem_singleton, List.not_mem_nil,
        or_false] at hl
      rcases hl with rfl | rfl <;> norm_num)
    (by rw [twoLevelSource_eq]; norm_num)
    (by rw [twoLevelSource_eq]; norm_num)
    (by
      intro r hr
      simp only [List.mem_cons, List.mem_singleton, List.not_mem_nil, or_false,
        Call.setRatio.injEq, Option.some.injEq, reduceCtorEq, false_or, or_false] at hr
      rw [hr]; norm_num)).2⟩

/-! ## `Viewport.setRatio` -/

/-- Neither `setCenter` nor `resetPane` writes `cfg` or `m_dim`. -/
theorem Viewport.resetPane_cfg (vp : Viewport) (absX absY : Option ℚ) :
    (vp.resetPane absX absY).cfg = vp.cfg ∧ (vp.resetPane absX absY).m_dim = vp.m_dim := by
  unfold Viewport.resetPane Viewport.setCenter
  split <;> exact ⟨rfl, rfl⟩

/-- The ratio `Viewport.setRatio` stores and returns: the value, or the current ratio when
there is none, brought down to `maxRatio` and else up to `minRatio`. -/
theorem Viewport.setRatio_value (vp : Viewport) (value : Option ℚ)
    (center : Option (Option ℚ × Option ℚ)) :
    (vp.setRatio value center).1 =
      (if value.getD vp.cfg.ratio > vp.cfg.maxRatio then vp.cfg.maxRatio
       else if value.getD vp.cfg.ratio < vp.cfg.minRatio then vp.cfg.minRatio
       else value.getD vp.cfg.ratio) ∧
    (vp.setRatio value center).2.cfg.ratio = (vp.setRatio value center).1 ∧
    (vp.setRatio value center).2.cfg.minRatio = vp.cfg.minRatio ∧
    (vp.setRatio value center).2.cfg.maxRatio = vp.cfg.maxRatio := by
  have hcfg := fun (w : Viewport) (x y : Option ℚ) => (Viewport.resetPane_cfg w x y).1
  simp [Viewport.setRatio, hcfg]

/-- C20. For a viewport with `minRatio ≤ maxRatio`, `setRatio(v)` returns `v` clamped into
`[minRatio, maxRatio]`, the ratio the viewport then stores and `getRatio()` returns is
the returned value, and it lies between `minRatio` and `maxRatio`, which the call
leaves as they were. -/
theorem Viewport.setRatio_clamps (vp : Viewport) (v : ℚ)
    (center : Option (Option ℚ × Option ℚ)) (h : vp.cfg.minRatio ≤ vp.cfg.maxRatio) :
    (vp.setRatio (some v) center).1 = max vp.cfg.minRatio (min v vp.cfg.maxRatio) ∧
    (vp.setRatio (some v) center).2.getRatio = (vp.setRatio (some v) center).1 ∧
    (vp.setRatio (some v) center).2.cfg.minRatio ≤ (vp.setRatio (some v) center).2.getRatio ∧
    (vp.setRatio (some v) center).2.getRatio ≤ (vp.setRatio (some v) center).2.cfg.maxRatio := by
  obtain ⟨hval, hst, hmin, hmax⟩ := Viewport.setRatio_value vp (some v) center
  have hclamp : (vp.setRatio (some v) center).1
      = max vp.cfg.minRatio (min v vp.cfg.maxRatio) := by
    rw [hval]
    simp only [Option.getD_some]
    by_cases h1 : v > vp.cfg.maxRatio
    · rw [if_pos h1, min_eq_right (le_of_lt h1), max_eq_right h]
    · rw [if_neg h1, min_eq_left (not_lt.mp h1)]
      by_cases h2 : v < vp.cfg.minRatio
      · rw [if_pos h2, max_eq_left (le_of_lt h2)]
      · rw [if_neg h2, max_eq_right (not_lt.mp h2)]
  refine ⟨hclamp, hst, ?_, ?_⟩
  · show _ ≤ (vp.setRatio (some v) center).2.cfg.ratio
    rw [hst, hmin, hclamp]
    exact le_max_left _ _
  · show (vp.setRatio (some v) center).2.cfg.ratio ≤ _
    rw [hst, hmax, hclamp]
    exact max_le h (min_le_right _ _)

/-- C20 on a viewport with the default bounds `0.001` and `1.0`: `setRatio(5)` returns 1. -/
theorem Viewport.setRatio_clamps_witness :
    (({} : Viewport).setRatio (some 5) none).1 = 1 ∧
    (({} : Viewport).setRatio (some 5) none).1
      = max ({} : Viewport).cfg.minRatio (min 5 ({} : Viewport).cfg.maxRatio) ∧
    (({} : Viewport).setRatio (some 5) none).2.getRatio
      = (({} : Viewport).setRatio (some 5) none).1 ∧
    (({} : Viewport).setRatio (some 5) none).2.cfg.minRatio
      ≤ (({} : Viewport).setRatio (some 5) none).2.getRatio ∧
    (({} : Viewport).setRatio (some 5) none).2.getRatio
      ≤ (({} : Viewport).setRatio (some 5) none).2.cfg.maxRatio :=
  have h := Viewport.setRatio_clamps ({} : Viewport) 5 none (by norm_num)
  ⟨by rw [h.1]; norm_num, h⟩

/-! ## Tile geometry -/

/-- What `update()` stores when the cached ratio differs from the ratio of a ready
source. -/
theorem TileManager.update_of_ne (tm : TileManager) (s : Source) (hr : s.m_ready = true)
    (hne : tm.ratio ≠ s.m_currentLayer.ratio) :
    tm.update s = .ok { tm with
      ix := s.m_currentLayer.ix, ratio := s.m_currentLayer.ratio,
      th := (s.m_tileHeight.map fun t => (t : ℚ) * s.m_currentLayer.adjust).map jsRound,
      tw := (s.m_tileWidth.map fun t => (t : ℚ) * s.m_currentLayer.adjust).map jsRound,
      rCol := s.m_currentLayer.nCols - 1, bRow := s.m_currentLayer.nRows - 1,
      ew := ((s.m_tileWidth.map fun t => (t : ℚ) * s.m_currentLayer.adjust).map jsRound).bind
        (jsMod s.m_currentLayer.w),
      eh := ((s.m_tileHeight.map fun t => (t : ℚ) * s.m_currentLayer.adjust).map jsRound).bind
        (jsMod s.m_currentLayer.h) } := by
  simp only [TileManager.update, getRatio, getZoomLevel, getTileHeight, getTileWidth,
    getNumberOfCols, getNumberOfRows, getWidth, getHeight, checkReady, hr, if_true]
  rw [if_neg hne]

/-- What `update()` does when the cached ratio is the ratio of a ready source: nothing. -/
theorem TileManager.update_of_eq (tm : TileManager) (s : Source) (hr : s.m_ready = true)
    (heq : tm.ratio = s.m_currentLayer.ratio) : tm.update s = .ok tm := by
  simp only [TileManager.update, getRatio, checkReady, hr, if_true]
  rw [if_pos heq]

/-- The `img` element `addTile(r, c)` creates on a source that returns a url for the tile. -/
theorem TileManager.newTile_of_url (tm : TileManager) (s : Source) (r c : Int) (url : String)
    (hurl : getTileUrl s r c none = .ok url) :
    tm.newTile s r c = .ok
      { id := tm.tileId r c, src := url, top := tm.th.map (fun th => r * th),
        left := tm.tw.map (fun tw => c * tw),
        width := if tm.rCol = 0 then some s.m_currentLayer.w
                 else if c = tm.rCol then tm.ew else tm.tw,
        height := if tm.bRow = 0 then some s.m_currentLayer.h
                  else if r = tm.bRow then tm.eh else tm.th } := by
  have hr : s.m_ready = true := by
    cases hready : s.m_ready with
    | true => rfl
    | false =>
      simp [getTileUrl, checkReady, hready] at hurl
  simp only [TileManager.newTile, hurl, getWidth, getHeight, checkReady, hr, if_true]
  by_cases h1 : tm.rCol = 0 <;> by_cases h2 : tm.bRow = 0 <;>
    simp [h1, h2, Except.map]

/-- A tile that is active is not made again: `addTile` returns its id and changes
nothing. -/
theorem TileManager.addTile_active (tm : TileManager) (pane : List Tile) (s : Source)
    (r c : Int) (img : Tile) (h : tm.activeImages (tm.tileId r c) = some img) :
    tm.addTile pane s r c = .ok (tm.tileId r c, tm, pane) := by
  simp only [TileManager.addTile, h]

/-- A tile that is not active is made, registered and appended to the pane. -/
theorem TileManager.addTile_new (tm : TileManager) (pane : List Tile) (s : Source)
    (r c : Int) (img : Tile) (h : tm.activeImages (tm.tileId r c) = none)
    (hnew : tm.newTile s r c = .ok img) :
    tm.addTile pane s r c = .ok (tm.tileId r c,
      { tm with activeImages := Function.update tm.activeImages img.id (some img) },
      pane ++ [img]) := by
  simp only [TileManager.addTile, h, hnew]

/-- A tile that is not active and cannot be made: `addTile` throws. -/
theorem TileManager.addTile_error (tm : TileManager) (pane : List Tile) (s : Source)
    (r c : Int) (e : Err) (h : tm.activeImages (tm.tileId r c) = none)
    (hnew : tm.newTile s r c = .error e) :
    tm.addTile pane s r c = .error e := by
  simp only [TileManager.addTile, h, hnew]

/-- The state of `fullSizeSource`: level 0 at ratio `1.0`, `adjust = 1`, a 4 x 4 grid. -/
theorem fullSizeSource_eq :
    fullSizeSource =
      { ext := .tzi "http://host/img" (some "jpeg"), m_ready := true,
        m_name := some "img", m_layers := some pyramidLayers, m_width := some 1000,
        m_height := some 800, m_tileWidth := some 256, m_tileHeight := some 256,
        m_currentLayer := { ix := 0, ratio := 1, adjust := 1, w := 1000, h := 800,
                            nRows := 4, nCols := 4 },
        fired := [Notice.ready], pending := 0 } := by
  have hc : jsIndex pyramidLayers 2
      = some { ratio := 1 / 4, w := 250, h := 200, nRows := 1, nCols := 1 } := rfl
  have hi : jsIndex pyramidLayers 0
      = some { ratio := 1, w := 1000, h := 800, nRows := 4, nCols := 4 } := rfl
  have hf : findClosestLevel pyramidSource 1 = .ok 0 := by
    rw [pyramidSource_eq]
    simp only [findClosestLevel, hc]
    norm_num [closestScan, pyramidLayers, abs_div, abs_neg]
  simp only [fullSizeSource, applyCall]
  rw [setRatio_of_findClosestLevel pyramidSource pyramidLayers 1 0 _
    (by rw [pyramidSource_eq]) (by rw [pyramidSource_eq]) hf hi]
  rw [pyramidSource_eq]
  simp only [div_one, mul_one, Source.mk.injEq, CurrentLayer.mk.injEq, true_and, and_true]
  exact ⟨jsRound_intCast 1000, jsRound_intCast 800⟩

/-- The url of tile (3, 3) of `fullSizeSource`. -/
theorem fullSizeSource_url_3_3 :
    getTileUrl fullSizeSource 3 3 none = .ok "http://host/img/0/3-3.jpeg" := by
  rw [fullSizeSource_eq]
  simp [getTileUrl, checkReady, gtFunctionObject, jsIndex, pyramidLayers, Ext.getTileUrl, jsStr]
  decide

/-- Rounding 256. -/
theorem jsRound_256 : jsRound (256 : ℚ) = 256 := by
  unfold jsRound
  rw [Int.floor_eq_iff]
  norm_num

/-- On `fullSizeSource` a new tile manager computes the geometry `fullSizeManager`:
tiles of 256 x 256, last column 3 of width 232, last row 3 of height 32. -/
theorem fullSizeManager_eq :
    ({ id := "tzilayer_1" } : TileManager).update fullSizeSource = .ok fullSizeManager := by
  rw [TileManager.update_of_ne _ _ (by rw [fullSizeSource_eq])
    (by rw [fullSizeSource_eq]; norm_num)]
  rw [fullSizeSource_eq]
  simp [fullSizeManager, jsRound_256, jsMod]
  decide

/-- C16. On a ready source whose grid has more than one column and more than one row,
after an `update()` that recomputes, `addTile(r, c)` of a tile that is not active and
has a url makes an `img` of width `tw` in a column that is not the last and
`getWidth() mod tw` in the last column, and of height `th` in a row that is not the last
and `getHeight() mod th` in the last row, `tw` and `th` being the rounded tile width and
height of the source. -/
theorem addTile_edge_sizes (tm0 : TileManager) (pane : List Tile) (s : Source) (r c : Int)
    (url : String) (hr : isReady s = true) (hne : tm0.ratio ≠ s.m_currentLayer.ratio)
    (hcols : 1 < s.m_currentLayer.nCols) (hrows : 1 < s.m_currentLayer.nRows)
    (hurl : getTileUrl s r c none = .ok url)
    (hnew : tm0.activeImages { layer := tm0.id, ix := s.m_currentLayer.ix, r := r, c := c }
      = none) :
    ∃ (tm tm' : TileManager) (img : Tile) (tileWidth tileHeight : Option ℚ) (w h : Int),
      tm0.update s = .ok tm ∧
      getTileWidth s = .ok tileWidth ∧ getTileHeight s = .ok tileHeight ∧
      tm.tw = tileWidth.map jsRound ∧ tm.th = tileHeight.map jsRound ∧
      getWidth s = .ok w ∧ getHeight s = .ok h ∧
      tm.addTile pane s r c = .ok (tm.tileId r c, tm', pane ++ [img]) ∧
      img.width = (if c = s.m_currentLayer.nCols - 1 then tm.tw.bind (jsMod w) else tm.tw) ∧
      img.height = (if r = s.m_currentLayer.nRows - 1 then tm.th.bind (jsMod h) else tm.th) ∧
      img.left = tm.tw.map (fun tw => c * tw) ∧ img.top = tm.th.map (fun th => r * th) := by
  have hr' : s.m_ready = true := hr
  have hup := TileManager.update_of_ne tm0 s hr' hne
  have hc0 : s.m_currentLayer.nCols - 1 ≠ 0 := by omega
  have hr0 : s.m_currentLayer.nRows - 1 ≠ 0 := by omega
  refine ⟨_, _, _, _, _, s.m_currentLayer.w, s.m_currentLayer.h, hup, ?_, ?_, rfl, rfl, ?_, ?_,
    TileManager.addTile_new _ pane s r c _ hnew (TileManager.newTile_of_url _ s r c url hurl),
    ?_, ?_, rfl, rfl⟩
  · simp only [getTileWidth, checkReady, hr', if_true]
  · simp only [getTileHeight, checkReady, hr', if_true]
  · simp only [getWidth, checkReady, hr', if_true]
  · simp only [getHeight, checkReady, hr', if_true]
  · simp only [if_neg hc0]
  · simp only [if_neg hr0]

/-- C16 on the 1000 x 800 image with 256 x 256 tiles at ratio `1.0`, with a new tile
manager and an empty pane: tile (3, 3) is 232 wide and 32 high. -/
theorem addTile_edge_sizes_witness :
    (∃ (tm' : TileManager) (img : Tile),
      fullSizeManager.addTile [] fullSizeSource 3 3
        = .ok (fullSizeManager.tileId 3 3, tm', [] ++ [img]) ∧
      img.width = some 232 ∧ img.height = some 32) ∧
    ∃ (tm tm' : TileManager) (img : Tile) (tileWidth tileHeight : Option ℚ) (w h : Int),
      ({ id := "tzilayer_1" } : TileManager).update fullSizeSource = .ok tm ∧
      getTileWidth fullSizeSource = .ok tileWidth ∧
      getTileHeight fullSizeSource = .ok tileHeight ∧
      tm.tw = tileWidth.map jsRound ∧ tm.th = tileHeight.map jsRound ∧
      getWidth fullSizeSource = .ok w ∧ getHeight fullSizeSource = .ok h ∧
      tm.addTile [] fullSizeSource 3 3 = .ok (tm.tileId 3 3, tm', [] ++ [img]) ∧
      img.width = (if (3 : Int) = fullSizeSource.m_currentLayer.nCols - 1
        then tm.tw.bind (jsMod w) else tm.tw) ∧
      img.height = (if (3 : Int) = fullSizeSource.m_currentLayer.nRows - 1
        then tm.th.bind (jsMod h) else tm.th) ∧
      img.left = tm.tw.map (fun tw => 3 * tw) ∧ img.top = tm.th.map (fun th => 3 * th) :=
  ⟨⟨_, _, TileManager.addTile_new fullSizeManager [] fullSizeSource 3 3 _ rfl
      (TileManager.newTile_of_url fullSizeManager fullSizeSource 3 3 _ fullSizeSource_url_3_3),
    rfl, rfl⟩,
   addTile_edge_sizes { id := "tzilayer_1" } [] fullSizeSource 3 3
    "http://host/img/0/3-3.jpeg"
    (by rw [fullSizeSource_eq]; rfl) (by rw [fullSizeSource_eq]; norm_num)
    (by rw [fullSizeSource_eq]; decide) (by rw [fullSizeSource_eq]; decide)
    fullSizeSource_url_3_3 rfl⟩

/-- C17. On a ready source, after an `update()` that recomputes, `addTile(r, c)` of a tile
that is not active and has a url makes an `img` whose width is the full current width
`getWidth()` when the grid has exactly one column, and whose height is the full
current height `getHeight()` when the grid has exactly one row. -/
theorem addTile_single_sizes (tm0 : TileManager) (pane : List Tile) (s : Source) (r c : Int)
    (url : String) (hr : isReady s = true) (hne : tm0.ratio ≠ s.m_currentLayer.ratio)
    (hurl : getTileUrl s r c none = .ok url)
    (hnew : tm0.activeImages { layer := tm0.id, ix := s.m_currentLayer.ix, r := r, c := c }
      = none) :
    ∃ (tm tm' : TileManager) (img : Tile) (w h : Int),
      tm0.update s = .ok tm ∧ getWidth s = .ok w ∧ getHeight s = .ok h ∧
      tm.addTile pane s r c = .ok (tm.tileId r c, tm', pane ++ [img]) ∧
      (s.m_currentLayer.nCols = 1 → img.width = some w) ∧
      (s.m_currentLayer.nRows = 1 → img.height = some h) := by
  have hr' : s.m_ready = true := hr
  have hup := TileManager.update_of_ne tm0 s hr' hne
  refine ⟨_, _, _, s.m_currentLayer.w, s.m_currentLayer.h, hup, ?_, ?_,
    TileManager.addTile_new _ pane s r c _ hnew (TileManager.newTile_of_url _ s r c url hurl),
    ?_, ?_⟩
  · simp only [getWidth, checkReady, hr', if_true]
  · simp only [getHeight, checkReady, hr', if_true]
  · intro h1
    have : s.m_currentLayer.nCols - 1 = 0 := by omega
    simp only [this, if_true]
  · intro h1
    have : s.m_currentLayer.nRows - 1 = 0 := by omega
    simp only [this, if_true]

/-- C17 on `pyramidSource`, whose current level is the 250 x 200 level of one tile: the
tile is 250 wide and 200 high, although the tile size is 256 x 256. -/
theorem addTile_single_sizes_witness :
    pyramidSource.m_currentLayer.nCols = 1 ∧ pyramidSource.m_currentLayer.nRows = 1 ∧
    getWidth pyramidSource = .ok 250 ∧ getHeight pyramidSource = .ok 200 ∧
    ∃ (tm tm' : TileManager) (img : Tile) (w h : Int),
      ({ id := "tzilayer_1" } : TileManager).update pyramidSource = .ok tm ∧
      getWidth pyramidSource = .ok w ∧ getHeight pyramidSource = .ok h ∧
      tm.addTile [] pyramidSource 0 0 = .ok (tm.tileId 0 0, tm', [] ++ [img]) ∧
      (pyramidSource.m_currentLayer.nCols = 1 → img.width = some w) ∧
      (pyramidSource.m_currentLayer.nRows = 1 → img.height = some h) :=
  ⟨by rw [pyramidSource_eq], by rw [pyramidSource_eq], by rw [pyramidSource_eq]; rfl,
   by rw [pyramidSource_eq]; rfl,
   addTile_single_sizes { id := "tzilayer_1" } [] pyramidSource 0 0
    "http://host/img/2/0-0.jpeg"
    (by rw [pyramidSource_eq]; rfl) (by rw [pyramidSource_eq]; norm_num)
    (by
      rw [pyramidSource_eq]
      simp [getTileUrl, checkReady, gtFunctionObject, jsIndex, pyramidLayers, Ext.getTileUrl,
        jsStr]
      decide)
    rfl⟩

/-! ## The cells of a paint pass -/

theorem mem_intRange (a b x : Int) : x ∈ intRange a b ↔ a ≤ x ∧ x ≤ b := by
  simp only [intRange, List.mem_map, List.mem_range]
  constructor
  · rintro ⟨k, hk, rfl⟩
    omega
  · rintro ⟨h1, h2⟩
    exact ⟨(x - a).toNat, by omega, by omega⟩

theorem mem_visibleCells (va : VisibleArea) (r c : Int) :
    (r, c) ∈ visibleCells va ↔
      (va.rows.start ≤ r ∧ r ≤ va.rows.end_) ∧ (va.cols.start ≤ c ∧ c ≤ va.cols.end_) := by
  simp only [visibleCells, List.mem_flatMap, List.mem_map, mem_intRange, Prod.mk.injEq]
  constructor
  · rintro ⟨r', hr', c', hc', rfl, rfl⟩
    exact ⟨hr', hc'⟩
  · rintro ⟨hr, hc⟩
    exact ⟨r, hr, c, hc, rfl, rfl⟩

/-- The cells of the second loop of `paint`: the first and the last row of the widened
range in full, and of the rows between them the first and the last column. -/
theorem mem_bufferCells (va : VisibleArea) (nRows nCols r c : Int) :
    (r, c) ∈ bufferCells va nRows nCols ↔
      ((if va.rows.start > 0 then va.rows.start - 1 else 0) ≤ r ∧
        r ≤ (if va.rows.end_ < nRows then va.rows.end_ + 1 else nRows)) ∧
      (((r = (if va.rows.start > 0 then va.rows.start - 1 else 0) ∨
          r = (if va.rows.end_ < nRows then va.rows.end_ + 1 else nRows)) ∧
          (if va.cols.start > 0 then va.cols.start - 1 else 0) ≤ c ∧
          c ≤ (if va.cols.end_ < nCols then va.cols.end_ + 1 else nCols)) ∨
        (¬ (r = (if va.rows.start > 0 then va.rows.start - 1 else 0) ∨
          r = (if va.rows.end_ < nRows then va.rows.end_ + 1 else nRows)) ∧
          (c = (if va.cols.start > 0 then va.cols.start - 1 else 0) ∨
            c = (if va.cols.end_ < nCols then va.cols.end_ + 1 else nCols)))) := by
  simp only [bufferCells, List.mem_flatMap, mem_intRange]
  generalize (if va.rows.start > 0 then va.rows.start - 1 else 0) = top
  generalize (if va.rows.end_ < nRows then va.rows.end_ + 1 else nRows) = bottom
  generalize (if va.cols.start > 0 then va.cols.start - 1 else 0) = left
  generalize (if va.cols.end_ < nCols then va.cols.end_ + 1 else nCols) = right
  constructor
  · rintro ⟨r', hr', hmem⟩
    by_cases hedge : r' = top ∨ r' = bottom
    · rw [if_pos hedge] at hmem
      simp only [List.mem_map, mem_intRange, Prod.mk.injEq] at hmem
      obtain ⟨c', hc', rfl, rfl⟩ := hmem
      exact ⟨hr', Or.inl ⟨hedge, hc'⟩⟩
    · rw [if_neg hedge] at hmem
      simp only [List.mem_cons, List.mem_singleton, Prod.mk.injEq, List.not_mem_nil,
        or_false] at hmem
      rcases hmem with ⟨rfl, rfl⟩ | ⟨rfl, rfl⟩
      · exact ⟨hr', Or.inr ⟨hedge, Or.inl rfl⟩⟩
      · exact ⟨hr', Or.inr ⟨hedge, Or.inr rfl⟩⟩
  · rintro ⟨hr, hcase⟩
    refine ⟨r, hr, ?_⟩
    rcases hcase with ⟨hedge, hc⟩ | ⟨hedge, hc⟩
    · rw [if_pos hedge]
      exact List.mem_map.mpr ⟨c, (mem_intRange _ _ _).mpr hc, rfl⟩
    · rw [if_neg hedge]
      simp only [List.mem_cons, List.mem_singleton, Prod.mk.injEq, List.not_mem_nil,
        or_false, true_and]
      exact hc

/-- For a visible range inside the grid, the cells of the two loops of `paint` together
are the cells of the range widened by one row and one column on each side and
clipped to the grid; `nRows` and `nCols` are the numbers of rows and columns. -/
theorem mem_paintCells (va : VisibleArea) (nRows nCols r c : Int)
    (hr0 : 0 ≤ va.rows.start) (hr2 : va.rows.end_ ≤ nRows - 1)
    (hc0 : 0 ≤ va.cols.start) (hc1 : va.cols.start ≤ va.cols.end_)
    (hc2 : va.cols.end_ ≤ nCols - 1) :
    (r, c) ∈ visibleCells va ++ bufferCells va (nRows - 1) (nCols - 1) ↔
      (max 0 (va.rows.start - 1) ≤ r ∧ r ≤ min (nRows - 1) (va.rows.end_ + 1)) ∧
      (max 0 (va.cols.start - 1) ≤ c ∧ c ≤ min (nCols - 1) (va.cols.end_ + 1)) := by
  rw [List.mem_append, mem_visibleCells, mem_bufferCells]
  have htop : (if va.rows.start > 0 then va.rows.start - 1 else 0)
      = max 0 (va.rows.start - 1) := by
    split
    · rw [max_eq_right (by omega)]
    · rw [max_eq_left (by omega)]
  have hbottom : (if va.rows.end_ < nRows - 1 then va.rows.end_ + 1 else nRows - 1)
      = min (nRows - 1) (va.rows.end_ + 1) := by
    split
    · rw [min_eq_right (by omega)]
    · rw [min_eq_left (by omega)]
  have hleft : (if va.cols.start > 0 then va.cols.start - 1 else 0)
      = max 0 (va.cols.start - 1) := by
    split
    · rw [max_eq_right (by omega)]
    · rw [max_eq_left (by omega)]
  have hright : (if va.cols.end_ < nCols - 1 then va.cols.end_ + 1 else nCols - 1)
      = min (nCols - 1) (va.cols.end_ + 1) := by
    split
    · rw [min_eq_right (by omega)]
    · rw [min_eq_left (by omega)]
  rw [htop, hbottom, hleft, hright]
  have ht1 : max 0 (va.rows.start - 1) ≤ va.rows.start := max_le hr0 (by omega)
  have ht2 : va.rows.start - 1 ≤ max 0 (va.rows.start - 1) := le_max_right _ _
  have ht3 : (0 : Int) ≤ max 0 (va.rows.start - 1) := le_max_left _ _
  have hb1 : va.rows.end_ ≤ min (nRows - 1) (va.rows.end_ + 1) := le_min hr2 (by omega)
  have hb2 : min (nRows - 1) (va.rows.end_ + 1) ≤ va.rows.end_ + 1 := min_le_right _ _
  have hl1 : max 0 (va.cols.start - 1) ≤ va.cols.start := max_le hc0 (by omega)
  have hl2 : va.cols.start - 1 ≤ max 0 (va.cols.start - 1) := le_max_right _ _
  have hr1' : va.cols.end_ ≤ min (nCols - 1) (va.cols.end_ + 1) := le_min hc2 (by omega)
  have hr2' : min (nCols - 1) (va.cols.end_ + 1) ≤ va.cols.end_ + 1 := min_le_right _ _
  generalize max 0 (va.rows.start - 1) = top at *
  generalize min (nRows - 1) (va.rows.end_ + 1) = bottom at *
  generalize max 0 (va.cols.start - 1) = left at *
  generalize min (nCols - 1) (va.cols.end_ + 1) = right at *
  constructor
  · rintro (⟨⟨h1, h2⟩, h3, h4⟩ | ⟨⟨h1, h2⟩, ⟨_, h3, h4⟩ | ⟨_, h3 | h3⟩⟩)
    · exact ⟨⟨by omega, by omega⟩, by omega, by omega⟩
    · exact ⟨⟨h1, h2⟩, h3, h4⟩
    · exact ⟨⟨h1, h2⟩, by omega, by omega⟩
    · exact ⟨⟨h1, h2⟩, by omega, by omega⟩
  · rintro ⟨⟨h1, h2⟩, h3, h4⟩
    by_cases hedge : r = top ∨ r = bottom
    · exact Or.inr ⟨⟨h1, h2⟩, Or.inl ⟨hedge, h3, h4⟩⟩
    · by_cases hside : c = left ∨ c = right
      · exact Or.inr ⟨⟨h1, h2⟩, Or.inr ⟨hedge, hside⟩⟩
      · refine Or.inl ⟨⟨?_, ?_⟩, ?_, ?_⟩
        · have : r ≠ top := fun h => hedge (Or.inl h)
          omega
        · have : r ≠ bottom := fun h => hedge (Or.inr h)
          omega
        · have : c ≠ left := fun h => hside (Or.inl h)
          omega
        · have : c ≠ right := fun h => hside (Or.inr h)
          omega

/-! ## Adding and removing tiles -/

/-- The id of a tile `addTile` makes is the id `addTile` computes. -/
theorem TileManager.newTile_id (tm : TileManager) (s : Source) (r c : Int) (img : Tile)
    (h : tm.newTile s r c = .ok img) : img.id = tm.tileId r c := by
  unfold TileManager.newTile at h
  cases hurl : getTileUrl s r c none with
  | error e =>
    simp only [hurl] at h
    exact absurd h (by simp)
  | ok src =>
    simp only [hurl] at h
    generalize (if tm.rCol = 0 then Except.map some (getWidth s)
      else Except.ok (if c = tm.rCol then tm.ew else tm.tw)) = width at h
    generalize (if tm.bRow = 0 then Except.map some (getHeight s)
      else Except.ok (if r = tm.bRow then tm.eh else tm.th)) = height at h
    cases width with
    | error e => exact absurd h (by simp)
    | ok w =>
      cases height with
      | error e => exact absurd h (by simp)
      | ok ht =>
        simp only [Except.ok.injEq] at h
        rw [← h]

/-- A call of `addTile` that returns: the id is the one of the cell, the tile is active
afterwards, active tiles stay as they are, nothing but `activeImages` is written in
the manager, the pane only grows, and tiles and pane stay in step. -/
theorem TileManager.addTile_ok (tm tm1 : TileManager) (pane pane1 : List Tile) (s : Source)
    (r c : Int) (id : TileId) (h : tm.addTile pane s r c = .ok (id, tm1, pane1)) :
    id = tm.tileId r c ∧ tm1 = { tm with activeImages := tm1.activeImages } ∧
    (∃ img, tm1.activeImages id = some img) ∧
    (∀ id' img, tm.activeImages id' = some img → tm1.activeImages id' = some img) ∧
    (∃ added, pane1 = pane ++ added) ∧
    (Synced tm pane → Synced tm1 pane1) := by
  unfold TileManager.addTile at h
  cases hact : tm.activeImages (tm.tileId r c) with
  | some img =>
    simp only [hact, Except.ok.injEq, Prod.mk.injEq] at h
    obtain ⟨rfl, rfl, rfl⟩ := h
    exact ⟨rfl, rfl, ⟨img, hact⟩, fun _ _ h => h, ⟨[], (List.append_nil _).symm⟩, fun h => h⟩
  | none =>
    simp only [hact] at h
    cases hnew : tm.newTile s r c with
    | error e =>
      simp only [hnew] at h
      exact absurd h (by simp)
    | ok img =>
      simp only [hnew, Except.ok.injEq, Prod.mk.injEq] at h
      obtain ⟨rfl, rfl, rfl⟩ := h
      have hid := TileManager.newTile_id tm s r c img hnew
      refine ⟨rfl, rfl, ⟨img, ?_⟩, ?_, ⟨[img], rfl⟩, ?_⟩
      · show Function.update tm.activeImages img.id (some img) (tm.tileId r c) = some img
        rw [hid, Function.update_same]
      · intro id' img' h'
        show Function.update tm.activeImages img.id (some img) id' = some img'
        have hne : id' ≠ img.id := by
          intro heq
          rw [heq, hid, hact] at h'
          exact absurd h' (by simp)
        rw [Function.update_noteq hne]
        exact h'
      · intro hs id' img' h'
        have h'' : Function.update tm.activeImages img.id (some img) id' = some img' := h'
        by_cases heq : id' = img.id
        · rw [heq, Function.update_same] at h''
          have himg : img = img' := by simpa using h''
          rw [← himg, heq]
          exact ⟨List.mem_append_right _ (List.mem_singleton_self _), rfl⟩
        · rw [Function.update_noteq heq] at h''
          exact ⟨List.mem_append_left _ (hs id' img' h'').1, (hs id' img' h'').2⟩

/-- One step of the loop of `addTile` calls. -/
theorem addTiles_cons (s : Source) (r c : Int) (rest : List (Int × Int)) (tm : TileManager)
    (pane : List Tile) (vis : List TileId) :
    addTiles s ((r, c) :: rest) tm pane vis =
      match tm.addTile pane s r c with
      | .error e => ((tm, pane, vis), some e)
      | .ok (tileId, tm1, pane1) => addTiles s rest tm1 pane1 (tileId :: vis) := rfl

/-- A loop over two lists of cells is the loop over the first followed, unless that one
threw, by the loop over the second. -/
theorem addTiles_append (s : Source) (xs ys : List (Int × Int)) :
    ∀ (tm : TileManager) (pane : List Tile) (vis : List TileId),
      addTiles s (xs ++ ys) tm pane vis =
        match addTiles s xs tm pane vis with
        | (st, some e) => (st, some e)
        | ((tm1, pane1, vis1), none) => addTiles s ys tm1 pane1 vis1 := by
  induction xs with
  | nil => intro tm pane vis; rfl
  | cons x xs ih =>
    intro tm pane vis
    obtain ⟨r, c⟩ := x
    rw [List.cons_append, addTiles_cons, addTiles_cons]
    cases h : tm.addTile pane s r c with
    | error e => rfl
    | ok res =>
      obtain ⟨id, tm1, pane1⟩ := res
      exact ih tm1 pane1 (id :: vis)

/-- What a loop of `addTile` calls leaves, thrown or not: nothing but `activeImages` is
written in the manager, active tiles stay as they are, the pane only grows, tiles
and pane stay in step. -/
theorem addTiles_frame (s : Source) (cells : List (Int × Int)) :
    ∀ (tm tm' : TileManager) (pane pane' : List Tile) (vis vis' : List TileId)
      (oe : Option Err), addTiles s cells tm pane vis = ((tm', pane', vis'), oe) →
      tm' = { tm with activeImages := tm'.activeImages } ∧
      (∀ id img, tm.activeImages id = some img → tm'.activeImages id = some img) ∧
      (∃ added, pane' = pane ++ added) ∧
      (Synced tm pane → Synced tm' pane') := by
  induction cells with
  | nil =>
    intro tm tm' pane pane' vis vis' oe h
    simp only [addTiles, Prod.mk.injEq] at h
    obtain ⟨⟨rfl, rfl, rfl⟩, _⟩ := h
    exact ⟨rfl, fun _ _ h => h, ⟨[], (List.append_nil _).symm⟩, fun h => h⟩
  | cons x xs ih =>
    intro tm tm' pane pane' vis vis' oe h
    obtain ⟨r, c⟩ := x
    rw [addTiles_cons] at h
    cases hadd : tm.addTile pane s r c with
    | error e =>
      simp only [hadd, Prod.mk.injEq] at h
      obtain ⟨⟨rfl, rfl, rfl⟩, _⟩ := h
      exact ⟨rfl, fun _ _ h => h, ⟨[], (List.append_nil _).symm⟩, fun h => h⟩
    | ok res =>
      obtain ⟨id, tm1, pane1⟩ := res
      simp only [hadd] at h
      obtain ⟨_, hg1, _, hm1, ⟨a1, hp1⟩, hs1⟩ :=
        TileManager.addTile_ok tm tm1 pane pane1 s r c id hadd
      obtain ⟨hg2, hm2, ⟨a2, hp2⟩, hs2⟩ := ih tm1 tm' pane1 pane' (id :: vis) vis' oe h
      refine ⟨?_, fun id' img h' => hm2 id' img (hm1 id' img h'), ⟨a1 ++ a2, ?_⟩,
        fun hsync => hs2 (hs1 hsync)⟩
      · rw [hg2, hg1]
      · rw [hp2, hp1, List.append_assoc]

/-- A loop of `addTile` calls that does not throw: every cell is active afterwards and
the ids recorded are those of the cells, last first. -/
theorem addTiles_none (s : Source) (cells : List (Int × Int)) :
    ∀ (tm tm' : TileManager) (pane pane' : List Tile) (vis vis' : List TileId),
      addTiles s cells tm pane vis = ((tm', pane', vis'), none) →
      vis' = (cellIds tm cells).reverse ++ vis ∧
      ∀ cell ∈ cells, ∃ img, tm'.activeImages (tm.tileId cell.1 cell.2) = some img := by
  induction cells with
  | nil =>
    intro tm tm' pane pane' vis vis' h
    simp only [addTiles, Prod.mk.injEq, and_true] at h
    obtain ⟨rfl, rfl, rfl⟩ := h
    exact ⟨rfl, fun _ h => absurd h (List.not_mem_nil _)⟩
  | cons x xs ih =>
    intro tm tm' pane pane' vis vis' h
    obtain ⟨r, c⟩ := x
    rw [addTiles_cons] at h
    cases hadd : tm.addTile pane s r c with
    | error e =>
      simp only [hadd, Prod.mk.injEq] at h
      exact absurd h.2 (by simp)
    | ok res =>
      obtain ⟨id, tm1, pane1⟩ := res
      simp only [hadd] at h
      obtain ⟨hid, hg1, ⟨img, hact⟩, _, _, _⟩ :=
        TileManager.addTile_ok tm tm1 pane pane1 s r c id hadd
      obtain ⟨hvis, hall⟩ := ih tm1 tm' pane1 pane' (id :: vis) vis' h
      obtain ⟨_, hm2, _, _⟩ := addTiles_frame s xs tm1 tm' pane1 pane' (id :: vis) vis' none h
      have hsame : ∀ r' c', tm1.tileId r' c' = tm.tileId r' c' := by
        intro r' c'
        rw [hg1]
        rfl
      have hids : cellIds tm1 xs = cellIds tm xs := by
        unfold cellIds
        exact List.map_congr_left (fun cell _ => hsame cell.1 cell.2)
      refine ⟨?_, ?_⟩
      · rw [hvis, hids, hid]
        simp [cellIds]
      · intro cell hcell
        rcases List.mem_cons.mp hcell with rfl | hmem
        · exact ⟨img, by rw [← hid]; exact hm2 id img hact⟩
        · obtain ⟨img', h'⟩ := hall cell hmem
          exact ⟨img', by rw [← hsame]; exact h'⟩

/-- A loop of `addTile` calls over cells that are all active changes nothing and records
their ids. -/
theorem addTiles_active (s : Source) (cells : List (Int × Int)) (tm : TileManager)
    (pane : List Tile) :
    ∀ (vis : List TileId),
      (∀ cell ∈ cells, ∃ img, tm.activeImages (tm.tileId cell.1 cell.2) = some img) →
      addTiles s cells tm pane vis = ((tm, pane, (cellIds tm cells).reverse ++ vis), none) := by
  induction cells with
  | nil => intro vis _; rfl
  | cons x xs ih =>
    intro vis hall
    obtain ⟨r, c⟩ := x
    obtain ⟨img, hact⟩ := hall (r, c) (List.mem_cons_self _ _)
    rw [addTiles_cons, TileManager.addTile_active tm pane s r c img hact]
    simp only
    rw [ih (tm.tileId r c :: vis) (fun cell h => hall cell (List.mem_cons_of_mem _ h))]
    simp [cellIds]

/-- A loop of `addTile` calls that throws: it has gone through the cells before one cell
without a throw, and `addTile` throws at that cell in the state reached. -/
theorem addTiles_some (s : Source) (cells : List (Int × Int)) :
    ∀ (tm tm' : TileManager) (pane pane' : List Tile) (vis vis' : List TileId) (e : Err),
      addTiles s cells tm pane vis = ((tm', pane', vis'), some e) →
      ∃ (pre post : List (Int × Int)) (cell : Int × Int), cells = pre ++ cell :: post ∧
        addTiles s pre tm pane vis = ((tm', pane', vis'), none) ∧
        tm'.addTile pane' s cell.1 cell.2 = .error e := by
  induction cells with
  | nil =>
    intro tm tm' pane pane' vis vis' e h
    simp only [addTiles, Prod.mk.injEq] at h
    exact absurd h.2 (by simp)
  | cons x xs ih =>
    intro tm tm' pane pane' vis vis' e h
    obtain ⟨r, c⟩ := x
    rw [addTiles_cons] at h
    cases hadd : tm.addTile pane s r c with
    | error e' =>
      simp only [hadd, Prod.mk.injEq, Option.some.injEq] at h
      obtain ⟨⟨rfl, rfl, rfl⟩, rfl⟩ := h
      exact ⟨[], xs, (r, c), rfl, rfl, hadd⟩
    | ok res =>
      obtain ⟨id, tm1, pane1⟩ := res
      simp only [hadd] at h
      obtain ⟨pre, post, cell, hcells, hpre, hfail⟩ := ih tm1 tm' pane1 pane' (id :: vis) vis' e h
      refine ⟨(r, c) :: pre, post, cell, by rw [hcells]; rfl, ?_, hfail⟩
      rw [addTiles_cons, hadd]
      exact hpre

/-- The loop that removes the tiles that are not marked visible, started on a pane that
ends with the tiles still to visit: it keeps the marked tiles, writes nothing but
`activeImages`, leaves the entries of marked ids alone and clears no other entry than
those of the tiles it removes. -/
theorem removeHidden_spec (vis : List TileId) (rest : List Tile) :
    ∀ (pre : List Tile) (tm : TileManager),
      (removeHidden vis rest tm (pre.filter (fun img => decide (img.id ∈ vis)) ++ rest)).2
        = pre.filter (fun img => decide (img.id ∈ vis))
          ++ rest.filter (fun img => decide (img.id ∈ vis)) ∧
      (removeHidden vis rest tm (pre.filter (fun img => decide (img.id ∈ vis)) ++ rest)).1
        = { tm with activeImages :=
            (removeHidden vis rest tm
              (pre.filter (fun img => decide (img.id ∈ vis)) ++ rest)).1.activeImages } ∧
      (∀ id ∈ vis,
        (removeHidden vis rest tm
          (pre.filter (fun img => decide (img.id ∈ vis)) ++ rest)).1.activeImages id
          = tm.activeImages id) ∧
      (∀ id img,
        (removeHidden vis rest tm
          (pre.filter (fun img => decide (img.id ∈ vis)) ++ rest)).1.activeImages id = some img →
        tm.activeImages id = some img ∧ (id ∈ vis ∨ ∀ x ∈ rest, x.id ≠ id)) := by
  induction rest with
  | nil =>
    intro pre tm
    simp [removeHidden]
  | cons x xs ih =>
    intro pre tm
    by_cases hx : x.id ∈ vis
    · have hstep : removeHidden vis (x :: xs) tm
          (pre.filter (fun img => decide (img.id ∈ vis)) ++ x :: xs)
          = removeHidden vis xs tm
            ((pre ++ [x]).filter (fun img => decide (img.id ∈ vis)) ++ xs) := by
        simp [removeHidden, hx, List.filter_append]
      have hfx : (x :: xs).filter (fun img => decide (img.id ∈ vis))
          = x :: xs.filter (fun img => decide (img.id ∈ vis)) := by
        simp [List.filter_cons, hx]
      obtain ⟨h1, h2, h3, h4⟩ := ih (pre ++ [x]) tm
      rw [hstep]
      refine ⟨?_, h2, h3, ?_⟩
      · rw [h1, hfx]
        simp [List.filter_append, hx]
      · intro id img hact
        obtain ⟨ha, hb⟩ := h4 id img hact
        refine ⟨ha, ?_⟩
        rcases hb with hb | hb
        · exact Or.inl hb
        · by_cases hid : id ∈ vis
          · exact Or.inl hid
          · right
            intro y hy
            rcases List.mem_cons.mp hy with rfl | hy'
            · intro heq
              rw [heq] at hx
              exact hid hx
            · exact hb y hy'
    · have hnot : x ∉ pre.filter (fun img => decide (img.id ∈ vis)) := by
        intro hmem
        have := (List.mem_filter.mp hmem).2
        simp only [decide_eq_true_eq] at this
        exact hx this
      have herase : (pre.filter (fun img => decide (img.id ∈ vis)) ++ x :: xs).erase x
          = (pre ++ [x]).filter (fun img => decide (img.id ∈ vis)) ++ xs := by
        rw [List.erase_append_right _ hnot, List.erase_cons_head]
        simp [List.filter_append, hx]
      have hstep : removeHidden vis (x :: xs) tm
          (pre.filter (fun img => decide (img.id ∈ vis)) ++ x :: xs)
          = removeHidden vis xs
            { tm with activeImages := Function.update tm.activeImages x.id none }
            ((pre ++ [x]).filter (fun img => decide (img.id ∈ vis)) ++ xs) := by
        simp only [removeHidden, List.foldl_cons, hx, if_false, TileManager.removeTile]
        rw [herase]
      have hfx : (x :: xs).filter (fun img => decide (img.id ∈ vis))
          = xs.filter (fun img => decide (img.id ∈ vis)) := by
        simp [List.filter_cons, hx]
      obtain ⟨h1, h2, h3, h4⟩ := ih (pre ++ [x])
        { tm with activeImages := Function.update tm.activeImages x.id none }
      rw [hstep]
      refine ⟨?_, ?_, ?_, ?_⟩
      · rw [h1, hfx]
        simp [List.filter_append, hx]
      · rw [h2]
      · intro id hid
        rw [h3 id hid]
        have hne : id ≠ x.id := by
          intro heq
          rw [heq] at hid
          exact hx hid
        exact Function.update_noteq hne _ _
      · intro id img hact
        obtain ⟨ha, hb⟩ := h4 id img hact
        have ha' : Function.update tm.activeImages x.id none id = some img := ha
        have hne : id ≠ x.id := by
          intro heq
          rw [heq, Function.update_same] at ha'
          exact absurd ha' (by simp)
        rw [Function.update_noteq hne] at ha'
        refine ⟨ha', ?_⟩
        rcases hb with hb | hb
        · exact Or.inl hb
        · right
          intro y hy
          rcases List.mem_cons.mp hy with rfl | hy'
          · exact fun heq => hne heq.symm
          · exact hb y hy'

/-- The removal loop over the whole pane keeps exactly the tiles marked visible. -/
theorem removeHidden_pane (vis : List TileId) (tm : TileManager) (pane : List Tile) :
    (removeHidden vis pane tm pane).2 = pane.filter (fun img => decide (img.id ∈ vis)) ∧
    (removeHidden vis pane tm pane).1
      = { tm with activeImages := (removeHidden vis pane tm pane).1.activeImages } ∧
    (∀ id ∈ vis, (removeHidden vis pane tm pane).1.activeImages id = tm.activeImages id) ∧
    (∀ id img, (removeHidden vis pane tm pane).1.activeImages id = some img →
      tm.activeImages id = some img ∧ (id ∈ vis ∨ ∀ x ∈ pane, x.id ≠ id)) := by
  have h := removeHidden_spec vis pane [] tm
  simp only [List.filter_nil, List.nil_append] at h
  exact h

/-- The removal loop over a pane whose tiles are all marked visible changes nothing. -/
theorem removeHidden_noop (vis : List TileId) (all : List Tile) (tm : TileManager)
    (pane : List Tile) (h : ∀ img ∈ all, img.id ∈ vis) :
    removeHidden vis all tm pane = (tm, pane) := by
  induction all with
  | nil => rfl
  | cons x xs ih =>
    have hx : x.id ∈ vis := h x (List.mem_cons_self _ _)
    have hstep : removeHidden vis (x :: xs) tm pane = removeHidden vis xs tm pane := by
      simp [removeHidden, hx]
    rw [hstep]
    exact ih (fun img hmem => h img (List.mem_cons_of_mem _ hmem))

/-- The removal loop keeps tiles and pane in step. -/
theorem removeHidden_synced (vis : List TileId) (tm : TileManager) (pane : List Tile)
    (hs : Synced tm pane) :
    Synced (removeHidden vis pane tm pane).1 (removeHidden vis pane tm pane).2 := by
  obtain ⟨h1, _, _, h4⟩ := removeHidden_pane vis tm pane
  intro id img hact
  obtain ⟨ha, hb⟩ := h4 id img hact
  obtain ⟨hmem, hid⟩ := hs id img ha
  rw [h1]
  refine ⟨List.mem_filter.mpr ⟨hmem, ?_⟩, hid⟩
  rcases hb with hb | hb
  · rw [hid]
    exact decide_eq_true hb
  · exact absurd hid (hb img hmem)

/-- On a ready source, the part of `paint` after the test of `changed` is one loop of
`addTile` calls over the cells of the two loops, followed, unless a call threw, by the
removal loop. -/
theorem TziLayer.paintTiles_eq (L : TziLayer) (hr : L.m_tziSource.m_ready = true) :
    L.paintTiles =
      match addTiles L.m_tziSource
        (visibleCells L.m_visibleArea ++ bufferCells L.m_visibleArea
          (L.m_tziSource.m_currentLayer.nRows - 1) (L.m_tziSource.m_currentLayer.nCols - 1))
        L.m_tileManager L.paneImgs [] with
      | ((tm, pane, _), some e) =>
        ({ L with display := Display.hidden, m_tileManager := tm, paneImgs := pane }, some e)
      | ((tm, pane, vis), none) =>
        ({ L with m_tileManager := (removeHidden vis pane tm pane).1,
                  paneImgs := (removeHidden vis pane tm pane).2,
                  display := Display.block }, none) := by
  rw [addTiles_append]
  simp only [TziLayer.paintTiles, getNumberOfRows, getNumberOfCols, checkReady, hr, if_true]
  rcases hv : addTiles L.m_tziSource (visibleCells L.m_visibleArea) L.m_tileManager
    L.paneImgs [] with ⟨⟨tm1, pane1, vis1⟩, oe⟩
  cases oe with
  | some e => rfl
  | none => rfl

/-! ## The paint pass -/

/-- Without a level argument `getTileUrl` takes the current level. -/
theorem getTileUrl_current (s : Source) (r c : Int) :
    getTileUrl s r c none = getTileUrl s r c (some s.m_currentLayer.ix) := rfl

/-- On a source whose `m_currentLayer` carries the grid of its level, every tile of the
grid has a url. -/
theorem getTileUrl_in_grid (s : Source) (r c : Int) (hg : s.GridCurrent)
    (hr0 : 0 ≤ r) (hr1 : r < s.m_currentLayer.nRows)
    (hc0 : 0 ≤ c) (hc1 : c < s.m_currentLayer.nCols) :
    ∃ url, getTileUrl s r c none = .ok url := by
  obtain ⟨hr, layers, layer, hl, hi, hrows, hcols⟩ := hg
  refine ⟨s.ext.getTileUrl r c s.m_currentLayer.ix, ?_⟩
  rw [getTileUrl_current, getTileUrl_ok_iff s layers r c s.m_currentLayer.ix _ hr hl]
  exact ⟨⟨layer, hi, hr0, by rw [hrows]; exact hr1, hc0, by rw [hcols]; exact hc1⟩, rfl⟩

/-- A loop of `addTile` calls over cells that all have a url does not throw. -/
theorem addTiles_of_urls (s : Source) (cells : List (Int × Int)) :
    ∀ (tm : TileManager) (pane : List Tile) (vis : List TileId),
      (∀ cell ∈ cells, ∃ url, getTileUrl s cell.1 cell.2 none = .ok url) →
      ∃ tm' pane' vis', addTiles s cells tm pane vis = ((tm', pane', vis'), none) := by
  induction cells with
  | nil => intro tm pane vis _; exact ⟨tm, pane, vis, rfl⟩
  | cons x xs ih =>
    intro tm pane vis hall
    obtain ⟨r, c⟩ := x
    obtain ⟨url, hurl⟩ := hall (r, c) (List.mem_cons_self _ _)
    have hrest : ∀ cell ∈ xs, ∃ url, getTileUrl s cell.1 cell.2 none = .ok url :=
      fun cell h => hall cell (List.mem_cons_of_mem _ h)
    rw [addTiles_cons]
    cases hact : tm.activeImages (tm.tileId r c) with
    | some img =>
      rw [TileManager.addTile_active tm pane s r c img hact]
      exact ih tm pane _ hrest
    | none =>
      rw [TileManager.addTile_new tm pane s r c _ hact
        (TileManager.newTile_of_url tm s r c url hurl)]
      exact ih _ _ _ hrest

/-- Two cells with the same tile id are the same cell. -/
theorem TileManager.tileId_inj (tm : TileManager) (r c r' c' : Int)
    (h : tm.tileId r c = tm.tileId r' c') : r = r' ∧ c = c' := by
  simp only [TileManager.tileId, TileId.mk.injEq, true_and] at h
  exact h

/-- A manager in which only `activeImages` was written computes the same tile ids. -/
theorem cellIds_congr (tm tm' : TileManager) (cells : List (Int × Int))
    (h : tm' = { tm with activeImages := tm'.activeImages }) :
    cellIds tm' cells = cellIds tm cells ∧ ∀ r c, tm'.tileId r c = tm.tileId r c := by
  have hsame : ∀ r c, tm'.tileId r c = tm.tileId r c := by
    intro r c
    rw [h]
    rfl
  refine ⟨?_, hsame⟩
  unfold cellIds
  exact List.map_congr_left (fun cell _ => hsame cell.1 cell.2)

/-- When the source is ready and `calcVisible` reports a change, `paint` stores the new
visible area and goes on to add and remove tiles. -/
theorem TziLayer.paint_changed (L : TziLayer) (frame pane : Option Region) (th tw : ℚ)
    (hr : L.m_tziSource.m_ready = true)
    (hch : (calcVisible frame pane th tw L.m_tziSource.m_currentLayer.nRows
      L.m_tziSource.m_currentLayer.nCols L.m_visibleArea false).changed = true) :
    L.paint frame pane th tw =
      ({ L with display := Display.block,
                m_visibleArea := calcVisible frame pane th tw
                  L.m_tziSource.m_currentLayer.nRows L.m_tziSource.m_currentLayer.nCols
                  L.m_visibleArea false } : TziLayer).paintTiles := by
  simp only [TziLayer.paint, isReady, getNumberOfRows, getNumberOfCols, checkReady, hr, if_true,
    hch]
  simp

/-- The pass of `paint` over a visible range inside the grid, columns in order, on a
source whose `m_currentLayer` carries the grid and a pane in step with the tiles:
no throw, the pane shown, and the live tiles exactly those of the range widened by
one and clipped to the grid. -/
theorem TziLayer.paintTiles_rectangle (L : TziLayer) (hg : L.m_tziSource.GridCurrent)
    (hs : Synced L.m_tileManager L.paneImgs)
    (hr0 : 0 ≤ L.m_visibleArea.rows.start)
    (hr2 : L.m_visibleArea.rows.end_ ≤ L.m_tziSource.m_currentLayer.nRows - 1)
    (hc0 : 0 ≤ L.m_visibleArea.cols.start)
    (hc1 : L.m_visibleArea.cols.start ≤ L.m_visibleArea.cols.end_)
    (hc2 : L.m_visibleArea.cols.end_ ≤ L.m_tziSource.m_currentLayer.nCols - 1) :
    L.paintTiles.2 = none ∧ L.paintTiles.1.display = Display.block ∧
    L.paintTiles.1.m_visibleArea = L.m_visibleArea ∧
    L.paintTiles.1.m_tziSource = L.m_tziSource ∧
    Synced L.paintTiles.1.m_tileManager L.paintTiles.1.paneImgs ∧
    (∀ img ∈ L.paintTiles.1.paneImgs, ∃ r c, img.id = L.m_tileManager.tileId r c) ∧
    (∀ r c, (∃ img ∈ L.paintTiles.1.paneImgs, img.id = L.m_tileManager.tileId r c) ↔
      (max 0 (L.m_visibleArea.rows.start - 1) ≤ r ∧
        r ≤ min (L.m_tziSource.m_currentLayer.nRows - 1) (L.m_visibleArea.rows.end_ + 1)) ∧
      (max 0 (L.m_visibleArea.cols.start - 1) ≤ c ∧
        c ≤ min (L.m_tziSource.m_currentLayer.nCols - 1) (L.m_visibleArea.cols.end_ + 1))) := by
  have hmem := fun r c => mem_paintCells L.m_visibleArea L.m_tziSource.m_currentLayer.nRows
    L.m_tziSource.m_currentLayer.nCols r c hr0 hr2 hc0 hc1 hc2
  have hurls : ∀ cell ∈ visibleCells L.m_visibleArea ++ bufferCells L.m_visibleArea
      (L.m_tziSource.m_currentLayer.nRows - 1) (L.m_tziSource.m_currentLayer.nCols - 1),
      ∃ url, getTileUrl L.m_tziSource cell.1 cell.2 none = .ok url := by
    intro cell hcell
    obtain ⟨⟨h1, h2⟩, h3, h4⟩ := (hmem cell.1 cell.2).mp hcell
    have h1' : (0 : Int) ≤ cell.1 := le_trans (le_max_left _ _) h1
    have h2' : cell.1 ≤ L.m_tziSource.m_currentLayer.nRows - 1 := le_trans h2 (min_le_left _ _)
    have h3' : (0 : Int) ≤ cell.2 := le_trans (le_max_left _ _) h3
    have h4' : cell.2 ≤ L.m_tziSource.m_currentLayer.nCols - 1 := le_trans h4 (min_le_left _ _)
    exact getTileUrl_in_grid L.m_tziSource cell.1 cell.2 hg h1' (by omega) h3' (by omega)
  obtain ⟨tm2, pane2, vis2, hadd⟩ := addTiles_of_urls L.m_tziSource _ L.m_tileManager
    L.paneImgs [] hurls
  obtain ⟨hvis, hact⟩ := addTiles_none _ _ _ _ _ _ _ _ hadd
  obtain ⟨hgeo, _, _, hsync2⟩ := addTiles_frame _ _ _ _ _ _ _ _ _ hadd
  obtain ⟨hp, _, hkeep, _⟩ := removeHidden_pane vis2 tm2 pane2
  have hsync3 := removeHidden_synced vis2 tm2 pane2 (hsync2 hs)
  rw [TziLayer.paintTiles_eq L hg.1, hadd]
  simp only [List.append_nil] at hvis
  refine ⟨rfl, rfl, rfl, rfl, hsync3, ?_, ?_⟩
  · intro img himg
    have himg' : img ∈ (removeHidden vis2 pane2 tm2 pane2).2 := himg
    rw [hp] at himg'
    have hin := (List.mem_filter.mp himg').2
    simp only [decide_eq_true_eq] at hin
    rw [hvis, List.mem_reverse] at hin
    obtain ⟨cell, _, hcell⟩ := List.mem_map.mp hin
    exact ⟨cell.1, cell.2, hcell.symm⟩
  · intro r c
    rw [← hmem r c]
    constructor
    · rintro ⟨img, himg, hid⟩
      have himg' : img ∈ (removeHidden vis2 pane2 tm2 pane2).2 := himg
      rw [hp] at himg'
      have hin := (List.mem_filter.mp himg').2
      simp only [decide_eq_true_eq] at hin
      rw [hvis, List.mem_reverse, hid] at hin
      obtain ⟨cell, hcmem, hcell⟩ := List.mem_map.mp hin
      obtain ⟨h1, h2⟩ := TileManager.tileId_inj _ _ _ _ _ hcell
      have : cell = (r, c) := Prod.ext h1 h2
      rw [← this]
      exact hcmem
    · intro hcell
      obtain ⟨img, himg⟩ := hact (r, c) hcell
      obtain ⟨hin2, hid⟩ := hsync2 hs _ img himg
      have hvisible : L.m_tileManager.tileId r c ∈ vis2 := by
        rw [hvis, List.mem_reverse]
        exact List.mem_map.mpr ⟨(r, c), hcell, rfl⟩
      refine ⟨img, ?_, hid⟩
      show img ∈ (removeHidden vis2 pane2 tm2 pane2).2
      rw [hp]
      exact List.mem_filter.mpr ⟨hin2, by rw [hid]; exact decide_eq_true hvisible⟩

/-- A second pass of `paint` right after a first one, over the same visible area and
source, leaves the layer as the first pass left it and ends as the first ended. -/
theorem TziLayer.paintTiles_twice (L : TziLayer) (hr : L.m_tziSource.m_ready = true) :
    L.paintTiles.1.paintTiles = L.paintTiles := by
  rcases hadd : addTiles L.m_tziSource
    (visibleCells L.m_visibleArea ++ bufferCells L.m_visibleArea
      (L.m_tziSource.m_currentLayer.nRows - 1) (L.m_tziSource.m_currentLayer.nCols - 1))
    L.m_tileManager L.paneImgs [] with ⟨⟨tm2, pane2, vis2⟩, oe⟩
  cases oe with
  | some e =>
    have h1 : L.paintTiles =
        ({ L with display := Display.hidden, m_tileManager := tm2, paneImgs := pane2 },
          some e) := by
      rw [TziLayer.paintTiles_eq L hr, hadd]
    obtain ⟨pre, post, cell, hcells, hpre, hfail⟩ := addTiles_some _ _ _ _ _ _ _ _ _ hadd
    obtain ⟨hvis, hact⟩ := addTiles_none _ _ _ _ _ _ _ _ hpre
    obtain ⟨hgeo, _, _, _⟩ := addTiles_frame _ _ _ _ _ _ _ _ _ hpre
    obtain ⟨hids, hsame⟩ := cellIds_congr L.m_tileManager tm2 pre hgeo
    have hreplay : addTiles L.m_tziSource
        (visibleCells L.m_visibleArea ++ bufferCells L.m_visibleArea
          (L.m_tziSource.m_currentLayer.nRows - 1) (L.m_tziSource.m_currentLayer.nCols - 1))
        tm2 pane2 [] = ((tm2, pane2, vis2), some e) := by
      rw [hcells, addTiles_append,
        addTiles_active _ pre tm2 pane2 [] (fun c hc => by rw [hsame]; exact hact c hc),
        hids, ← hvis]
      obtain ⟨r, c⟩ := cell
      simp only [addTiles_cons, hfail]
    rw [h1]
    show TziLayer.paintTiles
      { L with display := Display.hidden, m_tileManager := tm2, paneImgs := pane2 } = _
    rw [TziLayer.paintTiles_eq
      { L with display := Display.hidden, m_tileManager := tm2, paneImgs := pane2 } hr]
    simp only [hreplay]
  | none =>
    have h1 : L.paintTiles = ({ L with
        m_tileManager := (removeHidden vis2 pane2 tm2 pane2).1,
        paneImgs := (removeHidden vis2 pane2 tm2 pane2).2,
        display := Display.block }, none) := by
      rw [TziLayer.paintTiles_eq L hr, hadd]
    obtain ⟨hvis, hact⟩ := addTiles_none _ _ _ _ _ _ _ _ hadd
    obtain ⟨hgeo, _, _, _⟩ := addTiles_frame _ _ _ _ _ _ _ _ _ hadd
    obtain ⟨hp, hgeo3, hkeep, _⟩ := removeHidden_pane vis2 tm2 pane2
    have hgeo' : (removeHidden vis2 pane2 tm2 pane2).1
        = { L.m_tileManager with
            activeImages := (removeHidden vis2 pane2 tm2 pane2).1.activeImages } := by
      rw [hgeo3, hgeo]
    obtain ⟨hids, hsame⟩ := cellIds_congr L.m_tileManager _
      (visibleCells L.m_visibleArea ++ bufferCells L.m_visibleArea
        (L.m_tziSource.m_currentLayer.nRows - 1) (L.m_tziSource.m_currentLayer.nCols - 1)) hgeo'
    simp only [List.append_nil] at hvis
    have hreplay : addTiles L.m_tziSource
        (visibleCells L.m_visibleArea ++ bufferCells L.m_visibleArea
          (L.m_tziSource.m_currentLayer.nRows - 1) (L.m_tziSource.m_currentLayer.nCols - 1))
        (removeHidden vis2 pane2 tm2 pane2).1 (removeHidden vis2 pane2 tm2 pane2).2 []
        = (((removeHidden vis2 pane2 tm2 pane2).1, (removeHidden vis2 pane2 tm2 pane2).2, vis2),
            none) := by
      rw [addTiles_active _ _ _ _ [] (fun c hc => by
        rw [hsame]
        obtain ⟨img, himg⟩ := hact c hc
        refine ⟨img, ?_⟩
        rw [hkeep _ (by
          rw [hvis, List.mem_reverse]
          exact List.mem_map.mpr ⟨c, hc, rfl⟩)]
        exact himg), hids, List.append_nil, ← hvis]
    have hnoop : removeHidden vis2 (removeHidden vis2 pane2 tm2 pane2).2
        (removeHidden vis2 pane2 tm2 pane2).1 (removeHidden vis2 pane2 tm2 pane2).2
        = ((removeHidden vis2 pane2 tm2 pane2).1, (removeHidden vis2 pane2 tm2 pane2).2) := by
      apply removeHidden_noop
      intro img himg
      rw [hp] at himg
      have hin := (List.mem_filter.mp himg).2
      simpa using hin
    rw [h1]
    show TziLayer.paintTiles
      { L with m_tileManager := (removeHidden vis2 pane2 tm2 pane2).1,
               paneImgs := (removeHidden vis2 pane2 tm2 pane2).2,
               display := Display.block } = _
    rw [TziLayer.paintTiles_eq
      { L with m_tileManager := (removeHidden vis2 pane2 tm2 pane2).1,
               paneImgs := (removeHidden vis2 pane2 tm2 pane2).2,
               display := Display.block } hr]
    simp only [hreplay, hnoop]

/-- A pass of `paint` that throws: `addTile` threw at one cell after the cells before it
had gone through; the layer is in the state of that moment, with every tile that
was in the pane still there, every active tile still active and the pane hidden. -/
theorem TziLayer.paintTiles_thrown (L : TziLayer) (e : Err)
    (hr : L.m_tziSource.m_ready = true) (h : L.paintTiles.2 = some e) :
    ∃ (pre post : List (Int × Int)) (cell : Int × Int) (vis : List TileId),
      visibleCells L.m_visibleArea ++ bufferCells L.m_visibleArea
        (L.m_tziSource.m_currentLayer.nRows - 1) (L.m_tziSource.m_currentLayer.nCols - 1)
        = pre ++ cell :: post ∧
      addTiles L.m_tziSource pre L.m_tileManager L.paneImgs []
        = ((L.paintTiles.1.m_tileManager, L.paintTiles.1.paneImgs, vis), none) ∧
      L.paintTiles.1.m_tileManager.addTile L.paintTiles.1.paneImgs L.m_tziSource cell.1 cell.2
        = .error e ∧
      (∃ added, L.paintTiles.1.paneImgs = L.paneImgs ++ added) ∧
      (∀ id img, L.m_tileManager.activeImages id = some img →
        L.paintTiles.1.m_tileManager.activeImages id = some img) ∧
      L.paintTiles.1.display = Display.hidden := by
  rcases hadd : addTiles L.m_tziSource
    (visibleCells L.m_visibleArea ++ bufferCells L.m_visibleArea
      (L.m_tziSource.m_currentLayer.nRows - 1) (L.m_tziSource.m_currentLayer.nCols - 1))
    L.m_tileManager L.paneImgs [] with ⟨⟨tm2, pane2, vis2⟩, oe⟩
  cases oe with
  | none =>
    rw [TziLayer.paintTiles_eq L hr, hadd] at h
    exact absurd h (by simp)
  | some e' =>
    have h1 : L.paintTiles =
        ({ L with display := Display.hidden, m_tileManager := tm2, paneImgs := pane2 },
          some e') := by
      rw [TziLayer.paintTiles_eq L hr, hadd]
    rw [h1] at h
    simp only [Option.some.injEq] at h
    subst h
    obtain ⟨pre, post, cell, hcells, hpre, hfail⟩ := addTiles_some _ _ _ _ _ _ _ _ _ hadd
    obtain ⟨_, hm, hadded, _⟩ := addTiles_frame _ _ _ _ _ _ _ _ _ hpre
    rw [h1]
    exact ⟨pre, post, cell, vis2, hcells, hpre, hfail, hadded, hm, rfl⟩

/-! ## The sample layers -/

/-- On `pyramidSource`, `setRatio(1.0)` gives `fullSizeSource`. -/
theorem pyramidSource_setRatio_one : setRatio pyramidSource (some 1) = .ok (1, fullSizeSource) := by
  have hc : jsIndex pyramidLayers 2
      = some { ratio := 1 / 4, w := 250, h := 200, nRows := 1, nCols := 1 } := rfl
  have hi : jsIndex pyramidLayers 0
      = some { ratio := 1, w := 1000, h := 800, nRows := 4, nCols := 4 } := rfl
  have hf : findClosestLevel pyramidSource 1 = .ok 0 := by
    rw [pyramidSource_eq]
    simp only [findClosestLevel, hc]
    norm_num [closestScan, pyramidLayers, abs_div, abs_neg]
  have hset := setRatio_of_findClosestLevel pyramidSource pyramidLayers 1 0 _
    (by rw [pyramidSource_eq]) (by rw [pyramidSource_eq]) hf hi
  have hfs : applyCall pyramidSource (.setRatio (some 1))
      = (match setRatio pyramidSource (some 1) with
        | .ok (_, s') => s'
        | .error _ => pyramidSource) := rfl
  unfold fullSizeSource
  rw [hfs, hset]

/-- The state of `fullSizeLayer`. -/
theorem fullSizeLayer_eq :
    fullSizeLayer = { m_tziSource := fullSizeSource, m_tileManager := fullSizeManager } := by
  have hr : pyramidSource.m_ready = true := by rw [pyramidSource_eq]
  simp only [fullSizeLayer, TziLayer.reset, TziLayer.init, isReady, hr,
    pyramidSource_setRatio_one, fullSizeManager_eq]
  rfl

/-- The source `fullSizeSource` carries the 4 x 4 grid of its level 0. -/
theorem fullSizeSource_gridCurrent : fullSizeSource.GridCurrent := by
  rw [fullSizeSource_eq]
  exact ⟨rfl, pyramidLayers, { ratio := 1, w := 1000, h := 800, nRows := 4, nCols := 4 },
    rfl, rfl, rfl, rfl⟩

/-- The state of `stripSource`: ready, level 0 at ratio `1.0`, a 4 x 4 grid. -/
theorem stripSource_eq :
    stripSource =
      { ext := .api "http://host/api" "strip", m_ready := true,
        m_name := some "strip", m_width := some 1024, m_height := some 256,
        m_layers := some [{ ratio := 1, w := 1024, h := 256, nRows := 4, nCols := 4 }],
        m_tileWidth := some 256, m_tileHeight := some 64,
        m_currentLayer := { ix := 0, ratio := 1, adjust := 1, w := 1024, h := 256,
                            nRows := 4, nCols := 4 },
        fired := [Notice.ready], pending := 0 } := by
  simp [stripSource, run, step, configure, configureSuccess, Source.init, setLevel,
    checkReady, stripJson, jsIndex, fireReady, Ext.processJSON, undeclared]

/-- On `stripSource`, `setRatio(1.0)` changes nothing. -/
theorem stripSource_setRatio_one : setRatio stripSource (some 1) = .ok (1, stripSource) := by
  have hi : jsIndex [({ ratio := 1, w := 1024, h := 256, nRows := 4, nCols := 4 } : FixedLayer)] 0
      = some { ratio := 1, w := 1024, h := 256, nRows := 4, nCols := 4 } := rfl
  have hf : findClosestLevel stripSource 1 = .ok 0 := by
    rw [stripSource_eq]
    simp only [findClosestLevel, hi]
    norm_num [closestScan]
  have hset := setRatio_of_findClosestLevel stripSource _ 1 0 _
    (by rw [stripSource_eq]) (by rw [stripSource_eq]) hf hi
  rw [hset, stripSource_eq]
  simp only [div_one, mul_one, Except.ok.injEq, Prod.mk.injEq, Source.mk.injEq,
    CurrentLayer.mk.injEq, true_and, and_true]
  exact ⟨jsRound_intCast 1024, jsRound_intCast 256⟩

/-- On `stripSource` a new tile manager computes the geometry `stripManager`: tiles of
256 x 64 and, the image being 4 tiles wide and high exactly, edges of 0. -/
theorem stripManager_eq :
    ({ id := "tzilayer_2" } : TileManager).update stripSource = .ok stripManager := by
  have h64 : jsRound (64 : ℚ) = 64 := by
    unfold jsRound
    rw [Int.floor_eq_iff]
    norm_num
  rw [TileManager.update_of_ne _ _ (by rw [stripSource_eq])
    (by rw [stripSource_eq]; norm_num)]
  rw [stripSource_eq]
  simp [stripManager, jsRound_256, h64, jsMod]
  decide

/-- The state of `stripLayer`. -/
theorem stripLayer_eq :
    stripLayer = { m_tziSource := stripSource, m_tileManager := stripManager } := by
  have hr : stripSource.m_ready = true := by rw [stripSource_eq]
  simp only [stripLayer, TziLayer.reset, TziLayer.init, isReady, hr,
    stripSource_setRatio_one, stripManager_eq]
  rfl

/-- The visible area for the 300 x 100 frame 600 pixels into the strip pane with tiles
256 wide and 64 high: the start column is `floor(600 / 64) = 9`, beyond the 4 columns
of the grid. -/
theorem calcVisible_strip :
    calcVisible (some stripFrame) (some stripPane) 64 256 4 4 {} false = stripArea := by
  have f0 : ⌊(stripFrame.left - stripPane.left) / (64 : ℚ)⌋ = 9 := by
    rw [Int.floor_eq_iff]; norm_num [stripFrame, stripPane]
  have f1 : ⌊(stripFrame.top - stripPane.top) / (256 : ℚ)⌋ = 0 := by
    rw [Int.floor_eq_iff]; norm_num [stripFrame, stripPane]
  have c0 : ⌈(stripFrame.right - stripFrame.left) / (256 : ℚ)⌉ = 2 := by
    rw [Int.ceil_eq_iff]; norm_num [stripFrame]
  have c1 : ⌈(stripFrame.bottom - stripFrame.top) / (64 : ℚ)⌉ = 2 := by
    rw [Int.ceil_eq_iff]; norm_num [stripFrame]
  rw [calcVisible_recomputed _ _ _ _ _ _ _ _ (Or.inl (by rw [f0]; decide)), f0, f1, c0, c1]
  rfl

/-- The cells of the pass over `stripArea`: none is visible, and the buffer loop starts
with column 8. -/
theorem stripArea_cells :
    visibleCells stripArea ++ bufferCells stripArea (4 - 1) (4 - 1)
      = [(1, 8), (1, 3), (2, 8), (2, 3)] := by
  decide

/-- The strip source has no tile (1, 8). -/
theorem stripSource_no_tile : getTileUrl stripSource 1 8 none = .error .tileRange := by
  rw [stripSource_eq]
  simp [getTileUrl, checkReady, gtFunctionObject, jsIndex]

/-- The pass of `paint` over `stripArea`: the first call, `addTile(1, 8)`, throws, and the
pass ends with an empty, hidden pane. -/
theorem stripPainting_paintTiles :
    stripPainting.paintTiles = ({ stripPainting with display := Display.hidden },
      some Err.tileRange) := by
  have hr : stripPainting.m_tziSource.m_ready = true := by
    simp only [stripPainting, stripLayer_eq]
    rw [stripSource_eq]
  rw [TziLayer.paintTiles_eq stripPainting hr]
  have hcells : visibleCells stripPainting.m_visibleArea ++
      bufferCells stripPainting.m_visibleArea
        (stripPainting.m_tziSource.m_currentLayer.nRows - 1)
        (stripPainting.m_tziSource.m_currentLayer.nCols - 1)
      = [(1, 8), (1, 3), (2, 8), (2, 3)] := by
    have h4 : stripPainting.m_tziSource.m_currentLayer.nRows = 4 ∧
        stripPainting.m_tziSource.m_currentLayer.nCols = 4 := by
      simp only [stripPainting, stripLayer_eq]
      rw [stripSource_eq]
      exact ⟨rfl, rfl⟩
    rw [h4.1, h4.2]
    exact stripArea_cells
  have hfail : stripPainting.m_tileManager.addTile stripPainting.paneImgs
      stripPainting.m_tziSource 1 8 = .error .tileRange := by
    apply TileManager.addTile_error
    · simp only [stripPainting, stripLayer_eq]
      rfl
    · simp only [stripPainting, stripLayer_eq, TileManager.newTile, stripSource_no_tile]
  rw [hcells, addTiles_cons, hfail]

/-! ## Claims about `paint` -/

/-- C13. On a ready source whose `m_currentLayer` carries the grid of its level, with the
pane in step with the active tiles: when `calcVisible` reports a changed range with
`0 ≤ rows.start`, `rows.end ≤ numRows - 1` and `0 ≤ cols.start ≤ cols.end ≤ numCols - 1`,
`paint()` does not throw, shows the pane, and the tiles live afterwards are exactly
those of rows `max(0, rows.start - 1) .. min(numRows - 1, rows.end + 1)` and columns
`max(0, cols.start - 1) .. min(numCols - 1, cols.end + 1)`: each of them is in the pane
and the pane holds no other tile.  The order of `rows.start` and `rows.end` is not
needed. -/
theorem paint_live_rectangle (L : TziLayer) (frame pane : Option Region) (th tw : ℚ)
    (va : VisibleArea) (hg : L.m_tziSource.GridCurrent)
    (hs : Synced L.m_tileManager L.paneImgs)
    (hva : calcVisible frame pane th tw L.m_tziSource.m_currentLayer.nRows
      L.m_tziSource.m_currentLayer.nCols L.m_visibleArea false = va)
    (hch : va.changed = true)
    (hr0 : 0 ≤ va.rows.start) (hr2 : va.rows.end_ ≤ L.m_tziSource.m_currentLayer.nRows - 1)
    (hc0 : 0 ≤ va.cols.start) (hc1 : va.cols.start ≤ va.cols.end_)
    (hc2 : va.cols.end_ ≤ L.m_tziSource.m_currentLayer.nCols - 1) :
    (L.paint frame pane th tw).2 = none ∧
    (L.paint frame pane th tw).1.display = Display.block ∧
    (L.paint frame pane th tw).1.m_visibleArea = va ∧
    Synced (L.paint frame pane th tw).1.m_tileManager (L.paint frame pane th tw).1.paneImgs ∧
    (∀ img ∈ (L.paint frame pane th tw).1.paneImgs,
      ∃ r c, img.id = L.m_tileManager.tileId r c) ∧
    (∀ r c, (∃ img ∈ (L.paint frame pane th tw).1.paneImgs,
        img.id = L.m_tileManager.tileId r c) ↔
      (max 0 (va.rows.start - 1) ≤ r ∧
        r ≤ min (L.m_tziSource.m_currentLayer.nRows - 1) (va.rows.end_ + 1)) ∧
      (max 0 (va.cols.start - 1) ≤ c ∧
        c ≤ min (L.m_tziSource.m_currentLayer.nCols - 1) (va.cols.end_ + 1))) := by
  rw [TziLayer.paint_changed L frame pane th tw hg.1 (by rw [hva]; exact hch), hva]
  obtain ⟨h1, h2, h3, _, h5, h6, h7⟩ := TziLayer.paintTiles_rectangle
    { L with display := Display.block, m_visibleArea := va } hg hs hr0 hr2 hc0 hc1 hc2
  exact ⟨h1, h2, h3, h5, h6, h7⟩

/-- C13 on the new layer over the 1000 x 800 image at ratio `1.0`, the 500 x 400 frame at
the corner of the pane: visible rows 0..2 and columns 0..2 of the 4 x 4 grid, and the
whole grid live after `paint()`. -/
theorem paint_live_rectangle_witness :
    (∀ r c : Int, (0 ≤ r ∧ r ≤ 3) ∧ (0 ≤ c ∧ c ≤ 3) →
      ∃ img ∈ (fullSizeLayer.paint (some cornerFrame) (some cornerPane) 256 256).1.paneImgs,
        img.id = fullSizeLayer.m_tileManager.tileId r c) ∧
    (fullSizeLayer.paint (some cornerFrame) (some cornerPane) 256 256).2 = none ∧
    (fullSizeLayer.paint (some cornerFrame) (some cornerPane) 256 256).1.display
      = Display.block ∧
    (fullSizeLayer.paint (some cornerFrame) (some cornerPane) 256 256).1.m_visibleArea
      = cornerArea ∧
    Synced (fullSizeLayer.paint (some cornerFrame) (some cornerPane) 256 256).1.m_tileManager
      (fullSizeLayer.paint (some cornerFrame) (some cornerPane) 256 256).1.paneImgs ∧
    (∀ img ∈ (fullSizeLayer.paint (some cornerFrame) (some cornerPane) 256 256).1.paneImgs,
      ∃ r c, img.id = fullSizeLayer.m_tileManager.tileId r c) ∧
    (∀ r c, (∃ img ∈ (fullSizeLayer.paint (some cornerFrame) (some cornerPane) 256 256).1.paneImgs,
        img.id = fullSizeLayer.m_tileManager.tileId r c) ↔
      (max 0 (cornerArea.rows.start - 1) ≤ r ∧
        r ≤ min (fullSizeLayer.m_tziSource.m_currentLayer.nRows - 1)
          (cornerArea.rows.end_ + 1)) ∧
      (max 0 (cornerArea.cols.start - 1) ≤ c ∧
        c ≤ min (fullSizeLayer.m_tziSource.m_currentLayer.nCols - 1)
          (cornerArea.cols.end_ + 1))) :=
  have hrows : fullSizeLayer.m_tziSource.m_currentLayer.nRows = 4 := by
    rw [fullSizeLayer_eq, fullSizeSource_eq]
  have hcols : fullSizeLayer.m_tziSource.m_currentLayer.nCols = 4 := by
    rw [fullSizeLayer_eq, fullSizeSource_eq]
  have h := paint_live_rectangle fullSizeLayer (some cornerFrame) (some cornerPane) 256 256
    cornerArea
    (by rw [fullSizeLayer_eq]; exact fullSizeSource_gridCurrent)
    (by
      rw [fullSizeLayer_eq]
      intro id img hact
      exact absurd hact (by simp [fullSizeManager]))
    (by
      rw [hrows, hcols, fullSizeLayer_eq]
      exact calcVisible_corner)
    rfl (by decide) (by rw [hrows]; decide) (by decide) (by decide) (by rw [hcols]; decide)
  ⟨fun r c hrc => (h.2.2.2.2.2 r c).mpr (by
      rw [hrows, hcols]
      have e1 : max 0 (cornerArea.rows.start - 1) = 0 := by decide
      have e2 : min ((4 : Int) - 1) (cornerArea.rows.end_ + 1) = 3 := by decide
      have e3 : max 0 (cornerArea.cols.start - 1) = 0 := by decide
      have e4 : min ((4 : Int) - 1) (cornerArea.cols.end_ + 1) = 3 := by decide
      rw [e1, e2, e3, e4]
      exact hrc), h⟩

/-- C14. On a ready source, the add and remove pass of `paint` run a second time with the
same visible range and the same source leaves the layer as the first pass left it:
the same tiles in the pane, the same active tiles, and the same outcome. -/
theorem paint_pass_idempotent (L : TziLayer) (hr : isReady L.m_tziSource = true) :
    L.paintTiles.1.paintTiles = L.paintTiles ∧
    L.paintTiles.1.paintTiles.1.paneImgs = L.paintTiles.1.paneImgs ∧
    L.paintTiles.1.paintTiles.1.m_tileManager.activeImages
      = L.paintTiles.1.m_tileManager.activeImages := by
  have h := TziLayer.paintTiles_twice L hr
  exact ⟨h, by rw [h], by rw [h]⟩

/-- C14 on the layer over the 1000 x 800 image with visible rows 0..2 and columns 0..2. -/
theorem paint_pass_idempotent_witness :
    cornerPainting.paintTiles.2 = none ∧
    cornerPainting.paintTiles.1.paintTiles = cornerPainting.paintTiles ∧
    cornerPainting.paintTiles.1.paintTiles.1.paneImgs = cornerPainting.paintTiles.1.paneImgs ∧
    cornerPainting.paintTiles.1.paintTiles.1.m_tileManager.activeImages
      = cornerPainting.paintTiles.1.m_tileManager.activeImages :=
  have hsrc : cornerPainting.m_tziSource = fullSizeSource := by
    simp only [cornerPainting, fullSizeLayer_eq]
  have hrows : cornerPainting.m_tziSource.m_currentLayer.nRows = 4 := by
    rw [hsrc, fullSizeSource_eq]
  have hcols : cornerPainting.m_tziSource.m_currentLayer.nCols = 4 := by
    rw [hsrc, fullSizeSource_eq]
  ⟨(TziLayer.paintTiles_rectangle cornerPainting
      (by rw [hsrc]; exact fullSizeSource_gridCurrent)
      (by
        simp only [cornerPainting, fullSizeLayer_eq]
        intro id img hact
        exact absurd hact (by simp [fullSizeManager]))
      (by decide) (by rw [hrows]; decide) (by decide) (by decide)
      (by rw [hcols]; decide)).1,
   paint_pass_idempotent cornerPainting (by rw [hsrc, fullSizeSource_eq]; rfl)⟩

/-- C15, as stated, fails: a new layer over the 1024 x 256 image with tiles 256 wide and
64 high, the pane panned 600 pixels left under a 300 x 100 frame.  `calcVisible` stores
start column 9; the first call of the pass, `addTile(1, 8)`, throws the tile error and
the pass ends: tile (1, 3), the next of the pass and a tile of the grid, is not made,
the pane is left empty and hidden. -/
theorem paint_abort_strip :
    getTileHeight stripLayer.m_tziSource = .ok (some 64) ∧
    getTileWidth stripLayer.m_tziSource = .ok (some 256) ∧
    (stripLayer.paint (some stripFrame) (some stripPane) 64 256).2 = some Err.tileRange ∧
    (stripLayer.paint (some stripFrame) (some stripPane) 64 256).1.paneImgs = [] ∧
    (stripLayer.paint (some stripFrame) (some stripPane) 64 256).1.display = Display.hidden ∧
    (1, 3) ∈ visibleCells
        (stripLayer.paint (some stripFrame) (some stripPane) 64 256).1.m_visibleArea ++
      bufferCells
        (stripLayer.paint (some stripFrame) (some stripPane) 64 256).1.m_visibleArea
        (4 - 1) (4 - 1) ∧
    getTileUrl stripLayer.m_tziSource 1 3 none
      = .ok "http://host/api?id=strip&l=0&r=1&c=3" := by
  have hsrc : stripLayer.m_tziSource = stripSource := by rw [stripLayer_eq]
  have hr : stripLayer.m_tziSource.m_ready = true := by rw [hsrc, stripSource_eq]
  have hva : calcVisible (some stripFrame) (some stripPane) 64 256
      stripLayer.m_tziSource.m_currentLayer.nRows stripLayer.m_tziSource.m_currentLayer.nCols
      stripLayer.m_visibleArea false = stripArea := by
    have h4 : stripLayer.m_tziSource.m_currentLayer.nRows = 4 ∧
        stripLayer.m_tziSource.m_currentLayer.nCols = 4 := by
      rw [hsrc, stripSource_eq]
      exact ⟨rfl, rfl⟩
    rw [h4.1, h4.2, stripLayer_eq]
    exact calcVisible_strip
  have hpaint : stripLayer.paint (some stripFrame) (some stripPane) 64 256
      = ({ stripPainting with display := Display.hidden }, some Err.tileRange) := by
    rw [TziLayer.paint_changed stripLayer _ _ _ _ hr (by rw [hva]; rfl), hva]
    exact stripPainting_paintTiles
  rw [hpaint, hsrc]
  refine ⟨?_, ?_, rfl, ?_, rfl, ?_, ?_⟩
  · rw [stripSource_eq]
    simp [getTileHeight, checkReady]
  · rw [stripSource_eq]
    simp [getTileWidth, checkReady]
  · simp only [stripPainting, stripLayer_eq]
  · show (1, 3) ∈ visibleCells stripArea ++ bufferCells stripArea (4 - 1) (4 - 1)
    rw [stripArea_cells]
    decide
  · rw [stripSource_eq]
    simp [getTileUrl, checkReady, gtFunctionObject, jsIndex, Ext.getTileUrl]
    decide

/-- C15, amended. When, during one pass of `paint` on a ready source, `addTile` throws for
a tile, the pass ends there: the calls before it have gone through and their tiles
stay, `addTile` is not called for the later cells of the pass, no tile is removed
(every tile that was in the pane is still there and every active tile still active)
and the pane stays hidden. -/
theorem paint_thrown_stops (L : TziLayer) (e : Err)
    (hr : isReady L.m_tziSource = true) (h : L.paintTiles.2 = some e) :
    ∃ (pre post : List (Int × Int)) (cell : Int × Int) (vis : List TileId),
      visibleCells L.m_visibleArea ++ bufferCells L.m_visibleArea
        (L.m_tziSource.m_currentLayer.nRows - 1) (L.m_tziSource.m_currentLayer.nCols - 1)
        = pre ++ cell :: post ∧
      addTiles L.m_tziSource pre L.m_tileManager L.paneImgs []
        = ((L.paintTiles.1.m_tileManager, L.paintTiles.1.paneImgs, vis), none) ∧
      L.paintTiles.1.m_tileManager.addTile L.paintTiles.1.paneImgs L.m_tziSource cell.1 cell.2
        = .error e ∧
      (∃ added, L.paintTiles.1.paneImgs = L.paneImgs ++ added) ∧
      (∀ id img, L.m_tileManager.activeImages id = some img →
        L.paintTiles.1.m_tileManager.activeImages id = some img) ∧
      L.paintTiles.1.display = Display.hidden :=
  TziLayer.paintTiles_thrown L e hr h

/-- C15, amended, on the pass of the counterexample. -/
theorem paint_thrown_stops_witness :
    ∃ (pre post : List (Int × Int)) (cell : Int × Int) (vis : List TileId),
      visibleCells stripPainting.m_visibleArea ++ bufferCells stripPainting.m_visibleArea
        (stripPainting.m_tziSource.m_currentLayer.nRows - 1)
        (stripPainting.m_tziSource.m_currentLayer.nCols - 1)
        = pre ++ cell :: post ∧
      addTiles stripPainting.m_tziSource pre stripPainting.m_tileManager stripPainting.paneImgs []
        = ((stripPainting.paintTiles.1.m_tileManager, stripPainting.paintTiles.1.paneImgs, vis),
            none) ∧
      stripPainting.paintTiles.1.m_tileManager.addTile stripPainting.paintTiles.1.paneImgs
        stripPainting.m_tziSource cell.1 cell.2 = .error Err.tileRange ∧
      (∃ added, stripPainting.paintTiles.1.paneImgs = stripPainting.paneImgs ++ added) ∧
      (∀ id img, stripPainting.m_tileManager.activeImages id = some img →
        stripPainting.paintTiles.1.m_tileManager.activeImages id = some img) ∧
      stripPainting.paintTiles.1.display = Display.hidden :=
  paint_thrown_stops stripPainting Err.tileRange
    (by
      simp only [stripPainting, stripLayer_eq]
      rw [stripSource_eq]
      rfl)
    (by rw [stripPainting_paintTiles])

/-! ## Growth of the content and the order of the notifications -/

/-- The initial `Viewport.setRatio` leaves the content size of `cfg` as it was. -/
theorem Viewport.setRatio_size (vp : Viewport) (value : Option ℚ)
    (center : Option (Option ℚ × Option ℚ)) :
    (vp.setRatio value center).2.cfg.width = vp.cfg.width ∧
    (vp.setRatio value center).2.cfg.height = vp.cfg.height := by
  have hcfg := fun w x y => (Viewport.resetPane_cfg w x y).1
  simp [Viewport.setRatio, hcfg]

/-- The events of `setCenter`: nothing, or one pan. -/
theorem Viewport.setCenter_fired (vp : Viewport) (x y : ℚ) :
    ∃ pans : List ViewportNotice, (vp.setCenter x y).fired = vp.fired ++ pans ∧
      ∀ n ∈ pans, n = ViewportNotice.pan := by
  unfold Viewport.setCenter
  by_cases h : x < 0 ∨ y < 0
  · rw [if_pos h]
    exact ⟨[], by simp, by simp⟩
  · rw [if_neg h]
    exact ⟨[ViewportNotice.pan], rfl, by simp⟩

/-- The events of `Viewport.setRatio`: the pan of `setCenter`, if any, and then the zoom
event with the ratio set. -/
theorem Viewport.setRatio_fired (vp : Viewport) (value : Option ℚ)
    (center : Option (Option ℚ × Option ℚ)) :
    ∃ pans : List ViewportNotice,
      (vp.setRatio value center).2.fired
        = vp.fired ++ pans ++ [ViewportNotice.zoom (vp.setRatio value center).1] ∧
      ∀ n ∈ pans, n = ViewportNotice.pan := by
  have hcfg := fun w x y => (Viewport.resetPane_cfg w x y).1
  simp only [Viewport.setRatio, Viewport.resetPane, hcfg]
  generalize hv : (if value.getD vp.cfg.ratio > vp.cfg.maxRatio then vp.cfg.maxRatio
    else if value.getD vp.cfg.ratio < vp.cfg.minRatio then vp.cfg.minRatio
    else value.getD vp.cfg.ratio) = v
  generalize hx : (match center with
    | none => some (0 : ℚ)
    | some c => c.1) = x
  generalize hy : (match center with
    | none => some (0 : ℚ)
    | some c => c.2) = y
  obtain ⟨pans, hp, hall⟩ := Viewport.setCenter_fired
    { vp with cfg := { vp.cfg with ratio := v },
              m_dim := { width := jsRound (vp.cfg.width * v),
                         height := jsRound (vp.cfg.height * v) } } (x.getD 0) (y.getD 0)
  exact ⟨pans, by rw [hp], hall⟩

/-- What `onLayerResize` does with a report of two numbers. -/
theorem Viewport.onLayerResize_eq (vp : Viewport) (w h : ℚ)
    (center : Option (Option ℚ × Option ℚ)) :
    vp.onLayerResize (some w) (some h) center =
      if vp.cfg.width < w ∨ vp.cfg.height < h then
        { (Viewport.setRatio { vp with cfg := { vp.cfg with width := max vp.cfg.width w,
                                                            height := max vp.cfg.height h } }
            none center).2 with
          fired := (Viewport.setRatio { vp with cfg := { vp.cfg with
              width := max vp.cfg.width w, height := max vp.cfg.height h } }
            none center).2.fired ++
            [ViewportNotice.resize (max vp.cfg.width w) (max vp.cfg.height h)] }
      else vp := by
  have hsz := Viewport.setRatio_size
  by_cases hw : vp.cfg.width < w <;> by_cases hh : vp.cfg.height < h
  · simp [Viewport.onLayerResize, jsGt, hw, hh, hsz, max_eq_right (le_of_lt hw),
      max_eq_right (le_of_lt hh)]
  · simp [Viewport.onLayerResize, jsGt, hw, hh, hsz, max_eq_right (le_of_lt hw),
      max_eq_left (not_lt.mp hh)]
  · simp [Viewport.onLayerResize, jsGt, hw, hh, hsz, max_eq_left (not_lt.mp hw),
      max_eq_right (le_of_lt hh)]
  · simp [Viewport.onLayerResize, jsGt, hw, hh]

/-- C21. For every size report `(w, h)` that `onLayerResize` handles, the content width
and height of the viewport afterwards are `max(old width, w)` and
`max(old height, h)`: they never shrink, and each changes exactly when the layer is
strictly larger in that dimension. -/
theorem Viewport.onLayerResize_max (vp : Viewport) (w h : ℚ)
    (center : Option (Option ℚ × Option ℚ)) :
    (vp.onLayerResize (some w) (some h) center).cfg.width = max vp.cfg.width w ∧
    (vp.onLayerResize (some w) (some h) center).cfg.height = max vp.cfg.height h ∧
    vp.cfg.width ≤ (vp.onLayerResize (some w) (some h) center).cfg.width ∧
    vp.cfg.height ≤ (vp.onLayerResize (some w) (some h) center).cfg.height ∧
    ((vp.onLayerResize (some w) (some h) center).cfg.width ≠ vp.cfg.width ↔ vp.cfg.width < w) ∧
    ((vp.onLayerResize (some w) (some h) center).cfg.height ≠ vp.cfg.height
      ↔ vp.cfg.height < h) := by
  have hwidth : (vp.onLayerResize (some w) (some h) center).cfg.width = max vp.cfg.width w := by
    rw [Viewport.onLayerResize_eq]
    by_cases hch : vp.cfg.width < w ∨ vp.cfg.height < h
    · rw [if_pos hch]
      exact (Viewport.setRatio_size _ none center).1
    · rw [if_neg hch]
      exact (max_eq_left (not_lt.mp fun hw => hch (Or.inl hw))).symm
  have hheight : (vp.onLayerResize (some w) (some h) center).cfg.height
      = max vp.cfg.height h := by
    rw [Viewport.onLayerResize_eq]
    by_cases hch : vp.cfg.width < w ∨ vp.cfg.height < h
    · rw [if_pos hch]
      exact (Viewport.setRatio_size _ none center).2
    · rw [if_neg hch]
      exact (max_eq_left (not_lt.mp fun hh => hch (Or.inr hh))).symm
  rw [hwidth, hheight]
  refine ⟨rfl, rfl, le_max_left _ _, le_max_left _ _, ?_, ?_⟩
  · constructor
    · intro hne
      by_contra hlt
      exact hne (max_eq_left (not_lt.mp hlt))
    · intro hlt
      rw [max_eq_right (le_of_lt hlt)]
      exact ne_of_gt hlt
  · constructor
    · intro hne
      by_contra hlt
      exact hne (max_eq_left (not_lt.mp hlt))
    · intro hlt
      rw [max_eq_right (le_of_lt hlt)]
      exact ne_of_gt hlt

/-- C22, as stated, fails: a viewport with the default content of 600 x 400 that is not
visible handles the report of a 1000 x 800 layer; it fires the pan of the centering,
then the zoom event, and the resize event last, after the zoom event. -/
theorem Viewport.onLayerResize_zoom_first :
    (({ m_dim := { width := 600, height := 400 } } : Viewport).onLayerResize
      (some 1000) (some 800) none).fired
      = [ViewportNotice.pan, ViewportNotice.zoom 1, ViewportNotice.resize 1000 800] ∧
    List.indexOf (ViewportNotice.zoom 1)
        (({ m_dim := { width := 600, height := 400 } } : Viewport).onLayerResize
          (some 1000) (some 800) none).fired
      < List.indexOf (ViewportNotice.resize 1000 800)
        (({ m_dim := { width := 600, height := 400 } } : Viewport).onLayerResize
          (some 1000) (some 800) none).fired := by
  have h : (({ m_dim := { width := 600, height := 400 } } : Viewport).onLayerResize
      (some 1000) (some 800) none).fired
      = [ViewportNotice.pan, ViewportNotice.zoom 1, ViewportNotice.resize 1000 800] := by
    rw [Viewport.onLayerResize_eq]
    norm_num [Viewport.setRatio, Viewport.resetPane, Viewport.setCenter]
  rw [h]
  exact ⟨rfl, by decide⟩

/-- C22, amended. When `onLayerResize` handles the report of a layer that is larger than
the content in a dimension, the viewport fires the zoom event of its `setRatio()`
call first and the resize event after it: the two are the last events fired, in
this order, after at most pan events; the zoom event carries the ratio of the
viewport and the resize event the new content size. -/
theorem Viewport.onLayerResize_order (vp : Viewport) (w h : ℚ)
    (center : Option (Option ℚ × Option ℚ)) (hch : vp.cfg.width < w ∨ vp.cfg.height < h) :
    ∃ pans : List ViewportNotice,
      (vp.onLayerResize (some w) (some h) center).fired
        = vp.fired ++ pans ++
          [ViewportNotice.zoom (vp.onLayerResize (some w) (some h) center).getRatio,
           ViewportNotice.resize (max vp.cfg.width w) (max vp.cfg.height h)] ∧
      ∀ n ∈ pans, n = ViewportNotice.pan := by
  rw [Viewport.onLayerResize_eq, if_pos hch]
  obtain ⟨pans, hp, hall⟩ := Viewport.setRatio_fired
    { vp with cfg := { vp.cfg with width := max vp.cfg.width w,
                                   height := max vp.cfg.height h } } none center
  refine ⟨pans, ?_, hall⟩
  show _ ++ _ = _
  rw [hp]
  simp only [Viewport.getRatio, (Viewport.setRatio_value _ none center).2.1, List.append_assoc,
    List.singleton_append]

/-- C22, amended, for the report of a 1000 x 800 layer to a viewport of 600 x 400. -/
theorem Viewport.onLayerResize_order_witness :
    ∃ pans : List ViewportNotice,
      (({ m_dim := { width := 600, height := 400 } } : Viewport).onLayerResize
        (some 1000) (some 800) none).fired
        = ({ m_dim := { width := 600, height := 400 } } : Viewport).fired ++ pans ++
          [ViewportNotice.zoom
            (({ m_dim := { width := 600, height := 400 } } : Viewport).onLayerResize
              (some 1000) (some 800) none).getRatio,
           ViewportNotice.resize
            (max ({ m_dim := { width := 600, height := 400 } } : Viewport).cfg.width 1000)
            (max ({ m_dim := { width := 600, height := 400 } } : Viewport).cfg.height 800)] ∧
      ∀ n ∈ pans, n = ViewportNotice.pan :=
  Viewport.onLayerResize_order { m_dim := { width := 600, height := 400 } } 1000 800 none
    (Or.inl (by norm_num))

/-! ## Drag constraints -/

/-- The pane that `resetConstraints` leaves: its left edge is not right of the frame's,
its top not below the frame's, and its size is that of the pane it started from. -/
theorem Viewport.resetConstraints_pane (vp : Viewport) (paneR region : Region) :
    (vp.resetConstraints paneR region).1.left ≤ region.left ∧
    (vp.resetConstraints paneR region).1.top ≤ region.top ∧
    (vp.resetConstraints paneR region).1.right - (vp.resetConstraints paneR region).1.left
      = paneR.right - paneR.left ∧
    (vp.resetConstraints paneR region).1.bottom - (vp.resetConstraints paneR region).1.top
      = paneR.bottom - paneR.top := by
  simp only [Viewport.resetConstraints]
  generalize hl : (if (if region.right > paneR.right then region.right - (vp.m_dim.width : ℚ)
    else paneR.left) > region.left then region.left
    else (if region.right > paneR.right then region.right - (vp.m_dim.width : ℚ)
      else paneR.left)) = adjLeft
  generalize ht : (if (if region.bottom > paneR.bottom then region.bottom - (vp.m_dim.height : ℚ)
    else paneR.top) > region.top then region.top
    else (if region.bottom > paneR.bottom then region.bottom - (vp.m_dim.height : ℚ)
      else paneR.top)) = adjTop
  have hle : adjLeft ≤ region.left := by
    rw [← hl]
    split_ifs <;> linarith
  have hte : adjTop ≤ region.top := by
    rw [← ht]
    split_ifs <;> linarith
  by_cases hmove : paneR.left ≠ adjLeft ∨ paneR.top ≠ adjTop
  · rw [if_pos hmove]
    refine ⟨hle, hte, ?_, ?_⟩ <;> simp [Region.setXY]
  · rw [if_neg hmove]
    have h1 : paneR.left = adjLeft := by
      by_contra hne
      exact hmove (Or.inl hne)
    have h2 : paneR.top = adjTop := by
      by_contra hne
      exact hmove (Or.inr hne)
    exact ⟨h1 ▸ hle, h2 ▸ hte, rfl, rfl⟩

/-- The pane that `resetConstraints` leaves reaches the right edge of the frame when the
pane is `m_dim.width` wide and no narrower than the frame. -/
theorem Viewport.resetConstraints_right (vp : Viewport) (paneR region : Region)
    (hw : paneR.right - paneR.left = vp.m_dim.width)
    (hfw : region.right - region.left ≤ paneR.right - paneR.left) :
    region.right ≤ (vp.resetConstraints paneR region).1.right := by
  simp only [Viewport.resetConstraints]
  rw [← hw]
  by_cases h1 : region.right > paneR.right
  · simp only [if_pos h1]
    have hnot : ¬ (region.right - (paneR.right - paneR.left) > region.left) := by
      intro hgt
      linarith
    simp only [if_neg hnot]
    split_ifs <;>
      first
      | (simp only [Region.setXY]; linarith)
      | (rename_i hm; push_neg at hm; obtain ⟨e1, e2⟩ := hm; linarith)
  · simp only [if_neg h1]
    split_ifs <;>
      first
      | (simp only [Region.setXY]; linarith)
      | (rename_i hm; push_neg at hm; obtain ⟨e1, e2⟩ := hm; linarith)

/-- The pane that `resetConstraints` leaves reaches the bottom edge of the frame when
the pane is `m_dim.height` high and no lower than the frame. -/
theorem Viewport.resetConstraints_bottom (vp : Viewport) (paneR region : Region)
    (hh : paneR.bottom - paneR.top = vp.m_dim.height)
    (hfh : region.bottom - region.top ≤ paneR.bottom - paneR.top) :
    region.bottom ≤ (vp.resetConstraints paneR region).1.bottom := by
  simp only [Viewport.resetConstraints]
  rw [← hh]
  by_cases h1 : region.bottom > paneR.bottom
  · simp only [if_pos h1]
    have hnot : ¬ (region.bottom - (paneR.bottom - paneR.top) > region.top) := by
      intro hgt
      linarith
    simp only [if_neg hnot]
    split_ifs <;>
      first
      | (simp only [Region.setXY]; linarith)
      | (rename_i hm; push_neg at hm; obtain ⟨e1, e2⟩ := hm; linarith)
  · simp only [if_neg h1]
    split_ifs <;>
      first
      | (simp only [Region.setXY]; linarith)
      | (rename_i hm; push_neg at hm; obtain ⟨e1, e2⟩ := hm; linarith)

/-- The constraints that `resetConstraints` sets, in terms of the pane it leaves. -/
theorem Viewport.resetConstraints_moves (vp : Viewport) (paneR region : Region) :
    (vp.resetConstraints paneR region).2 =
      { mvLeft := max 0 ((vp.resetConstraints paneR region).1.right - region.right),
        mvRight := max 0 (region.left - (vp.resetConstraints paneR region).1.left),
        mvDown := max 0 (region.top - (vp.resetConstraints paneR region).1.top),
        mvUp := max 0 ((vp.resetConstraints paneR region).1.bottom - region.bottom) } := rfl

/-- C24, as stated, fails: a viewport zoomed out to `0.5`, so that its pane of 300 x 200 is
smaller than its frame of 600 x 400.  `resetConstraints` leaves the pane at the corner
of the frame and allows no movement: `mvLeft` is 0, not
`paneRight - frameRight = -300`, and the offset 0 is allowed although it is not in
the range from `frameRight - paneRight = 300` to `frameLeft - paneLeft = 0`. -/
theorem Viewport.resetConstraints_small_pane :
    halfViewport.resetConstraints smallPane wideFrame
      = (smallPane, { mvLeft := 0, mvRight := 0, mvUp := 0, mvDown := 0 }) ∧
    (halfViewport.resetConstraints smallPane wideFrame).2.mvLeft
      ≠ (halfViewport.resetConstraints smallPane wideFrame).1.right - wideFrame.right ∧
    (halfViewport.resetConstraints smallPane wideFrame).2.allowsX 0 = true ∧
    ¬ (wideFrame.right - (halfViewport.resetConstraints smallPane wideFrame).1.right ≤ 0 ∧
      (0 : ℚ) ≤ wideFrame.left - (halfViewport.resetConstraints smallPane wideFrame).1.left) := by
  have h : halfViewport.resetConstraints smallPane wideFrame
      = (smallPane, { mvLeft := 0, mvRight := 0, mvUp := 0, mvDown := 0 }) := by
    norm_num [Viewport.resetConstraints, halfViewport, smallPane, wideFrame]
  rw [h]
  refine ⟨rfl, ?_, ?_, ?_⟩
  · norm_num [smallPane, wideFrame]
  · norm_num [Constraints.allowsX]
  · norm_num [smallPane, wideFrame]

/-- C24, amended. After `resetConstraints` the allowed movements are
`mvLeft = max(0, paneRight - frameRight)`, `mvRight = max(0, frameLeft - paneLeft)`,
`mvUp = max(0, paneBottom - frameBottom)`, `mvDown = max(0, frameTop - paneTop)`, the
pane edges being those after `resetConstraints` has repositioned it.  When the pane
measures `m_dim` and is at least as wide and as high as the frame, the four are the
differences themselves, and the pane may be moved by exactly the offsets `d` with
`frameRight - paneRight <= d <= frameLeft - paneLeft`, vertically
`frameBottom - paneBottom <= d <= frameTop - paneTop`. -/
theorem Viewport.resetConstraints_range (vp : Viewport) (paneR region : Region) :
    (vp.resetConstraints paneR region).2 =
      { mvLeft := max 0 ((vp.resetConstraints paneR region).1.right - region.right),
        mvRight := max 0 (region.left - (vp.resetConstraints paneR region).1.left),
        mvDown := max 0 (region.top - (vp.resetConstraints paneR region).1.top),
        mvUp := max 0 ((vp.resetConstraints paneR region).1.bottom - region.bottom) } ∧
    (paneR.right - paneR.left = vp.m_dim.width → paneR.bottom - paneR.top = vp.m_dim.height →
      region.right - region.left ≤ paneR.right - paneR.left →
      region.bottom - region.top ≤ paneR.bottom - paneR.top →
      (vp.resetConstraints paneR region).2 =
        { mvLeft := (vp.resetConstraints paneR region).1.right - region.right,
          mvRight := region.left - (vp.resetConstraints paneR region).1.left,
          mvDown := region.top - (vp.resetConstraints paneR region).1.top,
          mvUp := (vp.resetConstraints paneR region).1.bottom - region.bottom } ∧
      (∀ d : ℚ, (vp.resetConstraints paneR region).2.allowsX d = true ↔
        region.right - (vp.resetConstraints paneR region).1.right ≤ d ∧
          d ≤ region.left - (vp.resetConstraints paneR region).1.left) ∧
      (∀ d : ℚ, (vp.resetConstraints paneR region).2.allowsY d = true ↔
        region.bottom - (vp.resetConstraints paneR region).1.bottom ≤ d ∧
          d ≤ region.top - (vp.resetConstraints paneR region).1.top)) := by
  refine ⟨Viewport.resetConstraints_moves vp paneR region, ?_⟩
  intro hw hh hfw hfh
  obtain ⟨hl, ht, _, _⟩ := Viewport.resetConstraints_pane vp paneR region
  have hr := Viewport.resetConstraints_right vp paneR region hw hfw
  have hb := Viewport.resetConstraints_bottom vp paneR region hh hfh
  have hmoves : (vp.resetConstraints paneR region).2 =
      { mvLeft := (vp.resetConstraints paneR region).1.right - region.right,
        mvRight := region.left - (vp.resetConstraints paneR region).1.left,
        mvDown := region.top - (vp.resetConstraints paneR region).1.top,
        mvUp := (vp.resetConstraints paneR region).1.bottom - region.bottom } := by
    rw [Viewport.resetConstraints_moves vp paneR region, max_eq_right (by linarith),
      max_eq_right (by linarith), max_eq_right (by linarith), max_eq_right (by linarith)]
  refine ⟨hmoves, ?_, ?_⟩
  · intro d
    rw [hmoves]
    simp only [Constraints.allowsX, decide_eq_true_eq, neg_sub]
  · intro d
    rw [hmoves]
    simp only [Constraints.allowsY, decide_eq_true_eq, neg_sub]

/-- C24, amended, on a viewport at ratio `1.0` over the 1000 x 800 image whose pane has
been dragged 100 pixels left and 50 up under a frame of 500 x 400: the pane may move
400 left, 100 right, 350 up and 50 down. -/
theorem Viewport.resetConstraints_range_witness :
    imageViewport.resetConstraints draggedPane cornerFrame
      = (draggedPane, { mvLeft := 400, mvRight := 100, mvUp := 350, mvDown := 50 }) ∧
    (imageViewport.resetConstraints draggedPane cornerFrame).2 =
      { mvLeft := (imageViewport.resetConstraints draggedPane cornerFrame).1.right
          - cornerFrame.right,
        mvRight := cornerFrame.left
          - (imageViewport.resetConstraints draggedPane cornerFrame).1.left,
        mvDown := cornerFrame.top
          - (imageViewport.resetConstraints draggedPane cornerFrame).1.top,
        mvUp := (imageViewport.resetConstraints draggedPane cornerFrame).1.bottom
          - cornerFrame.bottom } ∧
    (∀ d : ℚ, (imageViewport.resetConstraints draggedPane cornerFrame).2.allowsX d = true ↔
      cornerFrame.right - (imageViewport.resetConstraints draggedPane cornerFrame).1.right ≤ d ∧
        d ≤ cornerFrame.left
          - (imageViewport.resetConstraints draggedPane cornerFrame).1.left) ∧
    (∀ d : ℚ, (imageViewport.resetConstraints draggedPane cornerFrame).2.allowsY d = true ↔
      cornerFrame.bottom - (imageViewport.resetConstraints draggedPane cornerFrame).1.bottom ≤ d ∧
        d ≤ cornerFrame.top
          - (imageViewport.resetConstraints draggedPane cornerFrame).1.top) :=
  ⟨by norm_num [Viewport.resetConstraints, imageViewport, draggedPane, cornerFrame],
   (Viewport.resetConstraints_range imageViewport draggedPane cornerFrame).2
    (by norm_num [imageViewport, draggedPane])
    (by norm_num [imageViewport, draggedPane])
    (by norm_num [draggedPane, cornerFrame])
    (by norm_num [draggedPane, cornerFrame])⟩

/-! ## Layer ids -/

/-- After the construction of a layer, `getId()` of every layer of the page returns the id
made for the new one. -/
theorem Layer.getId_after_init (page : Page) (that : Layer) :
    that.getId (Layer.init page).1 = .ok ("tzilayer_" ++ toString page.g_LayerId) := rfl

/-- C25, failing input: two layers constructed one after the other on a new page and
named "first" and "second".  Before the second construction `getId()` of the first
returns "tzilayer_1"; after it, `getId()` of both returns "tzilayer_2", while
`getName()` still tells them apart. -/
theorem Layer.getId_shared :
    ((Layer.init {}).2.setName "first").getId (Layer.init {}).1 = .ok "tzilayer_1" ∧
    ((Layer.init {}).2.setName "first").getId (Layer.init (Layer.init {}).1).1
      = .ok "tzilayer_2" ∧
    ((Layer.init (Layer.init {}).1).2.setName "second").getId (Layer.init (Layer.init {}).1).1
      = .ok "tzilayer_2" ∧
    ((Layer.init {}).2.setName "first").getName = "first" ∧
    ((Layer.init (Layer.init {}).1).2.setName "second").getName = "second" ∧
    (Layer.init {}).2.setName "first" ≠ (Layer.init (Layer.init {}).1).2.setName "second" := by
  refine ⟨?_, ?_, ?_, rfl, rfl, ?_⟩
  · rw [Layer.getId_after_init]
    exact congrArg Except.ok (by decide)
  · rw [Layer.getId_after_init]
    exact congrArg Except.ok (by decide)
  · rw [Layer.getId_after_init]
    exact congrArg Except.ok (by decide)
  · decide

/-! ## `snapTo` -/

/-- The two branches of `snapTo` compute the same ratio: the smaller of the two quotients. -/
theorem snapTo_ratio (vw vh W H : ℚ) (hW : 0 < W) (hH : 0 < H) :
    (if jsGt (some W) (some H) then
        if jsGt (jsMul (jsDiv (some vw) (some W)) (some H)) (some vh)
        then jsDiv (some vh) (some H) else jsDiv (some vw) (some W)
      else
        if jsGt (jsMul (jsDiv (some vh) (some H)) (some W)) (some vw)
        then jsDiv (some vw) (some W) else jsDiv (some vh) (some H))
      = some (min (vw / W) (vh / H)) := by
  have e1 : vw / W * H > vh ↔ vh / H < vw / W := by
    rw [gt_iff_lt, div_lt_iff₀ hH]
  have e2 : vh / H * W > vw ↔ vw / W < vh / H := by
    rw [gt_iff_lt, div_lt_iff₀ hW]
  simp only [jsGt, jsDiv, jsMul, decide_eq_true_eq, e1, e2]
  split_ifs with h1 h2 h3
  · rw [min_eq_right (le_of_lt h2)]
  · rw [min_eq_left (not_lt.mp h2)]
  · rw [min_eq_left (le_of_lt h3)]
  · rw [min_eq_right (not_lt.mp h3)]

/-- C26. For a ready source of an image of `W x H` pixels, both positive, and a visible
viewport whose region measures `vw x vh`, both positive, `snapTo` calls
`m_viewport.setRatio` with `min(vw / W, vh / H)`, whichever of `W`, `H` is larger; at
that ratio the image fits in the viewport, `ratio * W <= vw` and `ratio * H <= vh`, and
fills it in one dimension. -/
theorem snapTo_fits (L : TziLayer) (reg : Region) (W H : Int)
    (hr : isReady L.m_tziSource = true)
    (hw : L.m_tziSource.m_width = some W) (hh : L.m_tziSource.m_height = some H)
    (hW : 0 < W) (hH : 0 < H) (hvw : 0 < reg.right - reg.left)
    (hvh : 0 < reg.bottom - reg.top) :
    L.snapTo (some reg)
      = .ok (some (some (min ((reg.right - reg.left) / W) ((reg.bottom - reg.top) / H)))) ∧
    min ((reg.right - reg.left) / W) ((reg.bottom - reg.top) / H) * W ≤ reg.right - reg.left ∧
    min ((reg.right - reg.left) / W) ((reg.bottom - reg.top) / H) * H ≤ reg.bottom - reg.top ∧
    (min ((reg.right - reg.left) / W) ((reg.bottom - reg.top) / H) * W = reg.right - reg.left ∨
      min ((reg.right - reg.left) / W) ((reg.bottom - reg.top) / H) * H
        = reg.bottom - reg.top) ∧
    0 < min ((reg.right - reg.left) / W) ((reg.bottom - reg.top) / H) := by
  have hr' : L.m_tziSource.m_ready = true := hr
  have hWq : (0 : ℚ) < W := by exact_mod_cast hW
  have hHq : (0 : ℚ) < H := by exact_mod_cast hH
  refine ⟨?_, ?_, ?_, ?_, ?_⟩
  · simp only [TziLayer.snapTo, getAbsWidth, getAbsHeight, checkReady, hr', if_true, hw, hh,
      Option.map_some']
    rw [snapTo_ratio _ _ _ _ hWq hHq]
  · calc min ((reg.right - reg.left) / W) ((reg.bottom - reg.top) / H) * W
        ≤ (reg.right - reg.left) / W * W :=
          mul_le_mul_of_nonneg_right (min_le_left _ _) (le_of_lt hWq)
      _ = reg.right - reg.left := div_mul_cancel₀ _ (ne_of_gt hWq)
  · calc min ((reg.right - reg.left) / W) ((reg.bottom - reg.top) / H) * H
        ≤ (reg.bottom - reg.top) / H * H :=
          mul_le_mul_of_nonneg_right (min_le_right _ _) (le_of_lt hHq)
      _ = reg.bottom - reg.top := div_mul_cancel₀ _ (ne_of_gt hHq)
  · rcases le_total ((reg.right - reg.left) / W) ((reg.bottom - reg.top) / H) with hle | hle
    · left
      rw [min_eq_left hle]
      exact div_mul_cancel₀ _ (ne_of_gt hWq)
    · right
      rw [min_eq_right hle]
      exact div_mul_cancel₀ _ (ne_of_gt hHq)
  · exact lt_min (div_pos hvw hWq) (div_pos hvh hHq)

/-- C26 for the 1000 x 800 image in a viewport of 600 x 400: the ratio requested is `0.5`. -/
theorem snapTo_fits_witness :
    fullSizeLayer.snapTo (some wideFrame) = .ok (some (some (1 / 2))) ∧
    fullSizeLayer.snapTo (some wideFrame)
      = .ok (some (some (min ((wideFrame.right - wideFrame.left) / (1000 : Int))
          ((wideFrame.bottom - wideFrame.top) / (800 : Int))))) ∧
    min ((wideFrame.right - wideFrame.left) / (1000 : Int))
        ((wideFrame.bottom - wideFrame.top) / (800 : Int)) * (1000 : Int)
      ≤ wideFrame.right - wideFrame.left ∧
    min ((wideFrame.right - wideFrame.left) / (1000 : Int))
        ((wideFrame.bottom - wideFrame.top) / (800 : Int)) * (800 : Int)
      ≤ wideFrame.bottom - wideFrame.top ∧
    (min ((wideFrame.right - wideFrame.left) / (1000 : Int))
        ((wideFrame.bottom - wideFrame.top) / (800 : Int)) * (1000 : Int)
      = wideFrame.right - wideFrame.left ∨
      min ((wideFrame.right - wideFrame.left) / (1000 : Int))
          ((wideFrame.bottom - wideFrame.top) / (800 : Int)) * (800 : Int)
        = wideFrame.bottom - wideFrame.top) ∧
    0 < min ((wideFrame.right - wideFrame.left) / (1000 : Int))
      ((wideFrame.bottom - wideFrame.top) / (800 : Int)) :=
  have h := snapTo_fits fullSizeLayer wideFrame 1000 800
    (by rw [fullSizeLayer_eq, fullSizeSource_eq]; rfl)
    (by rw [fullSizeLayer_eq, fullSizeSource_eq])
    (by rw [fullSizeLayer_eq, fullSizeSource_eq])
    (by decide) (by decide) (by norm_num [wideFrame]) (by norm_num [wideFrame])
  ⟨by rw [h.1]; norm_num [wideFrame], h⟩

/-! ## Tile urls of the two built-in sources -/

/-- A call of `setLevel` leaves the extension object as it was. -/
theorem setLevel_ext (s s' : Source) (level i : Int) (h : setLevel s level = .ok (i, s')) :
    s'.ext = s.ext := by
  simp only [setLevel] at h
  split at h
  · exact absurd h (by simp)
  · split at h
    · exact absurd h (by simp)
    · split at h
      · exact absurd h (by simp)
      · split at h
        · exact absurd h (by simp)
        · simp only [Except.ok.injEq, Prod.mk.injEq] at h
          rw [← h.2]

/-- The success callback hands the descriptor to `processJSON` whatever happens next: a
`TziSource` keeps the `ext` member of the descriptor, an `APITziSource` nothing. -/
theorem configureSuccess_ext (s : Source) (json : Json) :
    (configureSuccess s (.parsed json)).1.ext = s.ext.processJSON json := by
  obtain ⟨name, width, height, tw, th, layers, thumb, ext⟩ := json
  simp only [configureSuccess]
  cases thumb <;> cases layers with
  | none => rfl
  | some layers =>
    simp only []
    split
    · rfl
    · rename_i h
      have hext := setLevel_ext _ _ _ _ h
      have hfire : ∀ t : Source, (fireReady t).ext = t.ext := by
        intro t
        unfold fireReady
        split <;> rfl
      show (fireReady _).ext = _
      rw [hfire]
      exact hext

/-- C27. On a ready source, for a level `z` of the list and a tile `(r, c)` of its grid,
`getTileUrl(r, c, z)` of a `TziSource` over the base uri returns
`base + "/" + z + "/" + c + "-" + r + "." + ext`, and that of an `APITziSource` returns
`api + "?id=" + id + "&l=" + z + "&r=" + r + "&c=" + c`; the extension of a `TziSource` is
the `ext` member of the descriptor that configured it. -/
theorem getTileUrl_templates (s : Source) (layers : List FixedLayer) (layer : FixedLayer)
    (r c z : Int) (hr : isReady s = true) (hl : s.m_layers = some layers)
    (hz : jsIndex layers z = some layer) (hr0 : 0 ≤ r) (hr1 : r < layer.nRows)
    (hc0 : 0 ≤ c) (hc1 : c < layer.nCols) :
    (∀ (m_uri ext : String), s.ext = .tzi m_uri (some ext) →
      getTileUrl s r c (some z) = .ok (m_uri ++ "/" ++ toString z ++ "/" ++ toString c ++ "-" ++
        toString r ++ "." ++ ext)) ∧
    (∀ (m_api m_id : String), s.ext = .api m_api m_id →
      getTileUrl s r c (some z) = .ok (m_api ++ "?id=" ++ m_id ++ "&l=" ++ toString z ++ "&r=" ++
        toString r ++ "&c=" ++ toString c)) ∧
    (∀ (s0 : Source) (json : Json) (m_uri : String) (old : Option String),
      s0.ext = .tzi m_uri old →
        (configureSuccess s0 (.parsed json)).1.ext = .tzi m_uri json.ext) := by
  have hurl : getTileUrl s r c (some z) = .ok (s.ext.getTileUrl r c z) :=
    (getTileUrl_ok_iff s layers r c z _ hr hl).mpr ⟨⟨layer, hz, hr0, hr1, hc0, hc1⟩, rfl⟩
  refine ⟨?_, ?_, ?_⟩
  · intro m_uri ext hext
    rw [hurl, hext]
    rfl
  · intro m_api m_id hext
    rw [hurl, hext]
    rfl
  · intro s0 json m_uri old hext
    rw [configureSuccess_ext, hext]
    rfl

/-- C27 on the two sample sources: tile (3, 3) of level 0 of the pyramid under
"http://host/img", whose descriptor says "jpeg", and tile (1, 3) of the strip image
"strip" behind "http://host/api". -/
theorem getTileUrl_templates_witness :
    getTileUrl pyramidSource 3 3 (some 0) = .ok "http://host/img/0/3-3.jpeg" ∧
    getTileUrl stripSource 1 3 (some 0) = .ok "http://host/api?id=strip&l=0&r=1&c=3" ∧
    (configureSuccess (Source.init (.tzi "http://host/img" none)) (.parsed pyramidJson)).1.ext
      = .tzi "http://host/img" (some "jpeg") :=
  have hp := getTileUrl_templates pyramidSource pyramidLayers
    { ratio := 1, w := 1000, h := 800, nRows := 4, nCols := 4 } 3 3 0
    (by rw [pyramidSource_eq]; rfl) (by rw [pyramidSource_eq]) rfl
    (by decide) (by decide) (by decide) (by decide)
  have hs := getTileUrl_templates stripSource
    [{ ratio := 1, w := 1024, h := 256, nRows := 4, nCols := 4 }]
    { ratio := 1, w := 1024, h := 256, nRows := 4, nCols := 4 } 1 3 0
    (by rw [stripSource_eq]; rfl) (by rw [stripSource_eq]) rfl
    (by decide) (by decide) (by decide) (by decide)
  ⟨(hp.1 "http://host/img" "jpeg" (by rw [pyramidSource_eq])).trans
      (congrArg Except.ok (by decide)),
   (hs.2.1 "http://host/api" "strip" (by rw [stripSource_eq])).trans
      (congrArg Except.ok (by decide)),
   hp.2.2 (Source.init (.tzi "http://host/img" none)) pyramidJson "http://host/img" none rfl⟩

/-! ## `reset` -/

/-- The loop "remove tiles" of `reset` empties the pane. -/
theorem removeAll_pane (xs : List Tile) :
    ∀ tm : TileManager,
      (xs.foldl (fun (st : TileManager × List Tile) img => st.1.removeTile st.2 img) (tm, xs)).2
        = [] := by
  induction xs with
  | nil => intro tm; rfl
  | cons a xs ih =>
    intro tm
    rw [List.foldl_cons]
    have hstep : tm.removeTile (a :: xs) a
        = ({ tm with activeImages := Function.update tm.activeImages a.id none }, xs) := by
      simp only [TileManager.removeTile, List.erase_cons_head]
    rw [hstep]
    exact ih _

/-- A loop of `removeTile` calls leaves an entry of `activeImages` that was empty empty, and
empties the entry of each tile it removes. -/
theorem removeAll_active (xs : List Tile) (id : TileId) :
    ∀ (tm : TileManager) (pane : List Tile),
      (tm.activeImages id = none ∨ ∃ img ∈ xs, img.id = id) →
      (xs.foldl (fun (st : TileManager × List Tile) img => st.1.removeTile st.2 img)
        (tm, pane)).1.activeImages id = none := by
  induction xs with
  | nil =>
    intro tm pane h
    rcases h with h | ⟨img, hmem, _⟩
    · exact h
    · exact absurd hmem (List.not_mem_nil _)
  | cons a xs ih =>
    intro tm pane h
    rw [List.foldl_cons]
    apply ih
    by_cases ha : a.id = id
    · left
      simp only [TileManager.removeTile]
      rw [← ha, Function.update_same]
    · rcases h with h | ⟨img, hmem, hid⟩
      · left
        simp only [TileManager.removeTile]
        rw [Function.update_noteq (Ne.symm ha)]
        exact h
      · rcases List.mem_cons.mp hmem with rfl | hmem'
        · exact absurd hid ha
        · exact Or.inr ⟨img, hmem', hid⟩

/-- On a ready source whose current level is a level of the list, `setRatio` does not
throw and leaves such a source. -/
theorem setRatio_ready (s : Source) (layers : List FixedLayer) (ratio : ℚ)
    (hr : s.m_ready = true) (hl : s.m_layers = some layers)
    (h0 : 0 ≤ s.m_currentLayer.ix) (h1 : s.m_currentLayer.ix < layers.length) :
    ∃ s' : Source, setRatio s (some ratio) = .ok (ratio, s') ∧ s'.m_ready = true ∧
      s'.m_layers = some layers ∧ 0 ≤ s'.m_currentLayer.ix ∧
      s'.m_currentLayer.ix < layers.length ∧ s'.m_currentLayer.ratio = ratio := by
  obtain ⟨i, li, hf, hi, _⟩ := findClosestLevel_minimizes_aux s layers ratio hl h0 h1
  refine ⟨_, setRatio_of_findClosestLevel s layers ratio i li hr hl hf hi, hr, hl, ?_, ?_, rfl⟩
  · exact (jsIndex_eq_some hi).1
  · exact (jsIndex_eq_some hi).2.1

/-- On a ready source `update()` does not throw. -/
theorem TileManager.update_ready (tm : TileManager) (s : Source) (hr : s.m_ready = true) :
    ∃ tm' : TileManager, tm.update s = .ok tm' ∧ tm'.activeImages = tm.activeImages ∧
      tm'.id = tm.id := by
  by_cases h : tm.ratio = s.m_currentLayer.ratio
  · exact ⟨tm, TileManager.update_of_eq tm s hr h, rfl, rfl⟩
  · exact ⟨_, TileManager.update_of_ne tm s hr h, rfl, rfl⟩

/-- What `reset()` does once `setRatio` and `update()` have gone through. -/
theorem TziLayer.reset_eq (L : TziLayer) (ratio : ℚ) (s' : Source) (tm' : TileManager)
    (hr : L.m_tziSource.m_ready = true)
    (hset : setRatio L.m_tziSource (some ratio) = .ok (ratio, s'))
    (hup : L.m_tileManager.update s' = .ok tm') :
    L.reset ratio =
      ({ L with
          m_tziSource := s',
          m_tileManager := (L.paneImgs.foldl
            (fun (st : TileManager × List Tile) img => st.1.removeTile st.2 img)
            (tm', L.paneImgs)).1,
          paneImgs := (L.paneImgs.foldl
            (fun (st : TileManager × List Tile) img => st.1.removeTile st.2 img)
            (tm', L.paneImgs)).2,
          m_visibleArea := {} }, none) := by
  simp only [TziLayer.reset, isReady, hr, hset, hup]
  rfl

/-- C23. After `reset()` on a layer whose source is ready and whose pane is in step with
its tile manager, the pane holds no tile, no tile is active and the stored visible
range is the initial one (all -1); the next `calcVisible` with measurable regions
then returns `changed = true` without `force`, wherever the pane is, and its range is
the one a forced computation gives from any stored range. -/
theorem reset_invalidates (L : TziLayer) (layers : List FixedLayer) (ratio : ℚ)
    (hr : isReady L.m_tziSource = true) (hl : L.m_tziSource.m_layers = some layers)
    (h0 : 0 ≤ L.m_tziSource.m_currentLayer.ix)
    (h1 : L.m_tziSource.m_currentLayer.ix < layers.length)
    (hs : Synced L.m_tileManager L.paneImgs) :
    (L.reset ratio).2 = none ∧ (L.reset ratio).1.paneImgs = [] ∧
    (∀ id, (L.reset ratio).1.m_tileManager.activeImages id = none) ∧
    (L.reset ratio).1.m_visibleArea
      = { rows := { start := -1, end_ := -1 }, cols := { start := -1, end_ := -1 },
          changed := false } ∧
    ∀ (region paneR : Region) (th tw : ℚ) (nRows nCols : Int),
      (calcVisible (some region) (some paneR) th tw nRows nCols
        (L.reset ratio).1.m_visibleArea false).changed = true ∧
      ∀ va : VisibleArea,
        calcVisible (some region) (some paneR) th tw nRows nCols
            (L.reset ratio).1.m_visibleArea false
          = calcVisible (some region) (some paneR) th tw nRows nCols va true := by
  have hr' : L.m_tziSource.m_ready = true := hr
  obtain ⟨s', hset, hr1, _, _, _, _⟩ := setRatio_ready L.m_tziSource layers ratio hr' hl h0 h1
  obtain ⟨tm', hup, hact, _⟩ := TileManager.update_ready L.m_tileManager s' hr1
  rw [TziLayer.reset_eq L ratio s' tm' hr' hset hup]
  refine ⟨rfl, removeAll_pane L.paneImgs tm', ?_, rfl, ?_⟩
  · intro id
    apply removeAll_active
    cases hid : tm'.activeImages id with
    | none => exact Or.inl rfl
    | some img =>
      rw [hact] at hid
      exact Or.inr ⟨img, (hs id img hid).1, (hs id img hid).2⟩
  · intro region paneR th tw nRows nCols
    have hmoved : max 0 ⌊(region.left - paneR.left) / th⌋ ≠ ({} : VisibleArea).cols.start := by
      have hge : (0 : Int) ≤ max 0 ⌊(region.left - paneR.left) / th⌋ := le_max_left _ _
      intro heq
      rw [heq] at hge
      exact absurd hge (by decide)
    show (calcVisible (some region) (some paneR) th tw nRows nCols {} false).changed = true ∧
      ∀ va : VisibleArea, calcVisible (some region) (some paneR) th tw nRows nCols {} false
        = calcVisible (some region) (some paneR) th tw nRows nCols va true
    rw [calcVisible_recomputed _ _ _ _ _ _ _ _ (Or.inl hmoved)]
    refine ⟨rfl, ?_⟩
    intro va
    rw [calcVisible_recomputed _ _ _ _ _ _ _ _ (Or.inr (Or.inr rfl))]

/-- C23 on the layer over the 1000 x 800 image once `paint` has filled its pane for the
visible rows 0..2 and columns 0..2: `reset()` at ratio `0.5` empties the pane, and the
next `calcVisible` reports a change. -/
theorem reset_invalidates_witness :
    cornerPainting.paintTiles.1.paneImgs ≠ [] ∧
    (cornerPainting.paintTiles.1.reset (1 / 2)).2 = none ∧
    (cornerPainting.paintTiles.1.reset (1 / 2)).1.paneImgs = [] ∧
    (∀ id, (cornerPainting.paintTiles.1.reset (1 / 2)).1.m_tileManager.activeImages id = none) ∧
    (cornerPainting.paintTiles.1.reset (1 / 2)).1.m_visibleArea
      = { rows := { start := -1, end_ := -1 }, cols := { start := -1, end_ := -1 },
          changed := false } ∧
    ∀ (region paneR : Region) (th tw : ℚ) (nRows nCols : Int),
      (calcVisible (some region) (some paneR) th tw nRows nCols
        (cornerPainting.paintTiles.1.reset (1 / 2)).1.m_visibleArea false).changed = true ∧
      ∀ va : VisibleArea,
        calcVisible (some region) (some paneR) th tw nRows nCols
            (cornerPainting.paintTiles.1.reset (1 / 2)).1.m_visibleArea false
          = calcVisible (some region) (some paneR) th tw nRows nCols va true :=
  have hsrc : cornerPainting.m_tziSource = fullSizeSource := by
    simp only [cornerPainting, fullSizeLayer_eq]
  have hrows : cornerPainting.m_tziSource.m_currentLayer.nRows = 4 := by
    rw [hsrc, fullSizeSource_eq]
  have hcols : cornerPainting.m_tziSource.m_currentLayer.nCols = 4 := by
    rw [hsrc, fullSizeSource_eq]
  have hrect := TziLayer.paintTiles_rectangle cornerPainting
    (by rw [hsrc]; exact fullSizeSource_gridCurrent)
    (by
      simp only [cornerPainting, fullSizeLayer_eq]
      intro id img hact
      exact absurd hact (by simp [fullSizeManager]))
    (by decide) (by rw [hrows]; decide) (by decide) (by decide) (by rw [hcols]; decide)
  have hsrc' : cornerPainting.paintTiles.1.m_tziSource = fullSizeSource := by
    rw [hrect.2.2.2.1, hsrc]
  ⟨by
    obtain ⟨img, himg, _⟩ := (hrect.2.2.2.2.2.2 0 0).mpr (by
      rw [hrows, hcols]
      decide)
    exact List.ne_nil_of_mem himg,
   reset_invalidates cornerPainting.paintTiles.1 pyramidLayers (1 / 2)
    (by rw [hsrc', fullSizeSource_eq]; rfl) (by rw [hsrc', fullSizeSource_eq])
    (by rw [hsrc', fullSizeSource_eq]) (by rw [hsrc', fullSizeSource_eq]; decide)
    hrect.2.2.2.2.1⟩

/-! ## Tiles requested by `paint` -/

/-- The visible area for the 500 x 400 frame 300 pixels beyond the right edge of the pane of
the 1000 x 800 image: the start column is `floor(1300 / 256) = 5`, the end column is
clipped to 3. -/
theorem calcVisible_far :
    calcVisible (some farFrame) (some cornerPane) 256 256 4 4 {} false = farArea := by
  have f0 : ⌊(farFrame.left - cornerPane.left) / (256 : ℚ)⌋ = 5 := by
    rw [Int.floor_eq_iff]; norm_num [farFrame, cornerPane]
  have f1 : ⌊(farFrame.top - cornerPane.top) / (256 : ℚ)⌋ = 0 := by
    rw [Int.floor_eq_iff]; norm_num [farFrame, cornerPane]
  have c0 : ⌈(farFrame.right - farFrame.left) / (256 : ℚ)⌉ = 2 := by
    rw [Int.ceil_eq_iff]; norm_num [farFrame]
  have c1 : ⌈(farFrame.bottom - farFrame.top) / (256 : ℚ)⌉ = 2 := by
    rw [Int.ceil_eq_iff]; norm_num [farFrame]
  rw [calcVisible_recomputed _ _ _ _ _ _ _ _ (Or.inl (by rw [f0]; decide)), f0, f1, c0, c1]
  rfl

/-- The cells of the pass over `farArea`: the first loop is empty, and the buffer loop
asks for column 4 of a grid whose columns are 0..3. -/
theorem farArea_cells :
    visibleCells farArea ++ bufferCells farArea (4 - 1) (4 - 1)
      = [(1, 4), (1, 3), (2, 4), (2, 3)] := by
  decide

/-- The source `fullSizeSource` has no tile (1, 4). -/
theorem fullSizeSource_no_tile : getTileUrl fullSizeSource 1 4 none = .error .tileRange := by
  rw [fullSizeSource_eq]
  simp [getTileUrl, checkReady, gtFunctionObject, jsIndex, pyramidLayers]

/-- The pass of `paint` over `farArea`: the first call, `addTile(1, 4)`, throws. -/
theorem farPainting_paintTiles :
    farPainting.paintTiles = ({ farPainting with display := Display.hidden },
      some Err.tileRange) := by
  have hr : farPainting.m_tziSource.m_ready = true := by
    simp only [farPainting, fullSizeLayer_eq]
    rw [fullSizeSource_eq]
  rw [TziLayer.paintTiles_eq farPainting hr]
  have hcells : visibleCells farPainting.m_visibleArea ++
      bufferCells farPainting.m_visibleArea
        (farPainting.m_tziSource.m_currentLayer.nRows - 1)
        (farPainting.m_tziSource.m_currentLayer.nCols - 1)
      = [(1, 4), (1, 3), (2, 4), (2, 3)] := by
    have h4 : farPainting.m_tziSource.m_currentLayer.nRows = 4 ∧
        farPainting.m_tziSource.m_currentLayer.nCols = 4 := by
      simp only [farPainting, fullSizeLayer_eq]
      rw [fullSizeSource_eq]
      exact ⟨rfl, rfl⟩
    rw [h4.1, h4.2]
    exact farArea_cells
  have hfail : farPainting.m_tileManager.addTile farPainting.paneImgs
      farPainting.m_tziSource 1 4 = .error .tileRange := by
    apply TileManager.addTile_error
    · simp only [farPainting, fullSizeLayer_eq]
      rfl
    · simp only [farPainting, fullSizeLayer_eq, TileManager.newTile, fullSizeSource_no_tile]
  rw [hcells, addTiles_cons, hfail]

/-- C28, failing input: the layer over the 1000 x 800 image at ratio `1.0` (a 4 x 4 grid
of 256 x 256 tiles), its pane at (0, 0), and a frame of 500 x 400 at (1300, 0), wholly
beyond the right edge of the pane.  `calcVisible` stores the start column 5 and the
end column 3; the first loop is empty and the buffer loop calls `addTile(1, 4)` with
`4 = numCols`: `getTileUrl` throws its tile error and `paint` ends with the pane
hidden. -/
theorem paint_requests_outside_grid :
    getNumberOfRows fullSizeLayer.m_tziSource = .ok 4 ∧
    getNumberOfCols fullSizeLayer.m_tziSource = .ok 4 ∧
    (fullSizeLayer.paint (some farFrame) (some cornerPane) 256 256).1.m_visibleArea = farArea ∧
    visibleCells farArea ++ bufferCells farArea (4 - 1) (4 - 1)
      = [(1, 4), (1, 3), (2, 4), (2, 3)] ∧
    fullSizeLayer.m_tileManager.addTile [] fullSizeLayer.m_tziSource 1 4
      = .error Err.tileRange ∧
    (fullSizeLayer.paint (some farFrame) (some cornerPane) 256 256).2 = some Err.tileRange ∧
    (fullSizeLayer.paint (some farFrame) (some cornerPane) 256 256).1.paneImgs = [] ∧
    (fullSizeLayer.paint (some farFrame) (some cornerPane) 256 256).1.display
      = Display.hidden := by
  have hsrc : fullSizeLayer.m_tziSource = fullSizeSource := by rw [fullSizeLayer_eq]
  have hr : fullSizeLayer.m_tziSource.m_ready = true := by rw [hsrc, fullSizeSource_eq]
  have hva : calcVisible (some farFrame) (some cornerPane) 256 256
      fullSizeLayer.m_tziSource.m_currentLayer.nRows
      fullSizeLayer.m_tziSource.m_currentLayer.nCols
      fullSizeLayer.m_visibleArea false = farArea := by
    have h4 : fullSizeLayer.m_tziSource.m_currentLayer.nRows = 4 ∧
        fullSizeLayer.m_tziSource.m_currentLayer.nCols = 4 := by
      rw [hsrc, fullSizeSource_eq]
      exact ⟨rfl, rfl⟩
    rw [h4.1, h4.2, fullSizeLayer_eq]
    exact calcVisible_far
  have hpaint : fullSizeLayer.paint (some farFrame) (some cornerPane) 256 256
      = ({ farPainting with display := Display.hidden }, some Err.tileRange) := by
    rw [TziLayer.paint_changed fullSizeLayer _ _ _ _ hr (by rw [hva]; rfl), hva]
    exact farPainting_paintTiles
  rw [hpaint, hsrc]
  refine ⟨?_, ?_, rfl, farArea_cells, ?_, rfl, ?_, rfl⟩
  · rw [fullSizeSource_eq]
    simp [getNumberOfRows, checkReady]
  · rw [fullSizeSource_eq]
    simp [getNumberOfCols, checkReady]
  · apply TileManager.addTile_error
    · rw [fullSizeLayer_eq]
      rfl
    · simp only [TileManager.newTile, fullSizeSource_no_tile]
  · simp only [farPainting, fullSizeLayer_eq]

/-! ## Edge tiles -/

/-- The urls of the tiles of row 0 and of column 0 of the strip image. -/
theorem stripSource_url (r c : Int) (hr0 : 0 ≤ r) (hr1 : r < 4) (hc0 : 0 ≤ c) (hc1 : c < 4) :
    getTileUrl stripSource r c none
      = .ok ("http://host/api?id=strip&l=0&r=" ++ toString r ++ "&c=" ++ toString c) := by
  rw [getTileUrl_current]
  have hix : stripSource.m_currentLayer.ix = 0 := by rw [stripSource_eq]
  rw [hix]
  refine (getTileUrl_ok_iff stripSource
    [{ ratio := 1, w := 1024, h := 256, nRows := 4, nCols := 4 }] r c 0 _
    (by rw [stripSource_eq]) (by rw [stripSource_eq])).mpr ⟨⟨_, rfl, hr0, hr1, hc0, hc1⟩, ?_⟩
  rw [stripSource_eq]
  rfl

/-- The tile that `addTile(r, c)` makes on the strip layer, whatever tiles are active,
when tile `(r, c)` is not: it lies at `(c * 256, r * 64)`, and it is 0 wide in the last
column and 0 high in the last row. -/
theorem stripManager_addTile (a : TileId → Option Tile) (pane : List Tile) (r c : Int)
    (hr0 : 0 ≤ r) (hr1 : r < 4) (hc0 : 0 ≤ c) (hc1 : c < 4)
    (hfree : a (stripManager.tileId r c) = none) :
    ∃ img : Tile,
      ({ stripManager with activeImages := a } : TileManager).addTile pane stripSource r c
        = .ok (stripManager.tileId r c,
            { stripManager with
              activeImages := Function.update a (stripManager.tileId r c) (some img) },
            pane ++ [img]) ∧
      img.left = some (c * 256) ∧ img.top = some (r * 64) ∧
      img.width = (if c = 3 then some 0 else some 256) ∧
      img.height = (if r = 3 then some 0 else some 64) := by
  have hnew := TileManager.newTile_of_url { stripManager with activeImages := a } stripSource
    r c _ (stripSource_url r c hr0 hr1 hc0 hc1)
  refine ⟨_, TileManager.addTile_new { stripManager with activeImages := a } pane stripSource
    r c _ hfree hnew, rfl, rfl, ?_, ?_⟩
  · simp [stripManager]
  · simp [stripManager]

/-- The tiles of row 0 of the strip layer, made in one loop of `addTile` calls on the empty
pane: four tiles at 0, 256, 512 and 768, of widths 256, 256, 256 and 0. -/
theorem stripManager_row :
    ∃ (tm' : TileManager) (pane : List Tile) (vis : List TileId),
      addTiles stripSource [(0, 0), (0, 1), (0, 2), (0, 3)] stripManager [] []
        = ((tm', pane, vis), none) ∧
      pane.map Tile.left = [some 0, some 256, some 512, some 768] ∧
      pane.map Tile.width = [some 256, some 256, some 256, some 0] := by
  have hne : ∀ c c' : Int, c ≠ c' → stripManager.tileId 0 c ≠ stripManager.tileId 0 c' :=
    fun c c' hcc h => hcc (TileManager.tileId_inj _ _ _ _ _ h).2
  obtain ⟨i0, h0, l0, _, w0, _⟩ := stripManager_addTile (fun _ => none) [] 0 0
    (by decide) (by decide) (by decide) (by decide) rfl
  obtain ⟨i1, h1, l1, _, w1, _⟩ := stripManager_addTile
    (Function.update (fun _ => none) (stripManager.tileId 0 0) (some i0)) ([] ++ [i0]) 0 1
    (by decide) (by decide) (by decide) (by decide)
    (by rw [Function.update_noteq (hne 1 0 (by decide))])
  obtain ⟨i2, h2, l2, _, w2, _⟩ := stripManager_addTile
    (Function.update (Function.update (fun _ => none) (stripManager.tileId 0 0) (some i0))
      (stripManager.tileId 0 1) (some i1)) ([] ++ [i0] ++ [i1]) 0 2
    (by decide) (by decide) (by decide) (by decide)
    (by rw [Function.update_noteq (hne 2 1 (by decide)),
      Function.update_noteq (hne 2 0 (by decide))])
  obtain ⟨i3, h3, l3, _, w3, _⟩ := stripManager_addTile
    (Function.update (Function.update (Function.update (fun _ => none)
      (stripManager.tileId 0 0) (some i0)) (stripManager.tileId 0 1) (some i1))
      (stripManager.tileId 0 2) (some i2)) ([] ++ [i0] ++ [i1] ++ [i2]) 0 3
    (by decide) (by decide) (by decide) (by decide)
    (by rw [Function.update_noteq (hne 3 2 (by decide)),
      Function.update_noteq (hne 3 1 (by decide)),
      Function.update_noteq (hne 3 0 (by decide))])
  have hstart : stripManager = { stripManager with activeImages := fun _ => none } := rfl
  refine ⟨{ stripManager with
      activeImages := Function.update (Function.update (Function.update (Function.update
        (fun _ => none) (stripManager.tileId 0 0) (some i0)) (stripManager.tileId 0 1) (some i1))
        (stripManager.tileId 0 2) (some i2)) (stripManager.tileId 0 3) (some i3) },
    [i0, i1, i2, i3],
    [stripManager.tileId 0 3, stripManager.tileId 0 2, stripManager.tileId 0 1,
      stripManager.tileId 0 0], ?_, ?_, ?_⟩
  · rw [addTiles_cons]
    conv_lhs => rw [hstart]
    rw [h0]
    simp only []
    rw [addTiles_cons, h1]
    simp only []
    rw [addTiles_cons, h2]
    simp only []
    rw [addTiles_cons, h3]
    rfl
  · simp only [List.map, l0, l1, l2, l3]
    norm_num
  · simp only [List.map, w0, w1, w2, w3]
    norm_num

/-- When the image width `W` is not a multiple of the tile width `tw`, the tiles of a row,
`numCols - 1` of width `tw` and the edge tile of width `W mod tw`, are as wide as the
image together. -/
theorem edge_width_covers (W tw nCols e : Int) (hW : 0 < W) (htw : 0 < tw)
    (hn : nCols = ⌈(W : ℚ) / tw⌉) (he : jsMod W tw = some e) (hne : e ≠ 0) :
    0 < e ∧ (nCols - 1) * tw + e = W := by
  have he' : e = W % tw := by
    simp only [jsMod, if_neg (ne_of_gt htw), Option.some.injEq] at he
    rw [← he, Int.tmod_eq_emod (le_of_lt hW) (le_of_lt htw)]
  have hpos : 0 < e := by
    have := Int.emod_nonneg W (ne_of_gt htw)
    omega
  have hlt : e < tw := by
    rw [he']
    exact Int.emod_lt_of_pos W htw
  have hdiv : W = tw * (W / tw) + e := by
    rw [he']
    exact (Int.ediv_add_emod W tw).symm
  have htwq : (0 : ℚ) < tw := by exact_mod_cast htw
  have hWq : (W : ℚ) = tw * ((W / tw : Int) : ℚ) + e := by exact_mod_cast hdiv
  have hceil : ⌈(W : ℚ) / tw⌉ = W / tw + 1 := by
    rw [Int.ceil_eq_iff]
    have heq : (0 : ℚ) < e := by exact_mod_cast hpos
    have hetw : (e : ℚ) < tw := by exact_mod_cast hlt
    constructor
    · rw [lt_div_iff₀ htwq]
      push_cast
      nlinarith
    · rw [div_le_iff₀ htwq]
      push_cast
      nlinarith
  refine ⟨hpos, ?_⟩
  rw [hn, hceil]
  linarith [hdiv, mul_comm tw (W / tw)]

/-- C29, failing input: the 1024 x 256 image cut into 4 x 4 tiles of 256 x 64, at its one
level (`adjust = 1`, `numCols = ceil(1024 / 256) = 4`).  After `reset()` the tile manager
holds the edge width `1024 mod 256 = 0`; the four tiles that a loop of `addTile` calls
makes for row 0 lie at 0, 256, 512 and 768 and are 256, 256, 256 and 0 wide: the last one
has no width and the widths sum to 768, not 1024.  Likewise tile (3, 0) is 0 high. -/
theorem edge_tile_zero_width :
    stripLayer.m_tziSource.m_currentLayer.adjust = 1 ∧
    getWidth stripLayer.m_tziSource = .ok 1024 ∧
    getNumberOfCols stripLayer.m_tziSource = .ok 4 ∧
    stripLayer.m_tileManager.tw = some 256 ∧ ⌈(1024 : ℚ) / 256⌉ = 4 ∧
    stripLayer.m_tileManager.ew = some 0 ∧ stripLayer.m_tileManager.eh = some 0 ∧
    (∃ (tm' : TileManager) (pane : List Tile) (vis : List TileId),
      addTiles stripLayer.m_tziSource [(0, 0), (0, 1), (0, 2), (0, 3)]
          stripLayer.m_tileManager stripLayer.paneImgs []
        = ((tm', pane, vis), none) ∧
      pane.map Tile.left = [some 0, some 256, some 512, some 768] ∧
      pane.map Tile.width = [some 256, some 256, some 256, some 0] ∧
      ((pane.map Tile.width).map fun w => w.getD 0).sum = 768) ∧
    ∃ (tm' : TileManager) (img : Tile),
      stripLayer.m_tileManager.addTile stripLayer.paneImgs stripLayer.m_tziSource 3 0
        = .ok (stripLayer.m_tileManager.tileId 3 0, tm', [img]) ∧
      img.top = some 192 ∧ img.height = some 0 := by
  rw [stripLayer_eq]
  refine ⟨?_, ?_, ?_, rfl, ?_, rfl, rfl, ?_, ?_⟩
  · rw [stripSource_eq]
  · rw [stripSource_eq]
    simp [getWidth, checkReady]
  · rw [stripSource_eq]
    simp [getNumberOfCols, checkReady]
  · rw [Int.ceil_eq_iff]
    norm_num
  · obtain ⟨tm', pane, vis, hrow, hl, hw⟩ := stripManager_row
    refine ⟨tm', pane, vis, hrow, hl, hw, ?_⟩
    rw [hw]
    rfl
  · obtain ⟨img, h, _, ht, _, hh⟩ := stripManager_addTile (fun _ => none) [] 3 0
      (by decide) (by decide) (by decide) (by decide) rfl
    exact ⟨_, img, h, by rw [ht]; rfl, by rw [hh]; rfl⟩

/-! ## The cached geometry after `reset` -/

/-- When the current level is among the levels closest to `ratio`, `findClosestLevel` keeps
it. -/
theorem findClosestLevel_of_minimizer (s : Source) (layers : List FixedLayer)
    (cur : FixedLayer) (ratio : ℚ) (hl : s.m_layers = some layers)
    (hc : jsIndex layers s.m_currentLayer.ix = some cur)
    (hmin : ∀ l ∈ layers, |ratio - cur.ratio| ≤ |ratio - l.ratio|) :
    findClosestLevel s ratio = .ok s.m_currentLayer.ix := by
  rcases findClosestLevel_spec s layers cur ratio hl hc with h | ⟨i, l, hget, _, hlt, _, _⟩
  · exact h.1
  · exact absurd (hmin l (List.get?_mem hget)) (not_le.mpr hlt)

/-- A second `setRatio` with the same ratio changes nothing. -/
theorem setRatio_twice (s s' : Source) (layers : List FixedLayer) (ratio : ℚ)
    (hr : s.m_ready = true) (hl : s.m_layers = some layers)
    (h0 : 0 ≤ s.m_currentLayer.ix) (h1 : s.m_currentLayer.ix < layers.length)
    (hset : setRatio s (some ratio) = .ok (ratio, s')) :
    setRatio s' (some ratio) = .ok (ratio, s') := by
  obtain ⟨i, li, hf, hi, hmin⟩ := findClosestLevel_minimizes_aux s layers ratio hl h0 h1
  have hs' := setRatio_of_findClosestLevel s layers ratio i li hr hl hf hi
  rw [hset] at hs'
  simp only [Except.ok.injEq, Prod.mk.injEq, true_and] at hs'
  subst hs'
  have hf' := findClosestLevel_of_minimizer
    { s with m_currentLayer :=
        { ix := i, ratio := ratio, adjust := ratio / li.ratio,
          w := jsRound (li.w * (ratio / li.ratio)), h := jsRound (li.h * (ratio / li.ratio)),
          nCols := li.nCols, nRows := li.nRows } } layers li ratio hl hi hmin
  exact setRatio_of_findClosestLevel _ layers ratio i li hr hl hf' hi

/-- The loop "remove tiles" of `reset` touches nothing but `activeImages`. -/
theorem removeAll_geometry (xs : List Tile) :
    ∀ (tm : TileManager) (pane : List Tile),
      (xs.foldl (fun (st : TileManager × List Tile) img => st.1.removeTile st.2 img)
        (tm, pane)).1
      = { tm with activeImages :=
            (xs.foldl (fun (st : TileManager × List Tile) img => st.1.removeTile st.2 img)
              (tm, pane)).1.activeImages } := by
  induction xs with
  | nil => intro tm pane; rfl
  | cons a xs ih =>
    intro tm pane
    rw [List.foldl_cons]
    rw [ih]
    rfl

/-- One `reset()` on a ready source: when the ratio differs from the cached one, or the
cached geometry was current and the source settled on its ratio, the cached geometry
is current afterwards and the source has settled on the ratio. -/
theorem TziLayer.reset_current (L : TziLayer) (layers : List FixedLayer) (ratio : ℚ)
    (hr : L.m_tziSource.m_ready = true) (hl : L.m_tziSource.m_layers = some layers)
    (h0 : 0 ≤ L.m_tziSource.m_currentLayer.ix)
    (h1 : L.m_tziSource.m_currentLayer.ix < layers.length)
    (h : L.m_tileManager.ratio ≠ ratio ∨
      (L.GeometryCurrent ∧
        setRatio L.m_tziSource (some L.m_tziSource.m_currentLayer.ratio)
          = .ok (L.m_tziSource.m_currentLayer.ratio, L.m_tziSource))) :
    (L.reset ratio).1.m_tziSource.m_ready = true ∧
    (L.reset ratio).1.m_tziSource.m_layers = some layers ∧
    0 ≤ (L.reset ratio).1.m_tziSource.m_currentLayer.ix ∧
    (L.reset ratio).1.m_tziSource.m_currentLayer.ix < layers.length ∧
    (L.reset ratio).1.GeometryCurrent ∧
    setRatio (L.reset ratio).1.m_tziSource
        (some (L.reset ratio).1.m_tziSource.m_currentLayer.ratio)
      = .ok ((L.reset ratio).1.m_tziSource.m_currentLayer.ratio,
          (L.reset ratio).1.m_tziSource) := by
  obtain ⟨s', hset, hr1, hl1, h01, h11, hratio⟩ :=
    setRatio_ready L.m_tziSource layers ratio hr hl h0 h1
  have hstable : setRatio s' (some s'.m_currentLayer.ratio)
      = .ok (s'.m_currentLayer.ratio, s') := by
    rw [hratio]
    exact setRatio_twice L.m_tziSource s' layers ratio hr hl h0 h1 hset
  by_cases hne : L.m_tileManager.ratio = ratio
  · -- the cached ratio is the one asked for: `update()` returns at once
    rcases h with h | ⟨hgeo, hself⟩
    · exact absurd hne h
    · have hsame : L.m_tziSource.m_currentLayer.ratio = ratio := by
        rw [← hgeo.2.1]
        exact hne
      rw [hsame, hset] at hself
      simp only [Except.ok.injEq, Prod.mk.injEq, true_and] at hself
      have hup := TileManager.update_of_eq L.m_tileManager s' hr1 (by rw [hratio]; exact hne)
      rw [TziLayer.reset_eq L ratio s' L.m_tileManager hr hset hup]
      refine ⟨hr1, hl1, h01, h11, ?_, hstable⟩
      unfold TziLayer.GeometryCurrent
      simp only []
      rw [removeAll_geometry, hself]
      exact hgeo
  · have hne' : L.m_tileManager.ratio ≠ s'.m_currentLayer.ratio := by
      rw [hratio]
      exact hne
    have hup := TileManager.update_of_ne L.m_tileManager s' hr1 hne'
    rw [TziLayer.reset_eq L ratio s' _ hr hset hup]
    refine ⟨hr1, hl1, h01, h11, ?_, hstable⟩
    unfold TziLayer.GeometryCurrent
    simp only []
    rw [removeAll_geometry]
    exact ⟨rfl, rfl, rfl, rfl, rfl, rfl, rfl, rfl⟩

/-- A call of `paint` on a ready source leaves the source as it was and touches nothing of
the tile manager but `activeImages`. -/
theorem TziLayer.paint_frame (L : TziLayer) (frame pane : Option Region) (th tw : ℚ)
    (hr : L.m_tziSource.m_ready = true) :
    (L.paint frame pane th tw).1.m_tziSource = L.m_tziSource ∧
    (L.paint frame pane th tw).1.m_tileManager
      = { L.m_tileManager with
          activeImages := (L.paint frame pane th tw).1.m_tileManager.activeImages } := by
  have hpass : ∀ M : TziLayer, M.m_tziSource.m_ready = true →
      M.paintTiles.1.m_tziSource = M.m_tziSource ∧
      M.paintTiles.1.m_tileManager
        = { M.m_tileManager with activeImages := M.paintTiles.1.m_tileManager.activeImages } := by
    intro M hM
    rw [TziLayer.paintTiles_eq M hM]
    cases hadd : addTiles M.m_tziSource
        (visibleCells M.m_visibleArea ++ bufferCells M.m_visibleArea
          (M.m_tziSource.m_currentLayer.nRows - 1) (M.m_tziSource.m_currentLayer.nCols - 1))
        M.m_tileManager M.paneImgs [] with
    | mk st oe =>
      obtain ⟨tm, pane', vis⟩ := st
      obtain ⟨hgeo, _, _, _⟩ := addTiles_frame _ _ _ _ _ _ _ _ _ hadd
      cases oe with
      | some e => exact ⟨rfl, hgeo⟩
      | none =>
        refine ⟨rfl, ?_⟩
        show (removeHidden vis pane' tm pane').1 = _
        rw [(removeHidden_pane vis tm pane').2.1, hgeo]
  by_cases hch : (calcVisible frame pane th tw L.m_tziSource.m_currentLayer.nRows
      L.m_tziSource.m_currentLayer.nCols L.m_visibleArea false).changed = true
  · rw [TziLayer.paint_changed L frame pane th tw hr hch]
    exact hpass _ hr
  · have hfalse : (calcVisible frame pane th tw L.m_tziSource.m_currentLayer.nRows
        L.m_tziSource.m_currentLayer.nCols L.m_visibleArea false).changed = false := by
      cases h : (calcVisible frame pane th tw L.m_tziSource.m_currentLayer.nRows
        L.m_tziSource.m_currentLayer.nCols L.m_visibleArea false).changed with
      | true => exact absurd h hch
      | false => rfl
    simp only [TziLayer.paint, isReady, getNumberOfRows, getNumberOfCols, checkReady, hr,
      if_true, hfalse]
    exact ⟨rfl, rfl⟩

/-- A call of `paint` on a ready source keeps the cached geometry current and the cached
ratio as it was. -/
theorem TziLayer.paint_current (L : TziLayer) (frame pane : Option Region) (th tw : ℚ)
    (hr : L.m_tziSource.m_ready = true) :
    (L.paint frame pane th tw).1.m_tileManager.ratio = L.m_tileManager.ratio ∧
    (L.GeometryCurrent → (L.paint frame pane th tw).1.GeometryCurrent) := by
  obtain ⟨hsrc, htm⟩ := TziLayer.paint_frame L frame pane th tw hr
  constructor
  · rw [htm]
  · intro hgeo
    unfold TziLayer.GeometryCurrent
    rw [hsrc, htm]
    exact hgeo

/-- A sequence of `reset` and `paint` calls on a ready source, from a layer whose tile
manager either still has its initial ratio 0 and will see a `reset`, or has cached
the current geometry of a source settled on its ratio: when no `reset` is at ratio 0,
the cached geometry is current after the sequence. -/
theorem TziLayer.calls_current (layers : List FixedLayer) (cs : List LayerCall) :
    ∀ L : TziLayer, L.m_tziSource.m_ready = true → L.m_tziSource.m_layers = some layers →
      0 ≤ L.m_tziSource.m_currentLayer.ix → L.m_tziSource.m_currentLayer.ix < layers.length →
      ((L.m_tileManager.ratio = 0 ∧ ∃ ratio, LayerCall.reset ratio ∈ cs) ∨
        (L.GeometryCurrent ∧
          setRatio L.m_tziSource (some L.m_tziSource.m_currentLayer.ratio)
            = .ok (L.m_tziSource.m_currentLayer.ratio, L.m_tziSource))) →
      (∀ ratio, LayerCall.reset ratio ∈ cs → ratio ≠ 0) →
      (L.calls cs).m_tziSource.m_ready = true ∧ (L.calls cs).GeometryCurrent := by
  induction cs with
  | nil =>
    intro L hr _ _ _ h _
    rcases h with ⟨_, ratio, hmem⟩ | ⟨hgeo, _⟩
    · exact absurd hmem (List.not_mem_nil _)
    · exact ⟨hr, hgeo⟩
  | cons c cs ih =>
    intro L hr hl h0 h1 h hnz
    have hnz' : ∀ ratio, LayerCall.reset ratio ∈ cs → ratio ≠ 0 :=
      fun ratio hmem => hnz ratio (List.mem_cons_of_mem _ hmem)
    show ((L.call c).calls cs).m_tziSource.m_ready = true ∧ ((L.call c).calls cs).GeometryCurrent
    cases c with
    | reset ratio =>
      have hratio : ratio ≠ 0 := hnz ratio (List.mem_cons_self _ _)
      obtain ⟨hr', hl', h0', h1', hgeo', hst'⟩ := TziLayer.reset_current L layers ratio hr hl
        h0 h1 (by
          rcases h with ⟨hzero, _⟩ | hcur
          · left
            rw [hzero]
            exact Ne.symm hratio
          · exact Or.inr hcur)
      exact ih (L.call (.reset ratio)) hr' hl' h0' h1' (Or.inr ⟨hgeo', hst'⟩) hnz'
    | paint frame pane th tw =>
      obtain ⟨hsrc, _⟩ := TziLayer.paint_frame L frame pane th tw hr
      obtain ⟨hkeep, hcur⟩ := TziLayer.paint_current L frame pane th tw hr
      have hsrc' : (L.call (.paint frame pane th tw)).m_tziSource = L.m_tziSource := hsrc
      refine ih (L.call (.paint frame pane th tw)) (by rw [hsrc']; exact hr)
        (by rw [hsrc']; exact hl) (by rw [hsrc']; exact h0) (by rw [hsrc']; exact h1) ?_ hnz'
      rcases h with ⟨hzero, ratio, hmem⟩ | ⟨hgeo, hst⟩
      · left
        refine ⟨hkeep.trans hzero, ratio, ?_⟩
        rcases List.mem_cons.mp hmem with heq | hmem'
        · exact absurd heq (by simp)
        · exact hmem'
      · right
        refine ⟨hcur hgeo, ?_⟩
        rw [hsrc']
        exact hst

/-- C30. On a new layer over a ready source, after a sequence of `reset()` and `paint()`
calls that has a `reset()`, none of them at a viewport ratio of 0 (so after every
`reset()` of such a sequence), the geometry cached by the tile manager is the one the
source gives now: the level index, the rounded tile width and height, the index of
the last column and row, and the edge width and height, although `update()` returns
at once when the cached ratio is the ratio of the source. -/
theorem reset_geometry_current (id : String) (s : Source) (layers : List FixedLayer)
    (cs : List LayerCall) (L : TziLayer)
    (hr : isReady s = true) (hl : s.m_layers = some layers)
    (h0 : 0 ≤ s.m_currentLayer.ix) (h1 : s.m_currentLayer.ix < layers.length)
    (hreset : ∃ ratio, LayerCall.reset ratio ∈ cs)
    (hnz : ∀ ratio, LayerCall.reset ratio ∈ cs → ratio ≠ 0)
    (hL : (TziLayer.init id s).calls cs = L) :
    getZoomLevel L.m_tziSource = .ok L.m_tileManager.ix ∧
    getRatio L.m_tziSource = .ok L.m_tileManager.ratio ∧
    (getTileWidth L.m_tziSource).map (Option.map jsRound) = .ok L.m_tileManager.tw ∧
    (getTileHeight L.m_tziSource).map (Option.map jsRound) = .ok L.m_tileManager.th ∧
    (getNumberOfCols L.m_tziSource).map (fun n => n - 1) = .ok L.m_tileManager.rCol ∧
    (getNumberOfRows L.m_tziSource).map (fun n => n - 1) = .ok L.m_tileManager.bRow ∧
    (getWidth L.m_tziSource).map (fun w => L.m_tileManager.tw.bind (jsMod w))
      = .ok L.m_tileManager.ew ∧
    (getHeight L.m_tziSource).map (fun h => L.m_tileManager.th.bind (jsMod h))
      = .ok L.m_tileManager.eh := by
  obtain ⟨hready, hgeo⟩ := TziLayer.calls_current layers cs (TziLayer.init id s) hr hl h0 h1
    (Or.inl ⟨rfl, hreset⟩) hnz
  rw [hL] at hready hgeo
  obtain ⟨g1, g2, g3, g4, g5, g6, g7, g8⟩ := hgeo
  simp only [getZoomLevel, getRatio, getTileWidth, getTileHeight, getNumberOfCols,
    getNumberOfRows, getWidth, getHeight, checkReady, hready, if_true, Except.map]
  exact ⟨by rw [g1], by rw [g2], by rw [g3], by rw [g4], by rw [g5], by rw [g6], by rw [g7],
    by rw [g8]⟩

/-- C30 on a new layer over the pyramid of the 1000 x 800 image: `reset()` at ratio `1.0`,
`paint()`, and `reset()` at ratio `1.0` again, where `update()` returns at once. -/
theorem reset_geometry_current_witness :
    getZoomLevel ((TziLayer.init "tzilayer_1" pyramidSource).calls
      [.reset 1, .paint (some cornerFrame) (some cornerPane) 256 256, .reset 1]).m_tziSource
      = .ok ((TziLayer.init "tzilayer_1" pyramidSource).calls
        [.reset 1, .paint (some cornerFrame) (some cornerPane) 256 256,
          .reset 1]).m_tileManager.ix ∧
    (getWidth ((TziLayer.init "tzilayer_1" pyramidSource).calls
      [.reset 1, .paint (some cornerFrame) (some cornerPane) 256 256,
        .reset 1]).m_tziSource).map
        (fun w => ((TziLayer.init "tzilayer_1" pyramidSource).calls
          [.reset 1, .paint (some cornerFrame) (some cornerPane) 256 256,
            .reset 1]).m_tileManager.tw.bind (jsMod w))
      = .ok ((TziLayer.init "tzilayer_1" pyramidSource).calls
        [.reset 1, .paint (some cornerFrame) (some cornerPane) 256 256,
          .reset 1]).m_tileManager.ew :=
  have h := reset_geometry_current "tzilayer_1" pyramidSource pyramidLayers
    [.reset 1, .paint (some cornerFrame) (some cornerPane) 256 256, .reset 1] _
    (by rw [pyramidSource_eq]; rfl) (by rw [pyramidSource_eq])
    (by rw [pyramidSource_eq]; decide) (by rw [pyramidSource_eq]; decide)
    ⟨1, List.mem_cons_self _ _⟩
    (by
      intro ratio hmem
      simp only [List.mem_cons, LayerCall.reset.injEq, List.mem_singleton, List.not_mem_nil,
        or_false, false_or, reduceCtorEq] at hmem
      rcases hmem with rfl | rfl <;> norm_num)
    rfl
  ⟨h.1, h.2.2.2.2.2.2.1⟩

end Tzivi
